import Mathlib

/-! mlxsw "minimal" driver: line-card / module / port lifecycle

A shallow embedding of `drivers/net/ethernet/mellanox/mlxsw/minimal.c`.

* C structures become Lean structures with the same field names; machine
  integers are `Nat`/`Int`, and every store into a `u8`/`u16` field carries an
  explicit `% 256` / `% 65536`.
* The driver state `mlxsw_m` and the state of the collaborators the driver
  calls (host network stack, core port registry, module-environment service)
  are threaded explicitly through every function as a `State`.
* The answers of the collaborators (register queries, allocation, interface
  registration) are read from an `Env`.
* Every function returns an `Option`: `none` stands for undefined behaviour of
  the C program (an out-of-bounds table access or a NULL dereference).
-/

namespace Mlxsw

/-! ## Data model -/

/-- Value of the errno constant `EINVAL`. -/
def EINVAL : Int := 22

/-- Value of the errno constant `ENOMEM`. -/
def ENOMEM : Int := 12

/-- Port private data, `struct mlxsw_m_port`; `dev` is the handle of the
network interface the port lives in. -/
structure mlxsw_m_port where
  dev : Nat
  local_port : Nat
  module : Nat
  slot_index : Nat
  module_offset : Nat
deriving DecidableEq

/-- Mapping entry, `struct mlxsw_m_port_mapping`; a NULL `port` is `none`. -/
structure mlxsw_m_port_mapping where
  port : Option mlxsw_m_port
  module_to_port : Int
  module : Nat
deriving DecidableEq

/-- Line card record, `struct mlxsw_m_line_card`; the flexible array member
`port_mapping[]` is a list whose length is the allocated size. -/
structure mlxsw_m_line_card where
  max_ports : Nat
  module_offset : Nat
  active : Bool
  port_mapping : List mlxsw_m_port_mapping
deriving DecidableEq

/-- Driver private data, `struct mlxsw_m` (the fields the lifecycle uses).
`line_cards` is the array of allocated records; a freed or not yet allocated
array is the empty list. -/
structure mlxsw_m where
  max_ports : Nat
  max_module_count : Nat
  num_of_slots : Nat
  line_cards : List mlxsw_m_line_card
deriving DecidableEq

/-- Calls made to the collaborators, in the order they are recorded. -/
inductive Event where
  | env_module_port_map (slot_index module : Nat)
  | env_module_port_unmap (slot_index module : Nat)
  | core_port_init (local_port slot_index port_number : Nat)
  | core_port_fini (local_port : Nat)
  | core_port_eth_set (local_port dev : Nat)
  | core_port_clear (local_port : Nat)
  | alloc_etherdev (dev : Nat)
  | free_netdev (dev : Nat)
  | register_netdev (dev : Nat)
  | unregister_netdev (dev : Nat)
  | netif_carrier_off (dev : Nat)
deriving DecidableEq

/-- A network interface object of the host stack: its handle, the last byte
of its hardware address (`dev_addr[ETH_ALEN - 1]`) and whether it is
registered. -/
structure net_device where
  id : Nat
  dev_addr_last : Nat
  registered : Bool
deriving DecidableEq

/-- State of the collaborators: the interfaces currently allocated, the next
fresh interface handle, the local ports whose core-port registry entry is
initialised, and the record of calls (most recent first). -/
structure World where
  netdevs : List net_device
  next_dev : Nat
  core_ports : List Nat
  log : List Event
deriving DecidableEq

/-- Driver state together with the state of its collaborators. -/
structure State where
  m : mlxsw_m
  w : World
deriving DecidableEq

/-- Payload of the MGPIR register as the driver unpacks it. -/
structure mgpir_pl where
  num_of_modules : Nat
  num_of_slots : Nat
  max_modules_per_slot : Nat
deriving DecidableEq

/-- Answers of the collaborators. Error codes are the `int` results of the
calls (0 is success); the port-creation answers are keyed by slot and local
port. -/
structure Env where
  mgpir_err : Nat → Int
  mgpir : Nat → mgpir_pl
  core_max_ports : Nat
  core_port_init_err : Nat → Nat → Int
  alloc_etherdev_ok : Nat → Nat → Bool
  ppad_err : Nat → Nat → Int
  register_netdev_err : Nat → Nat → Int
  fw_rev_ok : Bool
  kcalloc_ok : Bool
  kzalloc_ok : Nat → Bool
  linecards_count : Option Nat
  event_ops_register_err : Int

/-! ## Collaborators -/

/-- Modelled from the spec: module-environment service `module_port_map`,
whose code is outside this file; the call is recorded. -/
def mlxsw_env_module_port_map (w : World) (slot_index module : Nat) : World :=
  { w with log := Event.env_module_port_map slot_index module :: w.log }

/-- Modelled from the spec: module-environment service `module_port_unmap`;
the call is recorded. -/
def mlxsw_env_module_port_unmap (w : World) (slot_index module : Nat) : World :=
  { w with log := Event.env_module_port_unmap slot_index module :: w.log }

/-- Modelled from the spec: a failed `port_init` of the core port registry
leaves the registry as it was; the call is recorded. -/
def mlxsw_core_port_init_failed (w : World) (local_port slot_index port_number : Nat) : World :=
  { w with log := Event.core_port_init local_port slot_index port_number :: w.log }

/-- Modelled from the spec: a successful `port_init` of the core port registry
initialises the entry of `local_port`. -/
def mlxsw_core_port_init (w : World) (local_port slot_index port_number : Nat) : World :=
  { w with core_ports := local_port :: w.core_ports,
           log := Event.core_port_init local_port slot_index port_number :: w.log }

/-- Modelled from the spec: `port_fini` releases the core port registry entry
of `local_port`. -/
def mlxsw_core_port_fini (w : World) (local_port : Nat) : World :=
  { w with core_ports := w.core_ports.erase local_port,
           log := Event.core_port_fini local_port :: w.log }

/-- Modelled from the spec: `port_eth_bind` of the core port registry; the
call is recorded. -/
def mlxsw_core_port_eth_set (w : World) (local_port dev : Nat) : World :=
  { w with log := Event.core_port_eth_set local_port dev :: w.log }

/-- Modelled from the spec: `port_clear` of the core port registry; the call
is recorded. -/
def mlxsw_core_port_clear (w : World) (local_port : Nat) : World :=
  { w with log := Event.core_port_clear local_port :: w.log }

/-- Modelled from the spec: host stack interface allocation; returns the fresh
handle and the new state, the interface is allocated and not registered. -/
def alloc_etherdev (w : World) : Nat × World :=
  (w.next_dev,
   { w with netdevs := { id := w.next_dev, dev_addr_last := 0, registered := false } :: w.netdevs,
            next_dev := w.next_dev + 1,
            log := Event.alloc_etherdev w.next_dev :: w.log })

/-- Modelled from the spec: host stack interface free. -/
def free_netdev (w : World) (dev : Nat) : World :=
  { w with netdevs := w.netdevs.filter (fun d => d.id != dev),
           log := Event.free_netdev dev :: w.log }

/-- Modelled from the spec: a failed interface registration leaves the
interface unregistered; the call is recorded. -/
def register_netdev_failed (w : World) (dev : Nat) : World :=
  { w with log := Event.register_netdev dev :: w.log }

/-- Modelled from the spec: a successful interface registration. -/
def register_netdev (w : World) (dev : Nat) : World :=
  { w with netdevs := w.netdevs.map (fun d => if d.id = dev then { d with registered := true } else d),
           log := Event.register_netdev dev :: w.log }

/-- Modelled from the spec: interface unregistration. -/
def unregister_netdev (w : World) (dev : Nat) : World :=
  { w with netdevs := w.netdevs.map (fun d => if d.id = dev then { d with registered := false } else d),
           log := Event.unregister_netdev dev :: w.log }

/-- Modelled from the spec: carrier-down signalling; the call is recorded. -/
def netif_carrier_off (w : World) (dev : Nat) : World :=
  { w with log := Event.netif_carrier_off dev :: w.log }

/-- Store into `dev->dev_addr[ETH_ALEN - 1]` (an unsigned char). -/
def dev_addr_last_set (w : World) (dev : Nat) (v : Nat) : World :=
  { w with netdevs := w.netdevs.map (fun d => if d.id = dev then { d with dev_addr_last := v % 256 } else d) }

/-! ## Loops -/

/-- The loop `for (i = i0; i < i0 + n; i++) { err = body(i); if (err) break; }`.
Returns the error code, the value of `i` when the loop is left and the
state. -/
def for_up {σ : Type} (body : Nat → σ → Option (Int × σ)) : Nat → Nat → σ → Option (Int × Nat × σ)
  | 0, i, st => some (0, i, st)
  | n + 1, i, st =>
    match body i st with
    | none => none
    | some (err, st1) => if err ≠ 0 then some (err, i, st1) else for_up body n (i + 1) st1

/-- The loop `for (i--; i >= 0; i--) body(i);` entered with the given `i`. -/
def for_down {σ : Type} (body : Nat → σ → Option σ) : Nat → σ → Option σ
  | 0, st => some st
  | i + 1, st =>
    match body i st with
    | none => none
    | some st1 => for_down body i st1

/-- The loop `for (i--; i > 0; i--) body(i);` entered with the given `i`. -/
def for_down_pos {σ : Type} (body : Nat → σ → Option σ) : Nat → σ → Option σ
  | 0, st => some st
  | 1, st => some st
  | i + 2, st =>
    match body (i + 1) st with
    | none => none
    | some st1 => for_down_pos body (i + 1) st1

/-! ## The driver -/

/-- `mlxsw_m_port_mapping_get`, read through the returned pointer. -/
def mlxsw_m_port_mapping_get (m : mlxsw_m) (slot_index local_port : Nat) :
    Option mlxsw_m_port_mapping :=
  match m.line_cards[slot_index]? with
  | none => none
  | some lc => lc.port_mapping[local_port]?

/-- Store of a whole line card record `line_cards[slot_index]`. -/
def line_card_put (m : mlxsw_m) (slot_index : Nat) (lc : mlxsw_m_line_card) : mlxsw_m :=
  { m with line_cards := m.line_cards.set slot_index lc }

/-- Store through the pointer returned by `mlxsw_m_port_mapping_get`. -/
def port_mapping_put (m : mlxsw_m) (slot_index local_port : Nat)
    (pm : mlxsw_m_port_mapping) : mlxsw_m :=
  match m.line_cards[slot_index]? with
  | none => m
  | some lc =>
    line_card_put m slot_index { lc with port_mapping := lc.port_mapping.set local_port pm }

/-- Conversion of an `int` to `u16`. -/
def to_u16 (x : Int) : Nat := (x % 65536).toNat

/-- `mlxsw_m_port_dev_addr_get`: returns the error of the PPAD query, or stores
the last address byte `module + 1 + module_offset`. -/
def mlxsw_m_port_dev_addr_get (env : Env) (w : World) (port : mlxsw_m_port) : Int × World :=
  if env.ppad_err port.slot_index port.local_port ≠ 0 then
    (env.ppad_err port.slot_index port.local_port, w)
  else
    (0, dev_addr_last_set w port.dev (port.module + 1 + port.module_offset))

/-- `mlxsw_m_port_create`. -/
def mlxsw_m_port_create (env : Env) (st : State) (slot_index local_port module : Nat) :
    Option (Int × State) :=
  match st.m.line_cards[slot_index]? with
  | none => none
  | some lc =>
    let module_offset := lc.module_offset
    if env.core_port_init_err slot_index local_port ≠ 0 then
      some (env.core_port_init_err slot_index local_port,
            { st with w := mlxsw_core_port_init_failed st.w local_port slot_index
                             (module + 1 + module_offset) })
    else
      let w1 := mlxsw_core_port_init st.w local_port slot_index (module + 1 + module_offset)
      if env.alloc_etherdev_ok slot_index local_port = false then
        some (-ENOMEM, { st with w := mlxsw_core_port_fini w1 local_port })
      else
        let dev := (alloc_etherdev w1).1
        let w2 := (alloc_etherdev w1).2
        let mlxsw_m_port : mlxsw_m_port :=
          { dev := dev, local_port := local_port, module := module,
            slot_index := slot_index, module_offset := module_offset }
        let err := (mlxsw_m_port_dev_addr_get env w2 mlxsw_m_port).1
        let w3 := (mlxsw_m_port_dev_addr_get env w2 mlxsw_m_port).2
        if err ≠ 0 then
          some (err, { st with w := mlxsw_core_port_fini (free_netdev w3 dev) local_port })
        else
          let w4 := netif_carrier_off w3 dev
          match mlxsw_m_port_mapping_get st.m slot_index local_port with
          | none => none
          | some port_mapping =>
            let m1 := port_mapping_put st.m slot_index local_port
                        { port_mapping with port := some mlxsw_m_port }
            if env.register_netdev_err slot_index local_port ≠ 0 then
              some (env.register_netdev_err slot_index local_port,
                    { m := port_mapping_put m1 slot_index local_port
                             { port_mapping with port := none },
                      w := mlxsw_core_port_fini
                             (free_netdev (register_netdev_failed w4 dev) dev) local_port })
            else
              some (0, { m := m1,
                         w := mlxsw_core_port_eth_set (register_netdev w4 dev) local_port dev })

/-- `mlxsw_m_port_remove`. -/
def mlxsw_m_port_remove (st : State) (slot_index local_port : Nat) : Option State :=
  match mlxsw_m_port_mapping_get st.m slot_index local_port with
  | none => none
  | some port_mapping =>
    match port_mapping.port with
    | none => none
    | some mlxsw_m_port =>
      let w1 := mlxsw_core_port_clear st.w local_port
      let w2 := unregister_netdev w1 mlxsw_m_port.dev
      let m1 := port_mapping_put st.m slot_index local_port { port_mapping with port := none }
      let w3 := free_netdev w2 mlxsw_m_port.dev
      some { m := m1, w := mlxsw_core_port_fini w3 local_port }

/-- `mlxsw_m_port_module_map`. The comparison is between `int` values (the
`u16` bound is promoted). -/
def mlxsw_m_port_module_map (st : State) (slot_index local_port module : Nat) :
    Option (Int × State) :=
  match mlxsw_m_port_mapping_get st.m slot_index local_port with
  | none => none
  | some port_mapping =>
    if port_mapping.module_to_port ≥ (st.m.max_ports : Int) then
      some (-EINVAL, st)
    else
      some (0, { m := port_mapping_put st.m slot_index local_port
                        { port_mapping with module_to_port := (local_port : Int), module := module },
                 w := mlxsw_env_module_port_map st.w slot_index module })

/-- `mlxsw_m_port_module_unmap`; the pointer argument is the entry at index
`i` of the slot. -/
def mlxsw_m_port_module_unmap (st : State) (slot_index i : Nat) : Option State :=
  match mlxsw_m_port_mapping_get st.m slot_index i with
  | none => none
  | some port_mapping =>
    some { m := port_mapping_put st.m slot_index i { port_mapping with module_to_port := -1 },
           w := mlxsw_env_module_port_unmap st.w slot_index port_mapping.module }

/-- Body of the mapping loop of `mlxsw_m_ports_create`. -/
def ports_create_map_body (slot_index : Nat) (i : Nat) (st : State) : Option (Int × State) :=
  match st.m.line_cards[slot_index]? with
  | none => none
  | some line_card =>
    mlxsw_m_port_module_map st slot_index ((i + line_card.module_offset) % 65536) ((i - 1) % 256)

/-- Body of the port creation loop of `mlxsw_m_ports_create`. -/
def ports_create_create_body (env : Env) (slot_index : Nat) (i : Nat) (st : State) :
    Option (Int × State) :=
  match mlxsw_m_port_mapping_get st.m slot_index i with
  | none => none
  | some port_mapping =>
    if port_mapping.module_to_port > 0 then
      mlxsw_m_port_create env st slot_index (to_u16 port_mapping.module_to_port)
        port_mapping.module
    else some (0, st)

/-- Body of the loop at `err_module_to_port_create`. -/
def ports_create_remove_body (slot_index : Nat) (i : Nat) (st : State) : Option State :=
  match mlxsw_m_port_mapping_get st.m slot_index i with
  | none => none
  | some port_mapping =>
    if port_mapping.module_to_port > 0 then
      mlxsw_m_port_remove st slot_index (to_u16 port_mapping.module_to_port)
    else some st

/-- Body of the loop at `err_module_to_port_map`. -/
def ports_create_unmap_body (slot_index : Nat) (i : Nat) (st : State) : Option State :=
  match mlxsw_m_port_mapping_get st.m slot_index i with
  | none => none
  | some port_mapping =>
    if port_mapping.module_to_port > 0 then mlxsw_m_port_module_unmap st slot_index i
    else some st

/-- The code at the label `err_module_to_port_map` of `mlxsw_m_ports_create`,
entered with loop index `i` and error `err`. -/
def err_module_to_port_map (slot_index i : Nat) (err : Int) (st : State) :
    Option (Int × State) :=
  match for_down_pos (ports_create_unmap_body slot_index) i st with
  | none => none
  | some st1 => some (err, st1)

/-- The code at the label `err_module_to_port_create` of
`mlxsw_m_ports_create`, entered with loop index `i` and error `err`; it sets
`i = mlxsw_m->max_ports` and falls through to `err_module_to_port_map`. -/
def err_module_to_port_create (slot_index i : Nat) (err : Int) (st : State) :
    Option (Int × State) :=
  match for_down (ports_create_remove_body slot_index) i st with
  | none => none
  | some st1 => err_module_to_port_map slot_index st1.m.max_ports err st1

/-- The two loops of `mlxsw_m_ports_create` and the jumps to its error
labels. The bound `max_ports` of the mapping loop is
`line_cards[slot_index]->max_ports`, which is not written inside the loop. -/
def ports_create_loops (env : Env) (slot_index max_ports : Nat) (st : State) :
    Option (Int × State) :=
  match for_up (ports_create_map_body slot_index) (max_ports - 1) 1 st with
  | none => none
  | some (err, i, st1) =>
    if err ≠ 0 then err_module_to_port_map slot_index i err st1
    else
      match for_up (ports_create_create_body env slot_index) st1.m.max_ports 0 st1 with
      | none => none
      | some (err, i, st2) =>
        if err ≠ 0 then err_module_to_port_create slot_index i err st2
        else some (0, st2)

/-- `mlxsw_m_ports_create`. -/
def mlxsw_m_ports_create (env : Env) (st : State) (slot_index : Nat) : Option (Int × State) :=
  if env.mgpir_err slot_index ≠ 0 then some (env.mgpir_err slot_index, st)
  else
    match st.m.line_cards[slot_index]? with
    | none => none
    | some line_card =>
      let max_ports := (env.mgpir slot_index).num_of_modules % 256
      if max_ports = 0 then
        some (0, { st with m := line_card_put st.m slot_index { line_card with max_ports := 0 } })
      else
        let lc1 : mlxsw_m_line_card :=
          { line_card with
            max_ports := (max_ports + 1) % 256,
            module_offset :=
              if slot_index ≠ 0 then ((slot_index - 1) * st.m.max_module_count) % 256 else 0 }
        ports_create_loops env slot_index lc1.max_ports
          { st with m := line_card_put st.m slot_index lc1 }

/-- Body of the loop of `mlxsw_m_ports_remove`. -/
def ports_remove_body (slot_index : Nat) (i : Nat) (st : State) : Option (Int × State) :=
  match mlxsw_m_port_mapping_get st.m slot_index i with
  | none => none
  | some port_mapping =>
    if port_mapping.module_to_port > 0 then
      match port_mapping.port with
      | none => none
      | some _ =>
        match mlxsw_m_port_remove st slot_index (to_u16 port_mapping.module_to_port) with
        | none => none
        | some st1 =>
          match mlxsw_m_port_module_unmap st1 slot_index i with
          | none => none
          | some st2 => some (0, st2)
    else some (0, st)

/-- `mlxsw_m_ports_remove`. -/
def mlxsw_m_ports_remove (st : State) (slot_index : Nat) : Option State :=
  match for_up (ports_remove_body slot_index) st.m.max_ports 0 st with
  | none => none
  | some (_, _, st1) => some st1

/-- `mlxsw_m_get_peripheral_info`; `num_of_slots` and `max_module_count` are
`u8` fields. -/
def mlxsw_m_get_peripheral_info (env : Env) (m : mlxsw_m) : Int × mlxsw_m :=
  if env.mgpir_err 0 ≠ 0 then (env.mgpir_err 0, m)
  else
    let module_count := (env.mgpir 0).num_of_modules % 256
    let num_of_slots := (env.mgpir 0).num_of_slots % 256
    let max_module_count :=
      if num_of_slots ≠ 0 then (env.mgpir 0).max_modules_per_slot % 256 else module_count
    (0, { m with max_module_count := max_module_count,
                 num_of_slots := (num_of_slots + 1) % 256 })

/-- Body of the invalidation loop of `mlxsw_env_line_cards_alloc` for slot
`i`. -/
def line_cards_alloc_invalidate_body (i : Nat) (j : Nat) (m : mlxsw_m) : Option (Int × mlxsw_m) :=
  match mlxsw_m_port_mapping_get m i j with
  | none => none
  | some port_mapping =>
    some (0, port_mapping_put m i j { port_mapping with module_to_port := -1 })

/-- A line card record as `kzalloc` returns it, with a table of `ports`
zeroed entries. -/
def line_card_zeroed (ports : Nat) : mlxsw_m_line_card :=
  { max_ports := 0, module_offset := 0, active := false,
    port_mapping := List.replicate ports { port := none, module_to_port := 0, module := 0 } }

/-- Body of the slot loop of `mlxsw_env_line_cards_alloc`: `kzalloc` of a
zeroed record with `max_ports` entries, then the invalidation loop, whose
bound is the field `mlxsw_m->max_ports`. A failed `kzalloc` yields a non-zero
code. -/
def line_cards_alloc_body (env : Env) (max_ports : Nat) (i : Nat) (m : mlxsw_m) :
    Option (Int × mlxsw_m) :=
  if env.kzalloc_ok i = false then some (-ENOMEM, m)
  else
    let m1 : mlxsw_m := { m with line_cards := m.line_cards ++ [line_card_zeroed max_ports] }
    match for_up (line_cards_alloc_invalidate_body i) m1.max_ports 0 m1 with
    | none => none
    | some (_, _, m2) => some (0, m2)

/-- `mlxsw_env_line_cards_alloc`; on failure every record is freed. -/
def mlxsw_env_line_cards_alloc (env : Env) (m : mlxsw_m) : Option (Int × mlxsw_m) :=
  let max_ports := env.core_max_ports
  if env.kcalloc_ok = false then some (-ENOMEM, { m with line_cards := [] })
  else
    match for_up (line_cards_alloc_body env max_ports) m.num_of_slots 0
            { m with line_cards := [] } with
    | none => none
    | some (err, _, m1) =>
      if err ≠ 0 then some (-ENOMEM, { m1 with line_cards := [] })
      else some (0, { m1 with max_ports := max_ports % 65536 })

/-- `mlxsw_m_line_cards_free`. -/
def mlxsw_m_line_cards_free (m : mlxsw_m) : mlxsw_m :=
  { m with line_cards := [] }

/-- `mlxsw_m_got_active`. -/
def mlxsw_m_got_active (env : Env) (st : State) (slot_index : Nat) : Option State :=
  match mlxsw_m_ports_create env st slot_index with
  | none => none
  | some (err, st1) =>
    if err ≠ 0 then some st1
    else
      match st1.m.line_cards[slot_index]? with
      | none => none
      | some lc => some { st1 with m := line_card_put st1.m slot_index { lc with active := true } }

/-- `mlxsw_m_got_inactive`. -/
def mlxsw_m_got_inactive (st : State) (slot_index : Nat) : Option State :=
  match mlxsw_m_ports_remove st slot_index with
  | none => none
  | some st1 =>
    match st1.m.line_cards[slot_index]? with
    | none => none
    | some lc => some { st1 with m := line_card_put st1.m slot_index { lc with active := false } }

/-- `mlxsw_m_linecards_register`. -/
def mlxsw_m_linecards_register (env : Env) : Int :=
  match env.linecards_count with
  | none => 0
  | some count => if count = 0 then 0 else env.event_ops_register_err

/-- `mlxsw_m_init`. -/
def mlxsw_m_init (env : Env) (st : State) : Option (Int × State) :=
  if env.fw_rev_ok = false then some (-EINVAL, st)
  else
    let r := mlxsw_m_get_peripheral_info env st.m
    if r.1 ≠ 0 then some (r.1, { st with m := r.2 })
    else
      match mlxsw_env_line_cards_alloc env r.2 with
      | none => none
      | some (err, m1) =>
        if err ≠ 0 then some (err, { st with m := m1 })
        else
          match mlxsw_m_ports_create env { st with m := m1 } 0 with
          | none => none
          | some (err, st1) =>
            if err ≠ 0 then some (err, { st1 with m := mlxsw_m_line_cards_free st1.m })
            else
              if mlxsw_m_linecards_register env ≠ 0 then
                match mlxsw_m_ports_remove st1 0 with
                | none => none
                | some st2 =>
                  some (mlxsw_m_linecards_register env,
                        { st2 with m := mlxsw_m_line_cards_free st2.m })
              else some (0, st1)

/-! ## Concrete inputs -/

/-- The zeroed driver private data, as the core allocates it. -/
def mlxsw_m_zero : mlxsw_m :=
  { max_ports := 0, max_module_count := 0, num_of_slots := 0, line_cards := [] }

/-- No interface allocated, no core port initialised, nothing recorded. -/
def World_zero : World :=
  { netdevs := [], next_dev := 0, core_ports := [], log := [] }

/-- The state before `mlxsw_m_init`. -/
def State_zero : State := { m := mlxsw_m_zero, w := World_zero }

/-- Collaborators that never fail: `slots` pluggable slots, `mps` modules per
slot, every slot reporting `k` modules, `ports` ports in the core. -/
def env_ok (slots mps k ports : Nat) : Env :=
  { mgpir_err := fun _ => 0,
    mgpir := fun _ => { num_of_modules := k, num_of_slots := slots, max_modules_per_slot := mps },
    core_max_ports := ports,
    core_port_init_err := fun _ _ => 0,
    alloc_etherdev_ok := fun _ _ => true,
    ppad_err := fun _ _ => 0,
    register_netdev_err := fun _ _ => 0,
    fw_rev_ok := true,
    kcalloc_ok := true,
    kzalloc_ok := fun _ => true,
    linecards_count := if slots = 0 then none else some slots,
    event_ops_register_err := 0 }

/-- Everything of a line card record except the contents of its table. -/
def lc_hdr (lc : mlxsw_m_line_card) : Nat × Nat × Bool × Nat :=
  (lc.max_ports, lc.module_offset, lc.active, lc.port_mapping.length)

/-- Everything of the driver state except the contents of the tables. -/
def hdr (m : mlxsw_m) : Nat × Nat × Nat × List (Nat × Nat × Bool × Nat) :=
  (m.max_ports, m.max_module_count, m.num_of_slots, m.line_cards.map lc_hdr)

/-- A line card record whose table of `ports` entries is invalidated: every
entry has `module_to_port = -1` and a NULL port. -/
def line_card_invalidated (ports : Nat) : mlxsw_m_line_card :=
  { max_ports := 0, module_offset := 0, active := false,
    port_mapping := List.replicate ports { port := none, module_to_port := -1, module := 0 } }

/-- A chassis of `slots` line card records with invalidated tables of `ports`
entries, `mmc` modules per slot, and idle collaborators. -/
def State_invalidated (slots mmc ports : Nat) : State :=
  { m := { max_ports := ports, max_module_count := mmc, num_of_slots := slots,
           line_cards := List.replicate slots (line_card_invalidated ports) },
    w := World_zero }

/-- Collaborators as in `env_ok`, except that the creation of the port on
local port `lp` fails at failure point `point`: 0 is core-port init, 1 is
interface allocation, 2 is address derivation, 3 is interface registration. -/
def env_faulty (slots mps k ports lp point : Nat) : Env :=
  { env_ok slots mps k ports with
    core_port_init_err := fun _ p => if p = lp ∧ point = 0 then -5 else 0,
    alloc_etherdev_ok := fun _ p => if p = lp ∧ point = 1 then false else true,
    ppad_err := fun _ p => if p = lp ∧ point = 2 then -5 else 0,
    register_netdev_err := fun _ p => if p = lp ∧ point = 3 then -5 else 0 }

/-- Recognises a notification `module_port_map` of the module-presence
service. -/
def is_module_port_map : Event → Bool
  | Event.env_module_port_map _ _ => true
  | _ => false

/-- Recognises a core-port init. -/
def is_core_port_init : Event → Bool
  | Event.core_port_init _ _ _ => true
  | _ => false

/-- Recognises an interface allocation. -/
def is_alloc_etherdev : Event → Bool
  | Event.alloc_etherdev _ => true
  | _ => false

/-- Recognises an interface registration. -/
def is_register_netdev : Event → Bool
  | Event.register_netdev _ => true
  | _ => false

/-- Number of recorded calls of the kind recognised by `f`. -/
def calls (f : Event → Bool) (w : World) : Nat := w.log.countP f

/-- The local ports `a + c - 1, ..., a + 1, a`, as the core-port registry
lists them after `c` consecutive inits starting at `a`. -/
def desc (a : Nat) : Nat → List Nat
  | 0 => []
  | c + 1 => (a + c) :: desc a c

/-- No failure point fires when the port on `(slot_index, local_port)` is
created. -/
def create_ok (env : Env) (slot_index local_port : Nat) : Prop :=
  env.core_port_init_err slot_index local_port = 0 ∧
  env.alloc_etherdev_ok slot_index local_port = true ∧
  env.ppad_err slot_index local_port = 0 ∧
  env.register_netdev_err slot_index local_port = 0

/-- Interface handles are fresh: every allocated interface has a handle below
`next_dev`. -/
def fresh (w : World) : Prop := ∀ d ∈ w.netdevs, d.id < w.next_dev

/-- The calls that touch allocated resources left the collaborators as they
were: same interfaces, same next handle, same core-port registry. -/
def same_resources (w w' : World) : Prop :=
  w'.netdevs = w.netdevs ∧ w'.next_dev = w.next_dev ∧ w'.core_ports = w.core_ports

/-- The entries `o + 1, ..., o + k` of slot `s` are in the table, below the
chassis `max_ports`, each mapped to its own index, and no other entry of the
slot is assigned (`module_to_port > 0`). -/
def range_mapped (st : State) (s o k : Nat) : Prop :=
  (∃ lc, st.m.line_cards[s]? = some lc ∧ lc.module_offset = o ∧
    st.m.max_ports ≤ lc.port_mapping.length) ∧
  o + k < st.m.max_ports ∧ o + k < 65536 ∧
  (∀ p, o + 1 ≤ p → p ≤ o + k →
    ∃ pm, mlxsw_m_port_mapping_get st.m s p = some pm ∧ pm.module_to_port = (p : Int)) ∧
  (∀ p pm, ¬ (o + 1 ≤ p ∧ p ≤ o + k) → mlxsw_m_port_mapping_get st.m s p = some pm →
    pm.module_to_port ≤ 0)

/-- Number of entries among `o + 1, ..., o + k` that are below `i`. -/
def created (o k i : Nat) : Nat := min i (o + k + 1) - (o + 1)

/-- The Port Object the creation loop started in state `st2` binds to entry
`p` of slot `s`. -/
def port_of (st2 : State) (s o p : Nat) (pm : mlxsw_m_port_mapping) : mlxsw_m_port :=
  { dev := st2.w.next_dev + (p - (o + 1)), local_port := p, module := pm.module,
    slot_index := s, module_offset := o }

/-- State of the port creation loop of `mlxsw_m_ports_create`, started in
`st2`, when it reaches index `i` with no failure: the entries of the range
below `i` hold their Port Object, nothing else in the tables changed, and the
collaborators have seen one init, allocation and registration per port. -/
def create_inv (st2 : State) (s o k i : Nat) (st : State) : Prop :=
  hdr st.m = hdr st2.m ∧
  (∀ p, mlxsw_m_port_mapping_get st.m s p =
    if o + 1 ≤ p ∧ p ≤ o + k ∧ p < i then
      (mlxsw_m_port_mapping_get st2.m s p).map
        (fun pm => { pm with port := some (port_of st2 s o p pm) })
    else mlxsw_m_port_mapping_get st2.m s p) ∧
  st.w.next_dev = st2.w.next_dev + created o k i ∧
  st.w.netdevs.length = st2.w.netdevs.length + created o k i ∧
  st.w.core_ports = desc (o + 1) (created o k i) ++ st2.w.core_ports ∧
  (fresh st2.w → fresh st.w) ∧
  calls is_module_port_map st.w = calls is_module_port_map st2.w ∧
  calls is_core_port_init st.w = calls is_core_port_init st2.w + created o k i ∧
  calls is_alloc_etherdev st.w = calls is_alloc_etherdev st2.w + created o k i ∧
  calls is_register_netdev st.w = calls is_register_netdev st2.w + created o k i ∧
  (∀ p, o + 1 ≤ p → p ≤ o + k → p < i →
    ∃ pm d, mlxsw_m_port_mapping_get st2.m s p = some pm ∧ d ∈ st.w.netdevs ∧
      d.id = st2.w.next_dev + (p - (o + 1)) ∧ d.registered = true ∧
      d.dev_addr_last = (pm.module + 1 + o) % 256)

/-- The module offset `mlxsw_m_ports_create` stores for a slot. -/
def offset_of (m : mlxsw_m) (slot_index : Nat) : Nat :=
  if slot_index ≠ 0 then ((slot_index - 1) * m.max_module_count) % 256 else 0

/-- What a run of `mlxsw_m_ports_create` without failure makes of state `st`
for slot `s` with offset `o` and `k` modules: the entries `o + 1 .. o + k` are
mapped to modules `0 .. k - 1` and hold a newly allocated Port Object, the
other entries are untouched, the record keeps its table size, and the
collaborators have seen `k` map notifications, core-port inits, interface
allocations and registrations, and the interface of each port is allocated,
registered and carries the last address byte `module + 1 + o` modulo 256. -/
def ports_created (st : State) (s o k : Nat) (st' : State) : Prop :=
  st'.m.max_ports = st.m.max_ports ∧
  st'.m.max_module_count = st.m.max_module_count ∧
  (∃ lc lc', st.m.line_cards[s]? = some lc ∧ st'.m.line_cards[s]? = some lc' ∧
    lc'.max_ports = k + 1 ∧ lc'.module_offset = o ∧ lc'.active = lc.active ∧
    lc'.port_mapping.length = lc.port_mapping.length) ∧
  (∀ p, mlxsw_m_port_mapping_get st'.m s p =
    if o + 1 ≤ p ∧ p ≤ o + k then
      (mlxsw_m_port_mapping_get st.m s p).map
        (fun _ => { port := some { dev := st.w.next_dev + (p - (o + 1)), local_port := p,
                                   module := p - o - 1, slot_index := s, module_offset := o },
                    module_to_port := (p : Int), module := p - o - 1 })
    else mlxsw_m_port_mapping_get st.m s p) ∧
  st'.w.next_dev = st.w.next_dev + k ∧
  st'.w.netdevs.length = st.w.netdevs.length + k ∧
  st'.w.core_ports = desc (o + 1) k ++ st.w.core_ports ∧
  (fresh st.w → fresh st'.w) ∧
  calls is_module_port_map st'.w = calls is_module_port_map st.w + k ∧
  calls is_core_port_init st'.w = calls is_core_port_init st.w + k ∧
  calls is_alloc_etherdev st'.w = calls is_alloc_etherdev st.w + k ∧
  calls is_register_netdev st'.w = calls is_register_netdev st.w + k ∧
  (∀ p, o + 1 ≤ p → p ≤ o + k →
    ∃ d ∈ st'.w.netdevs, d.id = st.w.next_dev + (p - (o + 1)) ∧ d.registered = true ∧
      d.dev_addr_last = (p - o - 1 + 1 + o) % 256)

/-- State of the unwinding of the port creation loop started in `st2`, when
the entries from index `i` on hold no port any more: the entries of the range
below `i` still hold their Port Object, the core-port registry lists exactly
their local ports on top of the old ones, and every interface handle is below
the handle of the first port not yet created. -/
def unwind_inv (st2 : State) (s o k i : Nat) (st : State) : Prop :=
  hdr st.m = hdr st2.m ∧
  (∀ p, mlxsw_m_port_mapping_get st.m s p =
    if o + 1 ≤ p ∧ p ≤ o + k ∧ p < i then
      (mlxsw_m_port_mapping_get st2.m s p).map
        (fun pm => { pm with port := some (port_of st2 s o p pm) })
    else mlxsw_m_port_mapping_get st2.m s p) ∧
  st.w.core_ports = desc (o + 1) (created o k i) ++ st2.w.core_ports ∧
  (∀ d ∈ st.w.netdevs, d.id < st2.w.next_dev + created o k i)

/-- State of the unwinding of the mappings started in `st4`, when the entries
from index `i` on have been visited: the entries of the range from `i` on are
unmapped, nothing else changed. -/
def unmap_inv (st4 : State) (s o k i : Nat) (st : State) : Prop :=
  hdr st.m = hdr st4.m ∧
  (∀ p, mlxsw_m_port_mapping_get st.m s p =
    if o + 1 ≤ p ∧ p ≤ o + k ∧ i ≤ p then
      (mlxsw_m_port_mapping_get st4.m s p).map (fun pm => { pm with module_to_port := -1 })
    else mlxsw_m_port_mapping_get st4.m s p) ∧
  same_resources st4.w st.w

/-- Every Port Object held by a mapping entry carries the index of that entry
as its local port and the slot of the table as its slot index. -/
def ports_indexed (m : mlxsw_m) : Prop :=
  ∀ s p pm x, mlxsw_m_port_mapping_get m s p = some pm → pm.port = some x →
    x.local_port = p ∧ x.slot_index = s

/-- No mapping entry holds a Port Object. -/
def no_ports (m : mlxsw_m) : Prop :=
  ∀ s p pm, mlxsw_m_port_mapping_get m s p = some pm → pm.port = none

/-- The states the driver reaches: after a successful `mlxsw_m_init`, and
after any sequence of `mlxsw_m_got_active` and `mlxsw_m_got_inactive` calls
that return, whatever the collaborators answer. -/
inductive Reachable : State → Prop
  | init (env : Env) (st0 st : State) :
      mlxsw_m_init env st0 = some (0, st) → Reachable st
  | got_active (env : Env) (st : State) (s : Nat) (st' : State) :
      Reachable st → mlxsw_m_got_active env st s = some st' → Reachable st'
  | got_inactive (st : State) (s : Nat) (st' : State) :
      Reachable st → mlxsw_m_got_inactive st s = some st' → Reachable st'

/-- The state after `mlxsw_m_init` of the zeroed state on a chassis without
pluggable slots whose main board has three modules, with four ports in the
core. -/
def State_main_board : State :=
  match mlxsw_m_init (env_ok 0 0 3 4) State_zero with
  | some (_, st) => st
  | none => State_zero

/-- State of the loop of `mlxsw_m_ports_remove`, started in `st3`, when it
reaches index `i`: the entries of the range below `i` hold no port and are
unmapped, nothing else in the tables changed. -/
def remove_inv (st3 : State) (s o k i : Nat) (st : State) : Prop :=
  hdr st.m = hdr st3.m ∧
  (∀ p, mlxsw_m_port_mapping_get st.m s p =
    if o + 1 ≤ p ∧ p ≤ o + k ∧ p < i then
      (mlxsw_m_port_mapping_get st3.m s p).map
        (fun pm => { pm with port := none, module_to_port := -1 })
    else mlxsw_m_port_mapping_get st3.m s p)

/-- Every assigned entry of slot `s` (`module_to_port > 0`) is assigned to its
own index, and that index is below the chassis `max_ports`. -/
def entries_own_index (st : State) (s : Nat) : Prop :=
  ∀ p pm, mlxsw_m_port_mapping_get st.m s p = some pm → pm.module_to_port > 0 →
    pm.module_to_port = (p : Int) ∧ p < st.m.max_ports

/-- Every assigned entry of slot `s` below index `i` holds a Port Object. -/
def ports_below (st : State) (s i : Nat) : Prop :=
  ∀ p pm, p < i → mlxsw_m_port_mapping_get st.m s p = some pm → pm.module_to_port > 0 →
    pm.port ≠ none

/-- Every assigned entry of slot `s` from index `i` on holds a Port Object. -/
def ports_from (st : State) (s i : Nat) : Prop :=
  ∀ p pm, i ≤ p → mlxsw_m_port_mapping_get st.m s p = some pm → pm.module_to_port > 0 →
    pm.port ≠ none

/-- No entry of slot `s` from index `i` on is assigned. -/
def unmapped_from (st : State) (s i : Nat) : Prop :=
  ∀ p pm, i ≤ p → mlxsw_m_port_mapping_get st.m s p = some pm → pm.module_to_port ≤ 0

/-- No entry of slot `s` below index `i` is assigned. -/
def unmapped_below (st : State) (s i : Nat) : Prop :=
  ∀ p pm, p < i → mlxsw_m_port_mapping_get st.m s p = some pm → pm.module_to_port ≤ 0

/-- The record of slot `s` is allocated, its table is at least as long as the
chassis `max_ports`, and `max_ports` is a `u16` value. -/
def slot_base (st : State) (s : Nat) : Prop :=
  st.m.max_ports < 65536 ∧
  ∃ lc, st.m.line_cards[s]? = some lc ∧ st.m.max_ports ≤ lc.port_mapping.length

/-- The table of slot `s` is well formed: the record is allocated with a table
at least as long as the chassis `max_ports`, every assigned entry is assigned
to its own index below `max_ports`, and every assigned entry holds a Port
Object. -/
def slot_wf (st : State) (s : Nat) : Prop :=
  slot_base st s ∧ entries_own_index st s ∧ ports_below st s st.m.max_ports

/-- State of the port creation loop and of the unwinding of the created ports
at index `i`, relative to the state `b` in which the loop started: only table
contents changed, assigned entries sit at their own index, and the assigned
entries below `i` hold a Port Object. -/
def walk_inv (b : State) (s i : Nat) (st : State) : Prop :=
  hdr st.m = hdr b.m ∧ entries_own_index st s ∧ ports_below st s i

/-- State of the unwinding of the mappings at index `i`: only table contents
changed, assigned entries sit at their own index, and no entry from `i` on is
assigned. -/
def unwind_map_inv (b : State) (s i : Nat) (st : State) : Prop :=
  hdr st.m = hdr b.m ∧ entries_own_index st s ∧ unmapped_from st s i

/-- State of the loop of `mlxsw_m_ports_remove` at index `i`: only table
contents changed, assigned entries sit at their own index, no entry below `i`
is assigned, and the assigned entries from `i` on hold a Port Object. -/
def deactivate_inv (b : State) (s i : Nat) (st : State) : Prop :=
  hdr st.m = hdr b.m ∧ entries_own_index st s ∧ unmapped_below st s i ∧ ports_from st s i

/-! ## Table access -/

theorem mapping_get_put (m : mlxsw_m) (s p s' p' : Nat) (e : mlxsw_m_port_mapping) :
    mlxsw_m_port_mapping_get (port_mapping_put m s p e) s' p' =
      if s' = s ∧ p' = p then (mlxsw_m_port_mapping_get m s p).map (fun _ => e)
      else mlxsw_m_port_mapping_get m s' p' := by
  unfold port_mapping_put mlxsw_m_port_mapping_get line_card_put
  cases hs : m.line_cards[s]? with
  | none =>
    by_cases h : s' = s ∧ p' = p
    · obtain ⟨rfl, rfl⟩ := h
      simp [hs]
    · simp [h]
  | some lc =>
    have hlt : s < m.line_cards.length := by
      rcases List.getElem?_eq_some.mp hs with ⟨h, _⟩
      exact h
    by_cases hss : s' = s
    · subst hss
      simp only [List.getElem?_set_self hlt, hs, true_and]
      by_cases hp : p' = p
      · subst hp
        simp only [if_true, List.getElem?_set]
        by_cases hl : p' < lc.port_mapping.length
        · simp [hl, List.getElem?_eq_getElem hl]
        · simp [hl, List.getElem?_eq_none (Nat.le_of_not_lt hl)]
      · simp [hp, List.getElem?_set_ne (Ne.symm hp)]
    · simp [hss, List.getElem?_set_ne (Ne.symm hss)]

theorem hdr_put (m : mlxsw_m) (s p : Nat) (e : mlxsw_m_port_mapping) :
    hdr (port_mapping_put m s p e) = hdr m := by
  unfold port_mapping_put line_card_put
  cases hs : m.line_cards[s]? with
  | none => rfl
  | some lc =>
    simp only [hdr, Prod.mk.injEq, true_and]
    apply List.ext_getElem?
    intro n
    simp only [List.getElem?_map, List.getElem?_set]
    by_cases hn : s = n
    · subst hn
      simp [hs, lc_hdr]
      exact (List.getElem?_eq_some.mp hs).1
    · simp [hn]

theorem put_get_self (m : mlxsw_m) (s p : Nat) (pm : mlxsw_m_port_mapping)
    (h : mlxsw_m_port_mapping_get m s p = some pm) : port_mapping_put m s p pm = m := by
  unfold mlxsw_m_port_mapping_get at h
  unfold port_mapping_put line_card_put
  cases hs : m.line_cards[s]? with
  | none => rfl
  | some lc =>
    rw [hs] at h
    simp only at h
    have h1 : lc.port_mapping.set p pm = lc.port_mapping := by
      apply List.ext_getElem?
      intro n
      rw [List.getElem?_set]
      by_cases hn : p = n
      · subst hn
        simp [h]
        exact (List.getElem?_eq_some.mp h).1
      · simp [hn]
    simp only [h1]
    have h2 : m.line_cards.set s lc = m.line_cards := by
      apply List.ext_getElem?
      intro n
      rw [List.getElem?_set]
      by_cases hn : s = n
      · subst hn
        simp [hs]
        exact (List.getElem?_eq_some.mp hs).1
      · simp [hn]
    cases m
    simp only at h2
    simp [h2]

theorem put_put (m : mlxsw_m) (s p : Nat) (a b : mlxsw_m_port_mapping) :
    port_mapping_put (port_mapping_put m s p a) s p b = port_mapping_put m s p b := by
  unfold port_mapping_put line_card_put
  cases hs : m.line_cards[s]? with
  | none => simp [hs]
  | some lc =>
    have hlt : s < m.line_cards.length := by
      rcases List.getElem?_eq_some.mp hs with ⟨h, _⟩
      exact h
    simp [List.getElem?_set_self hlt, List.set_set]

/-! ## Loop rules -/

theorem for_up_inv {σ : Type} (body : Nat → σ → Option (Int × σ)) (P : Nat → σ → Prop) :
    ∀ (n i0 : Nat) (st : σ), P i0 st →
      (∀ i st, i0 ≤ i → i < i0 + n → P i st → ∃ st', body i st = some (0, st') ∧ P (i + 1) st') →
      ∃ st', for_up body n i0 st = some (0, i0 + n, st') ∧ P (i0 + n) st' := by
  intro n
  induction n with
  | zero =>
    intro i0 st h0 _
    exact ⟨st, rfl, h0⟩
  | succ n ih =>
    intro i0 st h0 hstep
    obtain ⟨st1, hb, h1⟩ := hstep i0 st (Nat.le_refl _) (by omega) h0
    obtain ⟨st2, hl, h2⟩ := ih (i0 + 1) st1 h1
      (fun i st hi hlt hp => hstep i st (by omega) (by omega) hp)
    refine ⟨st2, ?_, ?_⟩
    · simp only [for_up, hb]
      rw [if_neg (by simp), hl]
      have : i0 + 1 + n = i0 + (n + 1) := by omega
      rw [this]
    · have : i0 + 1 + n = i0 + (n + 1) := by omega
      rw [← this]
      exact h2

theorem for_up_stop {σ : Type} (body : Nat → σ → Option (Int × σ)) (P : Nat → σ → Prop)
    (Q : Int → σ → Prop) :
    ∀ (n i0 : Nat) (st : σ) (j : Nat), i0 ≤ j → j < i0 + n → P i0 st →
      (∀ i st, i0 ≤ i → i < j → P i st → ∃ st', body i st = some (0, st') ∧ P (i + 1) st') →
      (∀ st, P j st → ∃ err st', body j st = some (err, st') ∧ err ≠ 0 ∧ Q err st') →
      ∃ err st', for_up body n i0 st = some (err, j, st') ∧ err ≠ 0 ∧ Q err st' := by
  intro n
  induction n with
  | zero =>
    intro i0 st j h1 h2
    omega
  | succ n ih =>
    intro i0 st j hle hlt h0 hstep hfail
    by_cases hj : i0 = j
    · subst hj
      obtain ⟨err, st1, hb, hne, hq⟩ := hfail st h0
      refine ⟨err, st1, ?_, hne, hq⟩
      simp only [for_up, hb]
      rw [if_pos hne]
    · obtain ⟨st1, hb, h1⟩ := hstep i0 st (Nat.le_refl _) (by omega) h0
      obtain ⟨err, st2, hl, hne, hq⟩ := ih (i0 + 1) st1 j (by omega) (by omega) h1
        (fun i st hi hlt hp => hstep i st (by omega) hlt hp) hfail
      refine ⟨err, st2, ?_, hne, hq⟩
      simp only [for_up, hb]
      rw [if_neg (by simp), hl]

theorem for_up_preserves {σ : Type} (body : Nat → σ → Option (Int × σ)) (R : σ → Prop)
    (hbody : ∀ i st err st', R st → body i st = some (err, st') → R st') :
    ∀ (n i : Nat) (st : σ) (r : Int × Nat × σ), R st → for_up body n i st = some r → R r.2.2 := by
  intro n
  induction n with
  | zero =>
    intro i st r h0 h
    simp only [for_up, Option.some.injEq] at h
    subst h
    exact h0
  | succ n ih =>
    intro i st r h0 h
    simp only [for_up] at h
    cases hb : body i st with
    | none => rw [hb] at h; cases h
    | some x =>
      obtain ⟨err, st1⟩ := x
      rw [hb] at h
      simp only at h
      have h1 := hbody i st err st1 h0 hb
      by_cases he : err ≠ 0
      · rw [if_pos he] at h
        simp only [Option.some.injEq] at h
        subst h
        exact h1
      · rw [if_neg he] at h
        exact ih (i + 1) st1 r h1 h

theorem for_down_inv {σ : Type} (body : Nat → σ → Option σ) (P : Nat → σ → Prop) :
    ∀ (i : Nat) (st : σ), P i st →
      (∀ j st, j < i → P (j + 1) st → ∃ st', body j st = some st' ∧ P j st') →
      ∃ st', for_down body i st = some st' ∧ P 0 st' := by
  intro i
  induction i with
  | zero =>
    intro st h0 _
    exact ⟨st, rfl, h0⟩
  | succ i ih =>
    intro st h0 hstep
    obtain ⟨st1, hb, h1⟩ := hstep i st (by omega) h0
    obtain ⟨st2, hl, h2⟩ := ih st1 h1 (fun j st hj hp => hstep j st (by omega) hp)
    refine ⟨st2, ?_, h2⟩
    simp only [for_down, hb, hl]

theorem for_down_preserves {σ : Type} (body : Nat → σ → Option σ) (R : σ → Prop)
    (hbody : ∀ i st st', R st → body i st = some st' → R st') :
    ∀ (i : Nat) (st st' : σ), R st → for_down body i st = some st' → R st' := by
  intro i
  induction i with
  | zero =>
    intro st st' h0 h
    simp only [for_down, Option.some.injEq] at h
    subst h
    exact h0
  | succ i ih =>
    intro st st' h0 h
    simp only [for_down] at h
    cases hb : body i st with
    | none => rw [hb] at h; cases h
    | some st1 =>
      rw [hb] at h
      exact ih st1 st' (hbody i st st1 h0 hb) h

theorem for_down_pos_inv {σ : Type} (body : Nat → σ → Option σ) (P : Nat → σ → Prop) :
    ∀ (i : Nat) (st : σ), P (i + 1) st →
      (∀ j st, 1 ≤ j → j < i + 1 → P (j + 1) st → ∃ st', body j st = some st' ∧ P j st') →
      ∃ st', for_down_pos body (i + 1) st = some st' ∧ P 1 st' := by
  intro i
  induction i with
  | zero =>
    intro st h0 _
    exact ⟨st, rfl, h0⟩
  | succ i ih =>
    intro st h0 hstep
    obtain ⟨st1, hb, h1⟩ := hstep (i + 1) st (by omega) (by omega) h0
    obtain ⟨st2, hl, h2⟩ := ih st1 h1 (fun j st hj hlt hp => hstep j st hj (by omega) hp)
    refine ⟨st2, ?_, h2⟩
    simp only [for_down_pos, hb, hl]

theorem for_down_pos_preserves {σ : Type} (body : Nat → σ → Option σ) (R : σ → Prop)
    (hbody : ∀ i st st', R st → body i st = some st' → R st') :
    ∀ (i : Nat) (st st' : σ), R st → for_down_pos body i st = some st' → R st' := by
  intro i
  induction i using Nat.strong_induction_on with
  | _ i ih =>
    intro st st' h0 h
    match i, ih with
    | 0, _ =>
      simp only [for_down_pos, Option.some.injEq] at h
      subst h
      exact h0
    | 1, _ =>
      simp only [for_down_pos, Option.some.injEq] at h
      subst h
      exact h0
    | i + 2, ih =>
      simp only [for_down_pos] at h
      cases hb : body (i + 1) st with
      | none => rw [hb] at h; cases h
      | some st1 =>
        rw [hb] at h
        exact ih (i + 1) (by omega) st1 st' (hbody (i + 1) st st1 h0 hb) h

/-! ## Collaborator facts -/

theorem netdevs_map_other (l : List net_device) (dev : Nat) (f : net_device → net_device)
    (h : ∀ d ∈ l, d.id ≠ dev) :
    l.map (fun d => if d.id = dev then f d else d) = l := by
  induction l with
  | nil => rfl
  | cons a l ih =>
    have ha : a.id ≠ dev := h a (List.mem_cons_self _ _)
    have hl : ∀ d ∈ l, d.id ≠ dev := fun d hd => h d (List.mem_cons_of_mem _ hd)
    simp only [List.map_cons, if_neg ha, ih hl]

theorem netdevs_filter_other (l : List net_device) (dev : Nat) (h : ∀ d ∈ l, d.id ≠ dev) :
    l.filter (fun d => d.id != dev) = l := by
  rw [List.filter_eq_self]
  intro d hd
  simp [h d hd]

theorem line_card_of_mapping_get (m : mlxsw_m) (s p : Nat) (pm : mlxsw_m_port_mapping)
    (h : mlxsw_m_port_mapping_get m s p = some pm) :
    ∃ lc, m.line_cards[s]? = some lc ∧ lc.port_mapping[p]? = some pm := by
  unfold mlxsw_m_port_mapping_get at h
  cases hs : m.line_cards[s]? with
  | none => rw [hs] at h; cases h
  | some lc => rw [hs] at h; exact ⟨lc, rfl, h⟩

/-! ## Port creation -/

theorem port_create_fail (env : Env) (st : State) (slot_index local_port module : Nat)
    (pm : mlxsw_m_port_mapping)
    (hget : mlxsw_m_port_mapping_get st.m slot_index local_port = some pm)
    (hport : pm.port = none)
    (hfresh : ∀ d ∈ st.w.netdevs, d.id < st.w.next_dev)
    (hfail : env.core_port_init_err slot_index local_port ≠ 0 ∨
      env.alloc_etherdev_ok slot_index local_port = false ∨
      env.ppad_err slot_index local_port ≠ 0 ∨
      env.register_netdev_err slot_index local_port ≠ 0) :
    ∃ err st', mlxsw_m_port_create env st slot_index local_port module = some (err, st') ∧
      err ≠ 0 ∧ st'.m = st.m ∧
      mlxsw_m_port_mapping_get st'.m slot_index local_port = some pm ∧
      st'.w.netdevs = st.w.netdevs ∧
      (∀ d ∈ st'.w.netdevs, d.id ≠ st.w.next_dev) ∧
      st'.w.core_ports = st.w.core_ports := by
  obtain ⟨lc, hlc, _⟩ := line_card_of_mapping_get _ _ _ _ hget
  have hne : ∀ d ∈ st.w.netdevs, d.id ≠ st.w.next_dev := fun d hd => Nat.ne_of_lt (hfresh d hd)
  have hpm : ({ pm with port := none } : mlxsw_m_port_mapping) = pm := by
    cases pm
    simp only at hport
    simp [hport]
  unfold mlxsw_m_port_create
  simp only [hlc]
  by_cases h1 : env.core_port_init_err slot_index local_port ≠ 0
  · rw [if_pos h1]
    exact ⟨_, _, rfl, h1, rfl, hget, rfl, hne, rfl⟩
  · rw [if_neg h1]
    by_cases h2 : env.alloc_etherdev_ok slot_index local_port = false
    · rw [if_pos h2]
      refine ⟨_, _, rfl, by simp [ENOMEM], rfl, hget, rfl, hne, ?_⟩
      simp [mlxsw_core_port_fini, mlxsw_core_port_init]
    · rw [if_neg h2]
      by_cases h3 : env.ppad_err slot_index local_port ≠ 0
      · simp only [mlxsw_m_port_dev_addr_get, if_pos h3]
        refine ⟨_, _, rfl, h3, rfl, hget, ?_, ?_, ?_⟩
        · simp [mlxsw_core_port_fini, free_netdev, alloc_etherdev, mlxsw_core_port_init,
            netdevs_filter_other _ _ hne]
        · simp only [mlxsw_core_port_fini, free_netdev, alloc_etherdev, mlxsw_core_port_init]
          simpa [netdevs_filter_other _ _ hne] using hne
        · simp [mlxsw_core_port_fini, free_netdev, alloc_etherdev, mlxsw_core_port_init]
      · have h4 : env.register_netdev_err slot_index local_port ≠ 0 := by
          rcases hfail with h | h | h | h
          · exact absurd h h1
          · exact absurd h h2
          · exact absurd h h3
          · exact h
        simp only [mlxsw_m_port_dev_addr_get, if_neg h3]
        rw [if_neg (by simp), hget]
        simp only
        rw [if_pos h4]
        refine ⟨_, _, rfl, h4, ?_, ?_, ?_, ?_, ?_⟩
        · simp only [put_put, hpm]
          exact put_get_self _ _ _ _ hget
        · simp only [put_put, hpm]
          rw [put_get_self _ _ _ _ hget]
          exact hget
        · simp [mlxsw_core_port_fini, free_netdev, alloc_etherdev, mlxsw_core_port_init,
            register_netdev_failed, netif_carrier_off, dev_addr_last_set,
            netdevs_filter_other _ _ hne, netdevs_map_other _ _ _ hne]
        · simp only [mlxsw_core_port_fini, free_netdev, alloc_etherdev, mlxsw_core_port_init,
            register_netdev_failed, netif_carrier_off, dev_addr_last_set]
          simpa [netdevs_filter_other _ _ hne, netdevs_map_other _ _ _ hne] using hne
        · simp [mlxsw_core_port_fini, free_netdev, alloc_etherdev, mlxsw_core_port_init,
            register_netdev_failed, netif_carrier_off, dev_addr_last_set,
            mlxsw_core_port_eth_set]

/-- C1: when `mlxsw_m_port_create` is called for an entry that holds no port
reference and any of its four failure points fires (core-port init, interface
allocation, address derivation, interface registration), it returns a
non-zero error, the mapping tables are exactly as before (the port reference
of the entry is null and its `module_to_port` is unchanged), the set of
allocated interfaces is as before (the interface of this call, whose handle is
the old `next_dev`, is neither allocated nor registered), and the core-port
registry is as before. -/
theorem port_create_rollback (env : Env) (st : State) (slot_index local_port module : Nat)
    (pm : mlxsw_m_port_mapping)
    (hget : mlxsw_m_port_mapping_get st.m slot_index local_port = some pm)
    (hport : pm.port = none)
    (hfresh : ∀ d ∈ st.w.netdevs, d.id < st.w.next_dev)
    (hfail : env.core_port_init_err slot_index local_port ≠ 0 ∨
      env.alloc_etherdev_ok slot_index local_port = false ∨
      env.ppad_err slot_index local_port ≠ 0 ∨
      env.register_netdev_err slot_index local_port ≠ 0) :
    ∃ err st', mlxsw_m_port_create env st slot_index local_port module = some (err, st') ∧
      err ≠ 0 ∧ st'.m = st.m ∧
      mlxsw_m_port_mapping_get st'.m slot_index local_port = some pm ∧
      st'.w.netdevs = st.w.netdevs ∧
      (∀ d ∈ st'.w.netdevs, d.id ≠ st.w.next_dev) ∧
      st'.w.core_ports = st.w.core_ports := by
  obtain ⟨err, st', hrun, herr, hm, hentry, hdevs, hnew, hcore⟩ :=
    port_create_fail env st slot_index local_port module pm hget hport hfresh hfail
  exact ⟨err, st', hrun, herr, hm, hentry, hdevs, hnew, hcore⟩

/-- Witness of C1: the registration of the port on local port 2 of slot 1
fails. -/
theorem port_create_rollback_witness :
    ∃ err st', mlxsw_m_port_create (env_faulty 1 16 3 4 2 3) (State_invalidated 2 16 4) 1 2 1
        = some (err, st') ∧
      err ≠ 0 ∧ st'.m = (State_invalidated 2 16 4).m ∧
      mlxsw_m_port_mapping_get st'.m 1 2
        = some { port := none, module_to_port := -1, module := 0 } ∧
      st'.w.netdevs = (State_invalidated 2 16 4).w.netdevs ∧
      (∀ d ∈ st'.w.netdevs, d.id ≠ (State_invalidated 2 16 4).w.next_dev) ∧
      st'.w.core_ports = (State_invalidated 2 16 4).w.core_ports :=
  port_create_rollback (env_faulty 1 16 3 4 2 3) (State_invalidated 2 16 4) 1 2 1
    { port := none, module_to_port := -1, module := 0 } rfl rfl
    (by simp [State_invalidated, World_zero])
    (by simp [env_faulty])

/-! ## Module mapping -/

/-- C2, counterexample: on an invalidated table of four entries, local port 1
of slot 0 is mapped to module 0 and, with no unmap in between, mapped again to
module 5. The second call finds `module_to_port = 1`, returns 0, notifies the
module-presence service and overwrites `module`. -/
theorem module_map_twice_counterexample :
    ∃ st1 st2,
      mlxsw_m_port_module_map (State_invalidated 1 16 4) 0 1 0 = some (0, st1) ∧
      mlxsw_m_port_mapping_get st1.m 0 1
        = some { port := none, module_to_port := 1, module := 0 } ∧
      mlxsw_m_port_module_map st1 0 1 5 = some (0, st2) ∧
      mlxsw_m_port_mapping_get st2.m 0 1
        = some { port := none, module_to_port := 1, module := 5 } ∧
      st2.w.log = Event.env_module_port_map 0 5 :: st1.w.log :=
  ⟨_, _, rfl, rfl, rfl, rfl, rfl⟩

/-- C2, amended: `mlxsw_m_port_module_map` returns `-EINVAL`, with the state
(entry and record of notifications) untouched, exactly when the entry's
`module_to_port` is at least the chassis `max_ports`; when it is below
`max_ports`, assigned or not, the call returns 0, notifies the
module-presence service once and stores the local port and the module in the
entry. -/
theorem module_map_guard (st : State) (slot_index local_port module : Nat)
    (pm : mlxsw_m_port_mapping)
    (hget : mlxsw_m_port_mapping_get st.m slot_index local_port = some pm) :
    ∃ st', mlxsw_m_port_module_map st slot_index local_port module =
        (if pm.module_to_port ≥ (st.m.max_ports : Int) then some (-EINVAL, st)
         else some (0, st')) ∧
      mlxsw_m_port_mapping_get st'.m slot_index local_port
        = some { pm with module_to_port := (local_port : Int), module := module } ∧
      st'.w.log = Event.env_module_port_map slot_index module :: st.w.log := by
  refine ⟨{ m := port_mapping_put st.m slot_index local_port
                   { pm with module_to_port := (local_port : Int), module := module },
            w := mlxsw_env_module_port_map st.w slot_index module }, ?_, ?_, rfl⟩
  · simp only [mlxsw_m_port_module_map, hget]
  · simp [mapping_get_put, hget]

/-- Witness of C2 amended: an unassigned entry and a chassis of four ports. -/
theorem module_map_guard_witness :
    ∃ st', mlxsw_m_port_module_map (State_invalidated 1 16 4) 0 1 0 =
        (if (-1 : Int) ≥ (((State_invalidated 1 16 4).m.max_ports : Nat) : Int)
         then some (-EINVAL, State_invalidated 1 16 4)
         else some (0, st')) ∧
      mlxsw_m_port_mapping_get st'.m 0 1
        = some { port := none, module_to_port := ((1 : Nat) : Int), module := 0 } ∧
      st'.w.log = Event.env_module_port_map 0 0 :: (State_invalidated 1 16 4).w.log :=
  module_map_guard (State_invalidated 1 16 4) 0 1 0
    { port := none, module_to_port := -1, module := 0 } rfl

/-! ## Peripheral discovery -/

/-- C10, counterexample: the register reports 255 pluggable slots; the call
succeeds and the `u8` field `num_of_slots` is 0. -/
theorem peripheral_info_slots_counterexample :
    mlxsw_m_get_peripheral_info (env_ok 255 16 0 4) mlxsw_m_zero
      = (0, { mlxsw_m_zero with max_module_count := 16, num_of_slots := 0 }) := by
  rfl

/-- C10, amended: for a response reporting `r` pluggable slots with
`r ≤ 254`, module count `c` and modules-per-slot value `mps` (8-bit values),
a successful `mlxsw_m_get_peripheral_info` sets `num_of_slots = r + 1`, which
is at least 1, and `max_module_count` to `c` when `r = 0` and to `mps` when
`r > 0`; nothing else changes. -/
theorem peripheral_info_slots (env : Env) (m : mlxsw_m)
    (hok : env.mgpir_err 0 = 0)
    (hr : (env.mgpir 0).num_of_slots ≤ 254)
    (hc : (env.mgpir 0).num_of_modules < 256)
    (hmps : (env.mgpir 0).max_modules_per_slot < 256) :
    mlxsw_m_get_peripheral_info env m =
      (0, { m with
            max_module_count :=
              if (env.mgpir 0).num_of_slots = 0 then (env.mgpir 0).num_of_modules
              else (env.mgpir 0).max_modules_per_slot,
            num_of_slots := (env.mgpir 0).num_of_slots + 1 }) ∧
    1 ≤ (mlxsw_m_get_peripheral_info env m).2.num_of_slots := by
  have h1 : (env.mgpir 0).num_of_slots % 256 = (env.mgpir 0).num_of_slots :=
    Nat.mod_eq_of_lt (by omega)
  have h2 : ((env.mgpir 0).num_of_slots + 1) % 256 = (env.mgpir 0).num_of_slots + 1 :=
    Nat.mod_eq_of_lt (by omega)
  have h3 : (env.mgpir 0).num_of_modules % 256 = (env.mgpir 0).num_of_modules :=
    Nat.mod_eq_of_lt hc
  have h4 : (env.mgpir 0).max_modules_per_slot % 256 = (env.mgpir 0).max_modules_per_slot :=
    Nat.mod_eq_of_lt hmps
  have h : mlxsw_m_get_peripheral_info env m =
      (0, { m with
            max_module_count :=
              if (env.mgpir 0).num_of_slots = 0 then (env.mgpir 0).num_of_modules
              else (env.mgpir 0).max_modules_per_slot,
            num_of_slots := (env.mgpir 0).num_of_slots + 1 }) := by
    unfold mlxsw_m_get_peripheral_info
    rw [if_neg (by simp [hok])]
    simp only [h1, h2, h3, h4]
    by_cases h0 : (env.mgpir 0).num_of_slots = 0
    · simp [h0]
    · simp [h0]
  refine ⟨h, ?_⟩
  rw [h]
  simp

/-- Witness of C10 amended: a response reporting 1 pluggable slot, 16 modules
per slot and no module on the main board. -/
theorem peripheral_info_slots_witness :
    mlxsw_m_get_peripheral_info (env_ok 1 16 0 4) mlxsw_m_zero =
      (0, { mlxsw_m_zero with
            max_module_count :=
              if ((env_ok 1 16 0 4).mgpir 0).num_of_slots = 0
              then ((env_ok 1 16 0 4).mgpir 0).num_of_modules
              else ((env_ok 1 16 0 4).mgpir 0).max_modules_per_slot,
            num_of_slots := ((env_ok 1 16 0 4).mgpir 0).num_of_slots + 1 }) ∧
    1 ≤ (mlxsw_m_get_peripheral_info (env_ok 1 16 0 4) mlxsw_m_zero).2.num_of_slots :=
  peripheral_info_slots (env_ok 1 16 0 4) mlxsw_m_zero rfl (by decide) (by decide) (by decide)

/-! ## Single steps -/

theorem to_u16_natCast (n : Nat) (h : n < 65536) : to_u16 (n : Int) = n := by
  unfold to_u16
  omega

theorem hdr_line_card (m m0 : mlxsw_m) (s : Nat) (lc0 : mlxsw_m_line_card)
    (h : hdr m = hdr m0) (h0 : m0.line_cards[s]? = some lc0) :
    ∃ lc, m.line_cards[s]? = some lc ∧ lc_hdr lc = lc_hdr lc0 := by
  simp only [hdr, Prod.mk.injEq] at h
  obtain ⟨_, _, _, hl⟩ := h
  have h1 : (m.line_cards.map lc_hdr)[s]? = (m0.line_cards.map lc_hdr)[s]? := by rw [hl]
  simp only [List.getElem?_map, h0, Option.map_some'] at h1
  cases hs : m.line_cards[s]? with
  | none => rw [hs] at h1; cases h1
  | some lc =>
    rw [hs] at h1
    simp only [Option.map_some', Option.some.injEq] at h1
    exact ⟨lc, rfl, h1⟩

theorem hdr_max_ports (m m0 : mlxsw_m) (h : hdr m = hdr m0) : m.max_ports = m0.max_ports := by
  simp only [hdr, Prod.mk.injEq] at h
  exact h.1

theorem mapping_get_of_lt (m : mlxsw_m) (s p : Nat) (lc : mlxsw_m_line_card)
    (hs : m.line_cards[s]? = some lc) (hp : p < lc.port_mapping.length) :
    ∃ pm, mlxsw_m_port_mapping_get m s p = some pm := by
  unfold mlxsw_m_port_mapping_get
  rw [hs]
  exact ⟨lc.port_mapping[p], List.getElem?_eq_getElem hp⟩

theorem module_map_ok (st : State) (s lp module : Nat) (pm : mlxsw_m_port_mapping)
    (hget : mlxsw_m_port_mapping_get st.m s lp = some pm)
    (hlt : pm.module_to_port < (st.m.max_ports : Int)) :
    ∃ st', mlxsw_m_port_module_map st s lp module = some (0, st') ∧
      st'.m = port_mapping_put st.m s lp
                { pm with module_to_port := (lp : Int), module := module } ∧
      st'.w = mlxsw_env_module_port_map st.w s module := by
  refine ⟨{ m := port_mapping_put st.m s lp
                   { pm with module_to_port := (lp : Int), module := module },
            w := mlxsw_env_module_port_map st.w s module }, ?_, rfl, rfl⟩
  simp only [mlxsw_m_port_module_map, hget]
  rw [if_neg (by omega)]

theorem module_unmap_ok (st : State) (s i : Nat) (pm : mlxsw_m_port_mapping)
    (hget : mlxsw_m_port_mapping_get st.m s i = some pm) :
    ∃ st', mlxsw_m_port_module_unmap st s i = some st' ∧
      st'.m = port_mapping_put st.m s i { pm with module_to_port := -1 } ∧
      st'.w = mlxsw_env_module_port_unmap st.w s pm.module := by
  refine ⟨{ m := port_mapping_put st.m s i { pm with module_to_port := -1 },
            w := mlxsw_env_module_port_unmap st.w s pm.module }, ?_, rfl, rfl⟩
  simp only [mlxsw_m_port_module_unmap, hget]

theorem port_remove_ok (st : State) (s lp : Nat) (pm : mlxsw_m_port_mapping) (x : mlxsw_m_port)
    (hget : mlxsw_m_port_mapping_get st.m s lp = some pm) (hx : pm.port = some x) :
    ∃ st', mlxsw_m_port_remove st s lp = some st' ∧
      st'.m = port_mapping_put st.m s lp { pm with port := none } ∧
      st'.w = mlxsw_core_port_fini
                (free_netdev (unregister_netdev (mlxsw_core_port_clear st.w lp) x.dev) x.dev)
                lp := by
  refine ⟨{ m := port_mapping_put st.m s lp { pm with port := none },
            w := mlxsw_core_port_fini
                   (free_netdev (unregister_netdev (mlxsw_core_port_clear st.w lp) x.dev) x.dev)
                   lp }, ?_, rfl, rfl⟩
  simp only [mlxsw_m_port_remove, hget, hx]

theorem port_create_ok (env : Env) (st : State) (s lp module : Nat) (lc : mlxsw_m_line_card)
    (pm : mlxsw_m_port_mapping)
    (hlc : st.m.line_cards[s]? = some lc)
    (hget : mlxsw_m_port_mapping_get st.m s lp = some pm)
    (hok : create_ok env s lp) :
    ∃ st', mlxsw_m_port_create env st s lp module = some (0, st') ∧
      st'.m = port_mapping_put st.m s lp
                { pm with port := some { dev := st.w.next_dev, local_port := lp,
                                         module := module, slot_index := s,
                                         module_offset := lc.module_offset } } ∧
      st'.w.next_dev = st.w.next_dev + 1 ∧
      st'.w.netdevs.length = st.w.netdevs.length + 1 ∧
      st'.w.core_ports = lp :: st.w.core_ports ∧
      (fresh st.w → fresh st'.w) ∧
      (∃ d ∈ st'.w.netdevs, d.id = st.w.next_dev ∧ d.registered = true ∧
        d.dev_addr_last = (module + 1 + lc.module_offset) % 256) ∧
      calls is_module_port_map st'.w = calls is_module_port_map st.w ∧
      calls is_core_port_init st'.w = calls is_core_port_init st.w + 1 ∧
      calls is_alloc_etherdev st'.w = calls is_alloc_etherdev st.w + 1 ∧
      calls is_register_netdev st'.w = calls is_register_netdev st.w + 1 ∧
      (∀ d ∈ st.w.netdevs, d.id ≠ st.w.next_dev → d ∈ st'.w.netdevs) := by
  obtain ⟨h1, h2, h3, h4⟩ := hok
  refine ⟨{ m := port_mapping_put st.m s lp
                { pm with port := some { dev := st.w.next_dev, local_port := lp,
                                         module := module, slot_index := s,
                                         module_offset := lc.module_offset } },
            w := mlxsw_core_port_eth_set
                   (register_netdev
                     (netif_carrier_off
                       (dev_addr_last_set
                         (alloc_etherdev
                           (mlxsw_core_port_init st.w lp s (module + 1 + lc.module_offset))).2
                         st.w.next_dev (module + 1 + lc.module_offset))
                       st.w.next_dev)
                     st.w.next_dev)
                   lp st.w.next_dev }, ?_, rfl, ?_⟩
  · unfold mlxsw_m_port_create
    simp only [hlc]
    rw [if_neg (by simp [h1]), if_neg (by simp [h2])]
    simp only [mlxsw_m_port_dev_addr_get, h3]
    rw [if_neg (by simp)]
    simp only [ne_eq, not_true_eq_false, if_false, hget]
    rw [if_neg (by simp [h4])]
    rfl
  · refine ⟨rfl, ?_, rfl, ?_, ?_, ?_, ?_, ?_, ?_, ?_⟩
    · simp [mlxsw_core_port_eth_set, register_netdev, netif_carrier_off, dev_addr_last_set,
        alloc_etherdev, mlxsw_core_port_init]
    · intro hf d hd
      simp only [mlxsw_core_port_eth_set, register_netdev, netif_carrier_off, dev_addr_last_set,
        alloc_etherdev, mlxsw_core_port_init, List.map_cons, List.map_map, List.mem_cons,
        List.mem_map] at hd
      simp only [mlxsw_core_port_eth_set, register_netdev, netif_carrier_off, dev_addr_last_set,
        alloc_etherdev, mlxsw_core_port_init]
      rcases hd with hd | ⟨a, ha, hd⟩
      · subst hd
        simp
      · have := hf a ha
        subst hd
        simp only [Function.comp]
        split_ifs <;> simp <;> omega
    · refine ⟨{ id := st.w.next_dev, dev_addr_last := (module + 1 + lc.module_offset) % 256,
                registered := true }, ?_, rfl, rfl, rfl⟩
      simp [mlxsw_core_port_eth_set, register_netdev, netif_carrier_off, dev_addr_last_set,
        alloc_etherdev, mlxsw_core_port_init]
    · simp [calls, mlxsw_core_port_eth_set, register_netdev, netif_carrier_off,
        dev_addr_last_set, alloc_etherdev, mlxsw_core_port_init, is_module_port_map]
    · simp [calls, mlxsw_core_port_eth_set, register_netdev, netif_carrier_off,
        dev_addr_last_set, alloc_etherdev, mlxsw_core_port_init, is_core_port_init]
    · simp [calls, mlxsw_core_port_eth_set, register_netdev, netif_carrier_off,
        dev_addr_last_set, alloc_etherdev, mlxsw_core_port_init, is_alloc_etherdev]
    · simp [calls, mlxsw_core_port_eth_set, register_netdev, netif_carrier_off,
        dev_addr_last_set, alloc_etherdev, mlxsw_core_port_init, is_register_netdev]
    · intro d hd hne
      simp only [mlxsw_core_port_eth_set, register_netdev, netif_carrier_off, dev_addr_last_set,
        alloc_etherdev, mlxsw_core_port_init, List.map_cons, List.map_map, List.mem_cons,
        List.mem_map]
      refine Or.inr ⟨d, hd, ?_⟩
      simp [Function.comp, hne]

/-! ## The mapping loop -/

theorem map_loop_ok (st1 : State) (s o k : Nat) (lc1 : mlxsw_m_line_card)
    (hlc : st1.m.line_cards[s]? = some lc1) (ho : lc1.module_offset = o)
    (ho8 : o < 256) (hk : k ≤ 254)
    (hb : o + k < st1.m.max_ports) (hM : st1.m.max_ports ≤ lc1.port_mapping.length)
    (hlow : ∀ p pm, o + 1 ≤ p → p ≤ o + k → mlxsw_m_port_mapping_get st1.m s p = some pm →
      pm.module_to_port < (st1.m.max_ports : Int)) :
    ∃ st2, for_up (ports_create_map_body s) k 1 st1 = some (0, 1 + k, st2) ∧
      hdr st2.m = hdr st1.m ∧
      (∀ p, mlxsw_m_port_mapping_get st2.m s p =
        if o + 1 ≤ p ∧ p ≤ o + k then
          (mlxsw_m_port_mapping_get st1.m s p).map
            (fun pm => { pm with module_to_port := (p : Int), module := p - o - 1 })
        else mlxsw_m_port_mapping_get st1.m s p) ∧
      same_resources st1.w st2.w ∧
      calls is_module_port_map st2.w = calls is_module_port_map st1.w + k ∧
      calls is_core_port_init st2.w = calls is_core_port_init st1.w ∧
      calls is_alloc_etherdev st2.w = calls is_alloc_etherdev st1.w ∧
      calls is_register_netdev st2.w = calls is_register_netdev st1.w := by
  have key := for_up_inv (ports_create_map_body s)
    (fun i st =>
      hdr st.m = hdr st1.m ∧
      (∀ p, mlxsw_m_port_mapping_get st.m s p =
        if o + 1 ≤ p ∧ p < o + i then
          (mlxsw_m_port_mapping_get st1.m s p).map
            (fun pm => { pm with module_to_port := (p : Int), module := p - o - 1 })
        else mlxsw_m_port_mapping_get st1.m s p) ∧
      same_resources st1.w st.w ∧
      calls is_module_port_map st.w + 1 = calls is_module_port_map st1.w + i ∧
      calls is_core_port_init st.w = calls is_core_port_init st1.w ∧
      calls is_alloc_etherdev st.w = calls is_alloc_etherdev st1.w ∧
      calls is_register_netdev st.w = calls is_register_netdev st1.w)
    k 1 st1
    ⟨rfl, fun p => by rw [if_neg (by omega)], ⟨rfl, rfl, rfl⟩, rfl, rfl, rfl, rfl⟩
    (by
      intro i st hi1 hi2 ⟨hh, ht, hr, hc1, hc2, hc3, hc4⟩
      obtain ⟨lc, hlc', hlh⟩ := hdr_line_card st.m st1.m s lc1 hh hlc
      have hoff : lc.module_offset = o := by
        simp only [lc_hdr, Prod.mk.injEq] at hlh
        rw [hlh.2.1, ho]
      have hmp : st.m.max_ports = st1.m.max_ports := hdr_max_ports _ _ hh
      obtain ⟨pm, hpm⟩ := mapping_get_of_lt st1.m s (i + o) lc1 hlc (by omega)
      have hget : mlxsw_m_port_mapping_get st.m s (i + o) = some pm := by
        rw [ht (i + o), if_neg (by omega), hpm]
      have hlt := hlow (i + o) pm (by omega) (by omega) hpm
      have e1 : (i + o) % 65536 = i + o := Nat.mod_eq_of_lt (by omega)
      have e2 : (i - 1) % 256 = i - 1 := Nat.mod_eq_of_lt (by omega)
      obtain ⟨st', hrun, hm', hw'⟩ :=
        module_map_ok st s (i + o) (i - 1) pm hget (by rw [hmp]; exact hlt)
      refine ⟨st', ?_, ?_, ?_, ?_, ?_, ?_, ?_, ?_⟩
      · simp only [ports_create_map_body, hlc', hoff, e1, e2]
        exact hrun
      · simp only [hm', hdr_put, hh]
      · intro p
        simp only [hm', mapping_get_put, true_and]
        by_cases hp : p = i + o
        · subst hp
          rw [if_pos rfl, if_pos (by omega), hget, hpm]
          simp only [Option.map_some', Option.some.injEq]
          have : i + o - o - 1 = i - 1 := by omega
          rw [this]
        · rw [if_neg hp, ht p]
          by_cases hr1 : o + 1 ≤ p ∧ p < o + i
          · rw [if_pos hr1, if_pos (by omega)]
          · rw [if_neg hr1, if_neg (by omega)]
      · rw [hw']
        exact hr
      · rw [hw']
        simp only [calls, mlxsw_env_module_port_map, List.countP_cons, is_module_port_map] at hc1 ⊢
        simp only [if_true]
        omega
      · rw [hw']
        simpa [calls, mlxsw_env_module_port_map, is_core_port_init] using hc2
      · rw [hw']
        simpa [calls, mlxsw_env_module_port_map, is_alloc_etherdev] using hc3
      · rw [hw']
        simpa [calls, mlxsw_env_module_port_map, is_register_netdev] using hc4)
  obtain ⟨st2, hrun, hh, ht, hr, hc1, hc2, hc3, hc4⟩ := key
  refine ⟨st2, hrun, hh, ?_, hr, by omega, hc2, hc3, hc4⟩
  intro p
  rw [ht p]
  by_cases hr1 : o + 1 ≤ p ∧ p ≤ o + k
  · rw [if_pos hr1, if_pos (by omega)]
  · rw [if_neg hr1, if_neg (by omega)]

/-! ## The port creation loop -/

theorem create_inv_start (st2 : State) (s o k : Nat) : create_inv st2 s o k 0 st2 := by
  have hc : created o k 0 = 0 := by simp [created]
  refine ⟨rfl, ?_, ?_, ?_, ?_, fun h => h, rfl, ?_, ?_, ?_, ?_⟩
  · intro p
    rw [if_neg (by omega)]
  · simp [hc]
  · simp [hc]
  · simp [hc, desc]
  · simp [hc]
  · simp [hc]
  · simp [hc]
  · intro p _ _ h
    omega

theorem create_step (env : Env) (st2 : State) (s o k : Nat) (hs : range_mapped st2 s o k)
    (i : Nat) (st : State) (hi : i < st2.m.max_ports)
    (hok : o + 1 ≤ i → i ≤ o + k → create_ok env s i)
    (hinv : create_inv st2 s o k i st) :
    ∃ st', ports_create_create_body env s i st = some (0, st') ∧
      create_inv st2 s o k (i + 1) st' := by
  obtain ⟨⟨lc2, hlc2, ho, hM⟩, hb, h16, hin, hout⟩ := hs
  obtain ⟨hh, ht, hn, hlen, hcp, hf, hc1, hc2, hc3, hc4, hdev⟩ := hinv
  obtain ⟨lc, hlc, hlh⟩ := hdr_line_card st.m st2.m s lc2 hh hlc2
  have hoff : lc.module_offset = o := by
    simp only [lc_hdr, Prod.mk.injEq] at hlh
    rw [hlh.2.1, ho]
  obtain ⟨pm, hpm⟩ := mapping_get_of_lt st2.m s i lc2 hlc2 (by omega)
  have hget : mlxsw_m_port_mapping_get st.m s i = some pm := by
    rw [ht i, if_neg (by omega), hpm]
  by_cases hr : o + 1 ≤ i ∧ i ≤ o + k
  · obtain ⟨pm', hpm', hmtp⟩ := hin i hr.1 hr.2
    rw [hpm] at hpm'
    simp only [Option.some.injEq] at hpm'
    subst hpm'
    have hu : to_u16 pm.module_to_port = i := by
      rw [hmtp]
      exact to_u16_natCast i (by omega)
    have hcr : created o k (i + 1) = created o k i + 1 := by
      simp only [created]
      omega
    have hci : created o k i = i - (o + 1) := by
      simp only [created]
      omega
    obtain ⟨st', hrun, hm', hn', hlen', hcp', hf', hnew, hc1', hc2', hc3', hc4', hkeep⟩ :=
      port_create_ok env st s i pm.module lc pm hlc hget (hok hr.1 hr.2)
    refine ⟨st', ?_, ?_, ?_, ?_, ?_, ?_, ?_, ?_, ?_, ?_, ?_, ?_⟩
    · simp only [ports_create_create_body, hget, hu]
      rw [if_pos (by omega)]
      exact hrun
    · rw [hm', hdr_put, hh]
    · intro p
      rw [hm', mapping_get_put]
      by_cases hp : p = i
      · subst hp
        rw [if_pos ⟨rfl, rfl⟩, if_pos ⟨hr.1, hr.2, by omega⟩, hget, hpm]
        simp only [Option.map_some', Option.some.injEq, port_of, hn, hoff, hci]
      · rw [if_neg (by simp [hp]), ht p]
        by_cases hr1 : o + 1 ≤ p ∧ p ≤ o + k ∧ p < i
        · rw [if_pos hr1, if_pos ⟨hr1.1, hr1.2.1, by omega⟩]
        · rw [if_neg hr1, if_neg (by omega)]
    · rw [hn', hn, hcr]
      omega
    · rw [hlen', hlen, hcr]
      omega
    · rw [hcp', hcp, hcr]
      simp only [desc, List.cons_append, List.cons.injEq, and_true]
      omega
    · exact fun h => hf' (hf h)
    · rw [hc1', hc1]
    · rw [hc2', hc2, hcr]
      omega
    · rw [hc3', hc3, hcr]
      omega
    · rw [hc4', hc4, hcr]
      omega
    · intro p h1 h2 h3
      by_cases hp : p = i
      · subst hp
        obtain ⟨d, hd, hid, hreg, haddr⟩ := hnew
        refine ⟨pm, d, hpm, hd, ?_, hreg, ?_⟩
        · rw [hid, hn, hci]
        · rw [haddr, hoff]
      · obtain ⟨pm', d, hpm', hd, hid, hreg, haddr⟩ := hdev p h1 h2 (by omega)
        refine ⟨pm', d, hpm', hkeep d hd ?_, hid, hreg, haddr⟩
        rw [hid, hn, hci]
        omega
  · have hle : pm.module_to_port ≤ 0 := hout i pm hr hpm
    have hcr : created o k (i + 1) = created o k i := by
      simp only [created]
      omega
    refine ⟨st, ?_, hh, ?_, ?_, ?_, ?_, hf, hc1, ?_, ?_, ?_, ?_⟩
    · simp only [ports_create_create_body, hget]
      rw [if_neg (by omega)]
    · intro p
      rw [ht p]
      by_cases hr1 : o + 1 ≤ p ∧ p ≤ o + k ∧ p < i
      · rw [if_pos hr1, if_pos ⟨hr1.1, hr1.2.1, by omega⟩]
      · rw [if_neg hr1, if_neg (by omega)]
    · rw [hcr]; exact hn
    · rw [hcr]; exact hlen
    · rw [hcr]; exact hcp
    · rw [hcr]; exact hc2
    · rw [hcr]; exact hc3
    · rw [hcr]; exact hc4
    · intro p h1 h2 h3
      exact hdev p h1 h2 (by omega)

theorem create_loop_ok (env : Env) (st2 : State) (s o k : Nat) (hs : range_mapped st2 s o k)
    (hok : ∀ p, o + 1 ≤ p → p ≤ o + k → create_ok env s p) :
    ∃ st3, for_up (ports_create_create_body env s) st2.m.max_ports 0 st2
        = some (0, st2.m.max_ports, st3) ∧
      create_inv st2 s o k st2.m.max_ports st3 := by
  obtain ⟨st3, hrun, hinv⟩ := for_up_inv (ports_create_create_body env s)
    (create_inv st2 s o k) st2.m.max_ports 0 st2 (create_inv_start st2 s o k)
    (fun i st _ hi hinv => create_step env st2 s o k hs i st (by omega) (hok i) hinv)
  refine ⟨st3, ?_, ?_⟩
  · rw [hrun]
    simp
  · simpa using hinv

/-! ## Activation without failure -/

theorem line_cards_line_card_put (m : mlxsw_m) (s : Nat) (lc lc' : mlxsw_m_line_card)
    (h : m.line_cards[s]? = some lc) : (line_card_put m s lc').line_cards[s]? = some lc' := by
  unfold line_card_put
  exact List.getElem?_set_self (List.getElem?_eq_some.mp h).1

theorem mapping_get_line_card_put (m : mlxsw_m) (s : Nat) (lc lc' : mlxsw_m_line_card)
    (h : m.line_cards[s]? = some lc) (ht : lc'.port_mapping = lc.port_mapping) (s' p : Nat) :
    mlxsw_m_port_mapping_get (line_card_put m s lc') s' p = mlxsw_m_port_mapping_get m s' p := by
  unfold mlxsw_m_port_mapping_get
  by_cases hs : s' = s
  · subst hs
    rw [line_cards_line_card_put m s' lc lc' h, h]
    simp only [ht]
  · unfold line_card_put
    simp only [List.getElem?_set_ne (Ne.symm hs)]

theorem ports_create_eq (env : Env) (st : State) (s k o : Nat) (lc : mlxsw_m_line_card)
    (hlc : st.m.line_cards[s]? = some lc) (hq : env.mgpir_err s = 0)
    (hk : (env.mgpir s).num_of_modules = k) (hk1 : 1 ≤ k) (hk2 : k ≤ 254)
    (ho : offset_of st.m s = o) :
    mlxsw_m_ports_create env st s =
      ports_create_loops env s (k + 1)
        { st with m := line_card_put st.m s
                         { lc with max_ports := k + 1, module_offset := o } } := by
  have hkm : k % 256 = k := Nat.mod_eq_of_lt (by omega)
  have hkm1 : (k + 1) % 256 = k + 1 := Nat.mod_eq_of_lt (by omega)
  have e1 : (if s ≠ 0 then (s - 1) * st.m.max_module_count % 256 else 0) = o := by
    rw [← ho]
    rfl
  unfold mlxsw_m_ports_create
  rw [if_neg (by simp [hq])]
  simp only [hlc, hk, hkm, hkm1, e1]
  rw [if_neg (by omega)]

theorem ports_create_loops_ok (env : Env) (s k : Nat) (st1 st2 st3 : State)
    (h2 : for_up (ports_create_map_body s) k 1 st1 = some (0, 1 + k, st2))
    (h3 : for_up (ports_create_create_body env s) st2.m.max_ports 0 st2
      = some (0, st2.m.max_ports, st3)) :
    ports_create_loops env s (k + 1) st1 = some (0, st3) := by
  unfold ports_create_loops
  simp only [Nat.add_sub_cancel, h2, h3, ne_eq, not_true_eq_false, if_false]

theorem ports_create_loops_fail (env : Env) (s k j : Nat) (err : Int)
    (st1 st2 st3 st4 st5 : State)
    (h2 : for_up (ports_create_map_body s) k 1 st1 = some (0, 1 + k, st2))
    (h3 : for_up (ports_create_create_body env s) st2.m.max_ports 0 st2 = some (err, j, st3))
    (herr : err ≠ 0)
    (h4 : for_down (ports_create_remove_body s) j st3 = some st4)
    (h5 : for_down_pos (ports_create_unmap_body s) st4.m.max_ports st4 = some st5) :
    ports_create_loops env s (k + 1) st1 = some (err, st5) := by
  unfold ports_create_loops
  simp only [Nat.add_sub_cancel, h2, h3, ne_eq, not_true_eq_false, if_false]
  rw [if_pos herr]
  simp only [err_module_to_port_create, h4, err_module_to_port_map, h5]

theorem ports_create_ok (env : Env) (st : State) (s k : Nat) (lc : mlxsw_m_line_card)
    (hlc : st.m.line_cards[s]? = some lc)
    (hM : st.m.max_ports ≤ lc.port_mapping.length)
    (hq : env.mgpir_err s = 0)
    (hk : (env.mgpir s).num_of_modules = k) (hk1 : 1 ≤ k) (hk2 : k ≤ 254)
    (hb : offset_of st.m s + k < st.m.max_ports)
    (hin : ∀ p pm, offset_of st.m s + 1 ≤ p → p ≤ offset_of st.m s + k →
      mlxsw_m_port_mapping_get st.m s p = some pm → pm.module_to_port < (st.m.max_ports : Int))
    (hout : ∀ p pm, ¬ (offset_of st.m s + 1 ≤ p ∧ p ≤ offset_of st.m s + k) →
      mlxsw_m_port_mapping_get st.m s p = some pm → pm.module_to_port ≤ 0)
    (hok : ∀ p, offset_of st.m s + 1 ≤ p → p ≤ offset_of st.m s + k → create_ok env s p) :
    ∃ st', mlxsw_m_ports_create env st s = some (0, st') ∧
      ports_created st s (offset_of st.m s) k st' := by
  have ho8 : offset_of st.m s < 256 := by
    unfold offset_of
    split_ifs
    · exact Nat.mod_lt _ (by decide)
    · decide
  generalize hodef : offset_of st.m s = o at *
  have hkm : k % 256 = k := Nat.mod_eq_of_lt (by omega)
  have hkm1 : (k + 1) % 256 = k + 1 := Nat.mod_eq_of_lt (by omega)
  -- the state after the capacity and the offset are stored
  let lc1 : mlxsw_m_line_card := { lc with max_ports := k + 1, module_offset := o }
  let st1 : State := { st with m := line_card_put st.m s lc1 }
  have hlc1 : st1.m.line_cards[s]? = some lc1 := line_cards_line_card_put st.m s lc lc1 hlc
  have hg1 : ∀ s' p, mlxsw_m_port_mapping_get st1.m s' p = mlxsw_m_port_mapping_get st.m s' p :=
    fun s' p => mapping_get_line_card_put st.m s lc lc1 hlc rfl s' p
  have hmp1 : st1.m.max_ports = st.m.max_ports := rfl
  -- the mapping loop
  obtain ⟨st2, hrun2, hh2, ht2, hr2, hc21, hc22, hc23, hc24⟩ :=
    map_loop_ok st1 s o k lc1 hlc1 rfl ho8 hk2 (by rw [hmp1]; exact hb) (by rw [hmp1]; exact hM)
      (fun p pm h1 h2 hg => by
        rw [hg1] at hg
        rw [hmp1]
        exact hin p pm h1 h2 hg)
  have hmp2 : st2.m.max_ports = st.m.max_ports := (hdr_max_ports _ _ hh2).trans hmp1
  obtain ⟨lc2, hlc2, hlh2⟩ := hdr_line_card st2.m st1.m s lc1 hh2 hlc1
  simp only [lc_hdr, Prod.mk.injEq] at hlh2
  obtain ⟨hl2a, hl2b, hl2c, hl2d⟩ := hlh2
  have hs2 : range_mapped st2 s o k := by
    refine ⟨⟨lc2, hlc2, hl2b, ?_⟩, by omega, by omega, ?_, ?_⟩
    · rw [hmp2, hl2d]
      exact hM
    · intro p h1 h2
      obtain ⟨pm, hpm⟩ := mapping_get_of_lt st.m s p lc hlc (by omega)
      refine ⟨{ pm with module_to_port := (p : Int), module := p - o - 1 }, ?_, rfl⟩
      rw [ht2 p, if_pos ⟨h1, h2⟩, hg1, hpm]
      rfl
    · intro p pm hr hg
      rw [ht2 p, if_neg hr, hg1] at hg
      exact hout p pm hr hg
  -- the port creation loop
  obtain ⟨st3, hrun3, hh3, ht3, hn3, hlen3, hcp3, hf3, hc31, hc32, hc33, hc34, hdev3⟩ :=
    create_loop_ok env st2 s o k hs2 hok
  have hck : created o k st2.m.max_ports = k := by
    simp only [created]
    omega
  rw [hck] at hn3 hlen3 hcp3 hc32 hc33 hc34
  obtain ⟨hr2a, hr2b, hr2c⟩ := hr2
  obtain ⟨lc3, hlc3, hlh3⟩ := hdr_line_card st3.m st2.m s lc2 hh3 hlc2
  simp only [lc_hdr, Prod.mk.injEq] at hlh3
  obtain ⟨hl3a, hl3b, hl3c, hl3d⟩ := hlh3
  refine ⟨st3, ?_, ?_⟩
  · rw [ports_create_eq env st s k o lc hlc hq hk hk1 hk2 hodef]
    exact ports_create_loops_ok env s k st1 st2 st3 hrun2 hrun3
  · have hmmc : st3.m.max_module_count = st.m.max_module_count := by
      have e3 : hdr st3.m = hdr st1.m := hh3.trans hh2
      simp only [hdr, Prod.mk.injEq] at e3
      exact e3.2.1
    refine ⟨(hdr_max_ports _ _ hh3).trans hmp2, hmmc,
      ⟨lc, lc3, hlc, hlc3, ?_, ?_, ?_, ?_⟩, ?_, ?_, ?_, ?_, ?_, ?_, ?_, ?_, ?_, ?_⟩
    · rw [hl3a, hl2a]
    · rw [hl3b, hl2b]
    · rw [hl3c, hl2c]
    · rw [hl3d, hl2d]
    · intro p
      rw [ht3 p]
      by_cases hr : o + 1 ≤ p ∧ p ≤ o + k
      · rw [if_pos ⟨hr.1, hr.2, by omega⟩, if_pos hr, ht2 p, if_pos hr, hg1]
        obtain ⟨pm, hpm⟩ := mapping_get_of_lt st.m s p lc hlc (by omega)
        rw [hpm]
        simp only [Option.map_some', port_of, hr2b]
      · rw [if_neg (by omega), if_neg hr, ht2 p, if_neg hr, hg1]
    · rw [hn3, hr2b]
    · rw [hlen3, hr2a]
    · rw [hcp3, hr2c]
    · intro h
      apply hf3
      intro d hd
      rw [hr2a] at hd
      rw [hr2b]
      exact h d hd
    · rw [hc31, hc21]
    · rw [hc32, hc22]
    · rw [hc33, hc23]
    · rw [hc34, hc24]
    · intro p h1 h2
      obtain ⟨pm, d, hpm, hd, hid, hreg, haddr⟩ := hdev3 p h1 h2 (by omega)
      refine ⟨d, hd, ?_, hreg, ?_⟩
      · rw [hid, hr2b]
      · rw [haddr]
        rw [ht2 p, if_pos ⟨h1, h2⟩] at hpm
        cases hpm1 : mlxsw_m_port_mapping_get st1.m s p with
        | none => rw [hpm1] at hpm; cases hpm
        | some pm1 =>
          rw [hpm1] at hpm
          simp only [Option.map_some', Option.some.injEq] at hpm
          rw [← hpm]

theorem got_active_of_ports_create (env : Env) (st st3 : State) (s : Nat)
    (lc3 : mlxsw_m_line_card)
    (h : mlxsw_m_ports_create env st s = some (0, st3))
    (hlc : st3.m.line_cards[s]? = some lc3) :
    mlxsw_m_got_active env st s =
      some { st3 with m := line_card_put st3.m s { lc3 with active := true } } := by
  simp only [mlxsw_m_got_active, h, hlc]
  rfl

set_option maxRecDepth 100000 in
/-- C4, counterexample: slot 0 has a table of 300 unassigned entries and its
capacity register reports 255. The `u8` field `max_ports` wraps to 0, no entry
is mapped, no Port Object is created, and the slot is marked active. -/
theorem got_active_capacity_255_counterexample :
    mlxsw_m_got_active (env_ok 0 16 255 300) (State_invalidated 1 16 300) 0 =
      some { m := { max_ports := 300, max_module_count := 16, num_of_slots := 1,
                    line_cards := [{ line_card_invalidated 300 with
                                     max_ports := 0, active := true }] },
             w := World_zero } := by
  rfl

theorem State_invalidated_entry (slots mmc ports s p : Nat) (pm : mlxsw_m_port_mapping)
    (h : mlxsw_m_port_mapping_get (State_invalidated slots mmc ports).m s p = some pm) :
    pm = { port := none, module_to_port := -1, module := 0 } := by
  simp only [mlxsw_m_port_mapping_get, State_invalidated, List.getElem?_replicate] at h
  split_ifs at h with h1
  simp only [line_card_invalidated, List.getElem?_replicate] at h
  split_ifs at h with h2
  simp only [Option.some.injEq] at h
  exact h.symm

theorem got_active_ok (env : Env) (st : State) (s k : Nat) (lc : mlxsw_m_line_card)
    (hlc : st.m.line_cards[s]? = some lc)
    (hM : st.m.max_ports ≤ lc.port_mapping.length)
    (hq : env.mgpir_err s = 0)
    (hk : (env.mgpir s).num_of_modules = k) (hk1 : 1 ≤ k) (hk2 : k ≤ 254)
    (hb : offset_of st.m s + k < st.m.max_ports)
    (hin : ∀ p pm, offset_of st.m s + 1 ≤ p → p ≤ offset_of st.m s + k →
      mlxsw_m_port_mapping_get st.m s p = some pm → pm.module_to_port < (st.m.max_ports : Int))
    (hout : ∀ p pm, ¬ (offset_of st.m s + 1 ≤ p ∧ p ≤ offset_of st.m s + k) →
      mlxsw_m_port_mapping_get st.m s p = some pm → pm.module_to_port ≤ 0)
    (hok : ∀ p, offset_of st.m s + 1 ≤ p → p ≤ offset_of st.m s + k → create_ok env s p) :
    ∃ st3 st' lc3, mlxsw_m_ports_create env st s = some (0, st3) ∧
      ports_created st s (offset_of st.m s) k st3 ∧
      mlxsw_m_got_active env st s = some st' ∧
      st3.m.line_cards[s]? = some lc3 ∧
      st'.m.line_cards[s]? = some { lc3 with active := true } ∧
      st'.m.max_ports = st3.m.max_ports ∧
      st'.m.max_module_count = st3.m.max_module_count ∧
      (∀ s' p, mlxsw_m_port_mapping_get st'.m s' p = mlxsw_m_port_mapping_get st3.m s' p) ∧
      st'.w = st3.w := by
  obtain ⟨st3, hrun, hres⟩ := ports_create_ok env st s k lc hlc hM hq hk hk1 hk2 hb hin hout hok
  obtain ⟨_, _, ⟨lc0, lc3, _, hlc3, _⟩, _⟩ := id hres
  refine ⟨st3, _, lc3, hrun, hres, got_active_of_ports_create env st st3 s lc3 hrun hlc3, hlc3,
    ?_, rfl, rfl, ?_, rfl⟩
  · exact line_cards_line_card_put st3.m s lc3 _ hlc3
  · intro s' p
    exact mapping_get_line_card_put st3.m s lc3 { lc3 with active := true } hlc3 rfl s' p

/-- C4, amended: let slot `s` have a table at least as long as the chassis
`max_ports` in which no entry is assigned (`module_to_port ≤ 0`, no port
reference), let its capacity register report `k` with `1 ≤ k ≤ 254`, let
`offset + k` be below the chassis `max_ports`, and let no collaborator fail.
Then `mlxsw_m_got_active` returns, the slot is active with `max_ports = k + 1`,
for `i = 1 .. k` the entry of local port `i + offset` is mapped to module
`i - 1` and holds a Port Object with that local port, module, slot and offset,
and every other entry of the slot (index 0 among them) is unassigned and holds
no port. -/
theorem got_active_creates_ports (env : Env) (st : State) (s k : Nat) (lc : mlxsw_m_line_card)
    (hlc : st.m.line_cards[s]? = some lc)
    (hM : st.m.max_ports ≤ lc.port_mapping.length)
    (hun : ∀ p pm, mlxsw_m_port_mapping_get st.m s p = some pm →
      pm.module_to_port ≤ 0 ∧ pm.port = none)
    (hq : env.mgpir_err s = 0)
    (hk : (env.mgpir s).num_of_modules = k) (hk1 : 1 ≤ k) (hk2 : k ≤ 254)
    (hb : offset_of st.m s + k < st.m.max_ports)
    (hok : ∀ p, create_ok env s p) :
    ∃ st' lc', mlxsw_m_got_active env st s = some st' ∧
      st'.m.line_cards[s]? = some lc' ∧ lc'.active = true ∧ lc'.max_ports = k + 1 ∧
      lc'.module_offset = offset_of st.m s ∧
      (∀ i, 1 ≤ i → i ≤ k →
        ∃ port, mlxsw_m_port_mapping_get st'.m s (i + offset_of st.m s) =
            some { port := some port, module_to_port := ((i + offset_of st.m s : Nat) : Int),
                   module := i - 1 } ∧
          port.local_port = i + offset_of st.m s ∧ port.module = i - 1 ∧
          port.slot_index = s ∧ port.module_offset = offset_of st.m s) ∧
      (∀ p pm, ¬ (offset_of st.m s + 1 ≤ p ∧ p ≤ offset_of st.m s + k) →
        mlxsw_m_port_mapping_get st'.m s p = some pm →
        pm.module_to_port ≤ 0 ∧ pm.port = none) := by
  obtain ⟨st3, st', lc3, _, hres, hrun, hlc3, hlc', _, _, hg, _⟩ :=
    got_active_ok env st s k lc hlc hM hq hk hk1 hk2 hb
      (fun p pm _ _ hg => by
        have := (hun p pm hg).1
        omega)
      (fun p pm _ hg => (hun p pm hg).1)
      (fun p _ _ => hok p)
  obtain ⟨_, _, ⟨lc0, lc3', _, hlc3', hmp, hoff, _, _⟩, ht, _⟩ := hres
  rw [hlc3] at hlc3'
  simp only [Option.some.injEq] at hlc3'
  subst hlc3'
  refine ⟨st', _, hrun, hlc', rfl, hmp, hoff, ?_, ?_⟩
  · intro i hi1 hi2
    obtain ⟨pm, hpm⟩ := mapping_get_of_lt st.m s (i + offset_of st.m s) lc hlc (by omega)
    have e : i + offset_of st.m s - offset_of st.m s - 1 = i - 1 := by omega
    refine ⟨{ dev := st.w.next_dev + (i + offset_of st.m s - (offset_of st.m s + 1)),
              local_port := i + offset_of st.m s, module := i - 1, slot_index := s,
              module_offset := offset_of st.m s }, ?_, rfl, rfl, rfl, rfl⟩
    rw [hg, ht, if_pos (by omega), hpm]
    simp only [Option.map_some', e]
  · intro p pm hr hget
    rw [hg, ht, if_neg hr] at hget
    exact hun p pm hget

/-- Witness of C4: the register reports 3 on slot 0 of a chassis with four
ports; the result is three ports on local ports 1, 2, 3 with modules 0, 1,
2. -/
theorem got_active_creates_ports_witness :
    ∃ st' lc', mlxsw_m_got_active (env_ok 0 16 3 4) (State_invalidated 1 16 4) 0 = some st' ∧
      st'.m.line_cards[0]? = some lc' ∧ lc'.active = true ∧ lc'.max_ports = 3 + 1 ∧
      lc'.module_offset = offset_of (State_invalidated 1 16 4).m 0 ∧
      (∀ i, 1 ≤ i → i ≤ 3 →
        ∃ port, mlxsw_m_port_mapping_get st'.m 0 (i + offset_of (State_invalidated 1 16 4).m 0) =
            some { port := some port,
                   module_to_port := ((i + offset_of (State_invalidated 1 16 4).m 0 : Nat) : Int),
                   module := i - 1 } ∧
          port.local_port = i + offset_of (State_invalidated 1 16 4).m 0 ∧ port.module = i - 1 ∧
          port.slot_index = 0 ∧ port.module_offset = offset_of (State_invalidated 1 16 4).m 0) ∧
      (∀ p pm, ¬ (offset_of (State_invalidated 1 16 4).m 0 + 1 ≤ p ∧
          p ≤ offset_of (State_invalidated 1 16 4).m 0 + 3) →
        mlxsw_m_port_mapping_get st'.m 0 p = some pm →
        pm.module_to_port ≤ 0 ∧ pm.port = none) :=
  got_active_creates_ports (env_ok 0 16 3 4) (State_invalidated 1 16 4) 0 3
    (line_card_invalidated 4) rfl (by decide)
    (fun p pm h => by
      rw [State_invalidated_entry 1 16 4 0 p pm h]
      exact ⟨by decide, rfl⟩)
    rfl rfl (by decide) (by decide) (by decide)
    (fun p => ⟨rfl, rfl, rfl, rfl⟩)

/-! ## Activation with a failing port creation -/

theorem create_fail_cases (env : Env) (s lp : Nat) (h : ¬ create_ok env s lp) :
    env.core_port_init_err s lp ≠ 0 ∨ env.alloc_etherdev_ok s lp = false ∨
      env.ppad_err s lp ≠ 0 ∨ env.register_netdev_err s lp ≠ 0 := by
  unfold create_ok at h
  by_cases h1 : env.core_port_init_err s lp = 0
  · by_cases h2 : env.alloc_etherdev_ok s lp = true
    · by_cases h3 : env.ppad_err s lp = 0
      · by_cases h4 : env.register_netdev_err s lp = 0
        · exact absurd ⟨h1, h2, h3, h4⟩ h
        · exact Or.inr (Or.inr (Or.inr h4))
      · exact Or.inr (Or.inr (Or.inl h3))
    · exact Or.inr (Or.inl (by simpa using h2))
  · exact Or.inl h1

theorem create_step_fail (env : Env) (st2 : State) (s o k : Nat) (hs : range_mapped st2 s o k)
    (hnp : ∀ p pm, mlxsw_m_port_mapping_get st2.m s p = some pm → pm.port = none)
    (hfresh : fresh st2.w)
    (j : Nat) (st : State) (hj1 : o + 1 ≤ j) (hj2 : j ≤ o + k)
    (hfail : ¬ create_ok env s j)
    (hinv : create_inv st2 s o k j st) :
    ∃ err st', ports_create_create_body env s j st = some (err, st') ∧ err ≠ 0 ∧
      unwind_inv st2 s o k j st' := by
  obtain ⟨⟨lc2, hlc2, ho, hM⟩, hb, h16, hin, hout⟩ := hs
  obtain ⟨hh, ht, hn, hlen, hcp, hf, _⟩ := hinv
  obtain ⟨pm, hpm, hmtp⟩ := hin j hj1 hj2
  have hget : mlxsw_m_port_mapping_get st.m s j = some pm := by
    rw [ht j, if_neg (by omega), hpm]
  have hu : to_u16 pm.module_to_port = j := by
    rw [hmtp]
    exact to_u16_natCast j (by omega)
  obtain ⟨err, st', hrun, herr, hm', _, hdevs, _, hcore⟩ :=
    port_create_fail env st s j pm.module pm hget (hnp j pm hpm) (hf hfresh)
      (create_fail_cases env s j hfail)
  refine ⟨err, st', ?_, herr, ?_, ?_, ?_, ?_⟩
  · simp only [ports_create_create_body, hget, hu]
    rw [if_pos (by omega)]
    exact hrun
  · rw [hm', hh]
  · intro p
    rw [hm', ht p]
  · rw [hcore, hcp]
  · intro d hd
    rw [hdevs] at hd
    have := hf hfresh d hd
    omega

theorem remove_step (st2 : State) (s o k : Nat) (hs : range_mapped st2 s o k)
    (hnp : ∀ p pm, mlxsw_m_port_mapping_get st2.m s p = some pm → pm.port = none)
    (i : Nat) (st : State) (hi : i < st2.m.max_ports)
    (hinv : unwind_inv st2 s o k (i + 1) st) :
    ∃ st', ports_create_remove_body s i st = some st' ∧ unwind_inv st2 s o k i st' := by
  obtain ⟨⟨lc2, hlc2, ho, hM⟩, hb, h16, hin, hout⟩ := hs
  obtain ⟨hh, ht, hcp, hid⟩ := hinv
  obtain ⟨pm, hpm⟩ := mapping_get_of_lt st2.m s i lc2 hlc2 (by omega)
  by_cases hr : o + 1 ≤ i ∧ i ≤ o + k
  · obtain ⟨pm', hpm', hmtp⟩ := hin i hr.1 hr.2
    rw [hpm] at hpm'
    simp only [Option.some.injEq] at hpm'
    subst hpm'
    have hget : mlxsw_m_port_mapping_get st.m s i =
        some { pm with port := some (port_of st2 s o i pm) } := by
      rw [ht i, if_pos ⟨hr.1, hr.2, by omega⟩, hpm]
      rfl
    have hu : to_u16 pm.module_to_port = i := by
      rw [hmtp]
      exact to_u16_natCast i (by omega)
    have hcr : created o k (i + 1) = created o k i + 1 := by
      simp only [created]
      omega
    have hci : created o k i = i - (o + 1) := by
      simp only [created]
      omega
    have hpmn : ({ pm with port := none } : mlxsw_m_port_mapping) = pm := by
      have := hnp i pm hpm
      cases pm
      simp only at this
      simp [this]
    obtain ⟨st', hrun, hm', hw'⟩ := port_remove_ok st s i _ (port_of st2 s o i pm) hget rfl
    refine ⟨st', ?_, ?_, ?_, ?_, ?_⟩
    · simp only [ports_create_remove_body, hget, hu]
      rw [if_pos (by omega)]
      exact hrun
    · rw [hm', hdr_put, hh]
    · intro p
      rw [hm', mapping_get_put]
      by_cases hp : p = i
      · subst hp
        rw [if_pos ⟨rfl, rfl⟩, if_neg (by omega), hget, hpm]
        simp only [Option.map_some', hpmn]
      · rw [if_neg (by simp [hp]), ht p]
        by_cases hr1 : o + 1 ≤ p ∧ p ≤ o + k ∧ p < i
        · rw [if_pos hr1, if_pos ⟨hr1.1, hr1.2.1, by omega⟩]
        · rw [if_neg hr1, if_neg (by omega)]
    · rw [hw']
      simp only [mlxsw_core_port_fini, free_netdev, unregister_netdev, mlxsw_core_port_clear,
        hcp, hcr, desc, List.cons_append]
      have : o + 1 + created o k i = i := by omega
      rw [this, List.erase_cons_head]
    · intro d hd
      rw [hw'] at hd
      simp only [mlxsw_core_port_fini, free_netdev, unregister_netdev, mlxsw_core_port_clear,
        List.mem_filter, List.mem_map, bne_iff_ne, ne_eq] at hd
      obtain ⟨⟨a, ha, had⟩, hne⟩ := hd
      have hlt := hid a ha
      have hida : d.id = a.id := by
        rw [← had]
        split_ifs <;> rfl
      simp only [port_of] at hne hida
      rw [hida] at hne ⊢
      omega
  · have hle : pm.module_to_port ≤ 0 := hout i pm hr hpm
    have hget : mlxsw_m_port_mapping_get st.m s i = some pm := by
      rw [ht i, if_neg (by omega), hpm]
    have hcr : created o k (i + 1) = created o k i := by
      simp only [created]
      omega
    refine ⟨st, ?_, hh, ?_, ?_, ?_⟩
    · simp only [ports_create_remove_body, hget]
      rw [if_neg (by omega)]
    · intro p
      rw [ht p]
      by_cases hr1 : o + 1 ≤ p ∧ p ≤ o + k ∧ p < i
      · rw [if_pos hr1, if_pos ⟨hr1.1, hr1.2.1, by omega⟩]
      · rw [if_neg hr1, if_neg (by omega)]
    · rw [← hcr]; exact hcp
    · rw [← hcr]; exact hid

theorem unmap_step (st4 : State) (s o k : Nat) (hs : range_mapped st4 s o k)
    (i : Nat) (st : State) (hi : i < st4.m.max_ports)
    (hinv : unmap_inv st4 s o k (i + 1) st) :
    ∃ st', ports_create_unmap_body s i st = some st' ∧ unmap_inv st4 s o k i st' := by
  obtain ⟨⟨lc4, hlc4, ho, hM⟩, hb, h16, hin, hout⟩ := hs
  obtain ⟨hh, ht, hr4⟩ := hinv
  obtain ⟨pm, hpm⟩ := mapping_get_of_lt st4.m s i lc4 hlc4 (by omega)
  have hget : mlxsw_m_port_mapping_get st.m s i = some pm := by
    rw [ht i, if_neg (by omega), hpm]
  by_cases hr : o + 1 ≤ i ∧ i ≤ o + k
  · obtain ⟨pm', hpm', hmtp⟩ := hin i hr.1 hr.2
    rw [hpm] at hpm'
    simp only [Option.some.injEq] at hpm'
    subst hpm'
    obtain ⟨st', hrun, hm', hw'⟩ := module_unmap_ok st s i pm hget
    refine ⟨st', ?_, ?_, ?_, ?_⟩
    · simp only [ports_create_unmap_body, hget]
      rw [if_pos (by omega)]
      exact hrun
    · rw [hm', hdr_put, hh]
    · intro p
      rw [hm', mapping_get_put]
      by_cases hp : p = i
      · subst hp
        rw [if_pos ⟨rfl, rfl⟩, if_pos ⟨hr.1, hr.2, Nat.le_refl _⟩, hget, hpm]
        rfl
      · rw [if_neg (by simp [hp]), ht p]
        by_cases hr1 : o + 1 ≤ p ∧ p ≤ o + k ∧ i + 1 ≤ p
        · rw [if_pos hr1, if_pos ⟨hr1.1, hr1.2.1, by omega⟩]
        · rw [if_neg hr1, if_neg (by omega)]
    · rw [hw']
      exact hr4
  · have hle : pm.module_to_port ≤ 0 := hout i pm hr hpm
    refine ⟨st, ?_, hh, ?_, hr4⟩
    · simp only [ports_create_unmap_body, hget]
      rw [if_neg (by omega)]
    · intro p
      rw [ht p]
      by_cases hr1 : o + 1 ≤ p ∧ p ≤ o + k ∧ i + 1 ≤ p
      · rw [if_pos hr1, if_pos ⟨hr1.1, hr1.2.1, by omega⟩]
      · rw [if_neg hr1, if_neg (by omega)]

theorem unmap_loop_ok (st4 : State) (s o k : Nat) (hs : range_mapped st4 s o k) :
    ∃ st5, for_down_pos (ports_create_unmap_body s) st4.m.max_ports st4 = some st5 ∧
      unmap_inv st4 s o k 1 st5 := by
  have hb : o + k < st4.m.max_ports := hs.2.1
  obtain ⟨M, hMdef⟩ : ∃ M, st4.m.max_ports = M + 1 := ⟨st4.m.max_ports - 1, by omega⟩
  rw [hMdef]
  exact for_down_pos_inv (ports_create_unmap_body s) (unmap_inv st4 s o k) M st4
    ⟨rfl, fun p => by
      by_cases hr : o + 1 ≤ p ∧ p ≤ o + k ∧ M + 1 ≤ p
      · omega
      · rw [if_neg hr], ⟨rfl, rfl, rfl⟩⟩
    (fun i st _ hi hinv => unmap_step st4 s o k hs i st (by omega) hinv)

theorem ports_create_fail (env : Env) (st : State) (s k j : Nat) (lc : mlxsw_m_line_card)
    (hlc : st.m.line_cards[s]? = some lc)
    (hM : st.m.max_ports ≤ lc.port_mapping.length)
    (hun : ∀ p pm, mlxsw_m_port_mapping_get st.m s p = some pm →
      pm.module_to_port ≤ 0 ∧ pm.port = none)
    (hq : env.mgpir_err s = 0)
    (hk : (env.mgpir s).num_of_modules = k) (hk1 : 1 ≤ k) (hk2 : k ≤ 254)
    (hb : offset_of st.m s + k < st.m.max_ports)
    (hfresh : fresh st.w)
    (hj1 : offset_of st.m s + 1 ≤ j) (hj2 : j ≤ offset_of st.m s + k)
    (hbefore : ∀ p, offset_of st.m s + 1 ≤ p → p < j → create_ok env s p)
    (hfail : ¬ create_ok env s j) :
    ∃ err st' lc', mlxsw_m_ports_create env st s = some (err, st') ∧ err ≠ 0 ∧
      st'.m.line_cards[s]? = some lc' ∧ lc'.active = lc.active ∧
      (∀ p, mlxsw_m_port_mapping_get st'.m s p =
        if offset_of st.m s + 1 ≤ p ∧ p ≤ offset_of st.m s + k then
          (mlxsw_m_port_mapping_get st.m s p).map
            (fun pm => { pm with module_to_port := -1, module := p - offset_of st.m s - 1 })
        else mlxsw_m_port_mapping_get st.m s p) ∧
      st'.w.core_ports = st.w.core_ports ∧
      (∀ d ∈ st'.w.netdevs, d.id < st.w.next_dev) := by
  have ho8 : offset_of st.m s < 256 := by
    unfold offset_of
    split_ifs
    · exact Nat.mod_lt _ (by decide)
    · decide
  generalize hodef : offset_of st.m s = o at *
  have hkm : k % 256 = k := Nat.mod_eq_of_lt (by omega)
  have hkm1 : (k + 1) % 256 = k + 1 := Nat.mod_eq_of_lt (by omega)
  let lc1 : mlxsw_m_line_card := { lc with max_ports := k + 1, module_offset := o }
  let st1 : State := { st with m := line_card_put st.m s lc1 }
  have hlc1 : st1.m.line_cards[s]? = some lc1 := line_cards_line_card_put st.m s lc lc1 hlc
  have hg1 : ∀ s' p, mlxsw_m_port_mapping_get st1.m s' p = mlxsw_m_port_mapping_get st.m s' p :=
    fun s' p => mapping_get_line_card_put st.m s lc lc1 hlc rfl s' p
  have hmp1 : st1.m.max_ports = st.m.max_ports := rfl
  -- the mapping loop
  obtain ⟨st2, hrun2, hh2, ht2, hr2, _⟩ :=
    map_loop_ok st1 s o k lc1 hlc1 rfl ho8 hk2 (by rw [hmp1]; exact hb) (by rw [hmp1]; exact hM)
      (fun p pm _ _ hg => by
        rw [hg1] at hg
        rw [hmp1]
        have := (hun p pm hg).1
        omega)
  have hmp2 : st2.m.max_ports = st.m.max_ports := (hdr_max_ports _ _ hh2).trans hmp1
  obtain ⟨lc2, hlc2, hlh2⟩ := hdr_line_card st2.m st1.m s lc1 hh2 hlc1
  simp only [lc_hdr, Prod.mk.injEq] at hlh2
  obtain ⟨hl2a, hl2b, hl2c, hl2d⟩ := hlh2
  obtain ⟨hr2a, hr2b, hr2c⟩ := hr2
  have hs2 : range_mapped st2 s o k := by
    refine ⟨⟨lc2, hlc2, hl2b, ?_⟩, by omega, by omega, ?_, ?_⟩
    · rw [hmp2, hl2d]
      exact hM
    · intro p h1 h2
      obtain ⟨pm, hpm⟩ := mapping_get_of_lt st.m s p lc hlc (by omega)
      refine ⟨{ pm with module_to_port := (p : Int), module := p - o - 1 }, ?_, rfl⟩
      rw [ht2 p, if_pos ⟨h1, h2⟩, hg1, hpm]
      rfl
    · intro p pm hr hg
      rw [ht2 p, if_neg hr, hg1] at hg
      exact (hun p pm hg).1
  have hnp2 : ∀ p pm, mlxsw_m_port_mapping_get st2.m s p = some pm → pm.port = none := by
    intro p pm hg
    rw [ht2 p, hg1] at hg
    by_cases hr : o + 1 ≤ p ∧ p ≤ o + k
    · rw [if_pos hr] at hg
      cases hpm : mlxsw_m_port_mapping_get st.m s p with
      | none => rw [hpm] at hg; cases hg
      | some pm0 =>
        rw [hpm] at hg
        simp only [Option.map_some', Option.some.injEq] at hg
        rw [← hg]
        exact (hun p pm0 hpm).2
    · rw [if_neg hr] at hg
      exact (hun p pm hg).2
  have hfresh2 : fresh st2.w := by
    intro d hd
    rw [hr2a] at hd
    rw [hr2b]
    exact hfresh d hd
  -- the port creation loop stops at `j`
  obtain ⟨err, st3, hrun3, herr, hh3, ht3, hcp3, hid3⟩ :=
    for_up_stop (ports_create_create_body env s) (create_inv st2 s o k)
      (fun _ st' => unwind_inv st2 s o k j st') st2.m.max_ports 0 st2 j (Nat.zero_le _)
      (by omega) (create_inv_start st2 s o k)
      (fun i st' _ hi hinv =>
        create_step env st2 s o k hs2 i st' (by omega) (fun h1 _ => hbefore i h1 hi) hinv)
      (fun st' hinv => create_step_fail env st2 s o k hs2 hnp2 hfresh2 j st' hj1 hj2 hfail hinv)
  -- the created ports are removed
  obtain ⟨st4, hrun4, hh4, ht4, hcp4, hid4⟩ :=
    for_down_inv (ports_create_remove_body s) (unwind_inv st2 s o k) j st3
      ⟨hh3, ht3, hcp3, hid3⟩
      (fun i st' hi hinv => remove_step st2 s o k hs2 hnp2 i st' (by omega) hinv)
  have hc0 : created o k 0 = 0 := by simp [created]
  rw [hc0] at hcp4 hid4
  simp only [desc, List.nil_append, Nat.add_zero] at hcp4 hid4
  have ht4' : ∀ p, mlxsw_m_port_mapping_get st4.m s p = mlxsw_m_port_mapping_get st2.m s p := by
    intro p
    rw [ht4 p, if_neg (by omega)]
  have hmp4 : st4.m.max_ports = st2.m.max_ports := hdr_max_ports _ _ hh4
  obtain ⟨lc4, hlc4, hlh4⟩ := hdr_line_card st4.m st2.m s lc2 hh4 hlc2
  simp only [lc_hdr, Prod.mk.injEq] at hlh4
  obtain ⟨hl4a, hl4b, hl4c, hl4d⟩ := hlh4
  have hs4 : range_mapped st4 s o k := by
    obtain ⟨_, _, _, hin2, hout2⟩ := hs2
    refine ⟨⟨lc4, hlc4, by rw [hl4b, hl2b], ?_⟩, by omega, by omega, ?_, ?_⟩
    · rw [hmp4, hmp2, hl4d, hl2d]
      exact hM
    · intro p h1 h2
      rw [ht4']
      exact hin2 p h1 h2
    · intro p pm hr hg
      rw [ht4'] at hg
      exact hout2 p pm hr hg
  -- the mappings are unwound
  obtain ⟨st5, hrun5, hh5, ht5, hr5a, hr5b, hr5c⟩ := unmap_loop_ok st4 s o k hs4
  obtain ⟨lc5, hlc5, hlh5⟩ := hdr_line_card st5.m st4.m s lc4 hh5 hlc4
  simp only [lc_hdr, Prod.mk.injEq] at hlh5
  obtain ⟨hl5a, hl5b, hl5c, hl5d⟩ := hlh5
  refine ⟨err, st5, lc5, ?_, herr, hlc5, ?_, ?_, ?_, ?_⟩
  · rw [ports_create_eq env st s k o lc hlc hq hk hk1 hk2 hodef]
    exact ports_create_loops_fail env s k j err st1 st2 st3 st4 st5 hrun2 hrun3 herr hrun4 hrun5
  · rw [hl5c, hl4c, hl2c]
  · intro p
    rw [ht5 p, ht4', ht2 p, hg1]
    by_cases hr : o + 1 ≤ p ∧ p ≤ o + k
    · rw [if_pos ⟨hr.1, hr.2, by omega⟩, if_pos hr, if_pos hr]
      cases hpm : mlxsw_m_port_mapping_get st.m s p with
      | none => rfl
      | some pm0 => rfl
    · rw [if_neg (by omega), if_neg hr, if_neg hr]
  · rw [hr5c, hcp4, hr2c]
  · intro d hd
    rw [hr5a] at hd
    have := hid4 d hd
    rw [hr2b] at this
    exact this

/-- C6: let slot `s` have a table at least as long as the chassis `max_ports`
with no assigned entry and no port reference, and an inactive record; let the
capacity register report `k` (`1 ≤ k ≤ 254`, `offset + k` below the chassis
`max_ports`), and let the port creation for local port `j` of the range be the
first to fail. Then `mlxsw_m_got_active` returns, no entry of the slot holds a
port reference, no entry is assigned, the entries mapped by this call have
`module_to_port = -1`, the record is still inactive, the core-port registry is
as before, and no interface allocated by this call is left. -/
theorem got_active_rollback (env : Env) (st : State) (s k j : Nat) (lc : mlxsw_m_line_card)
    (hlc : st.m.line_cards[s]? = some lc)
    (hM : st.m.max_ports ≤ lc.port_mapping.length)
    (hact : lc.active = false)
    (hun : ∀ p pm, mlxsw_m_port_mapping_get st.m s p = some pm →
      pm.module_to_port ≤ 0 ∧ pm.port = none)
    (hq : env.mgpir_err s = 0)
    (hk : (env.mgpir s).num_of_modules = k) (hk1 : 1 ≤ k) (hk2 : k ≤ 254)
    (hb : offset_of st.m s + k < st.m.max_ports)
    (hfresh : fresh st.w)
    (hj1 : offset_of st.m s + 1 ≤ j) (hj2 : j ≤ offset_of st.m s + k)
    (hbefore : ∀ p, offset_of st.m s + 1 ≤ p → p < j → create_ok env s p)
    (hfail : ¬ create_ok env s j) :
    ∃ st' lc', mlxsw_m_got_active env st s = some st' ∧
      st'.m.line_cards[s]? = some lc' ∧ lc'.active = false ∧
      (∀ p pm, mlxsw_m_port_mapping_get st'.m s p = some pm →
        pm.port = none ∧ pm.module_to_port ≤ 0) ∧
      (∀ p pm, offset_of st.m s + 1 ≤ p → p ≤ offset_of st.m s + k →
        mlxsw_m_port_mapping_get st'.m s p = some pm → pm.module_to_port = -1) ∧
      st'.w.core_ports = st.w.core_ports ∧
      (∀ d ∈ st'.w.netdevs, d.id < st.w.next_dev) := by
  obtain ⟨err, st', lc', hrun, herr, hlc', hact', ht, hcp, hid⟩ :=
    ports_create_fail env st s k j lc hlc hM hun hq hk hk1 hk2 hb hfresh hj1 hj2 hbefore hfail
  refine ⟨st', lc', ?_, hlc', by rw [hact', hact], ?_, ?_, hcp, hid⟩
  · simp only [mlxsw_m_got_active, hrun]
    rw [if_pos herr]
  · intro p pm hg
    rw [ht p] at hg
    by_cases hr : offset_of st.m s + 1 ≤ p ∧ p ≤ offset_of st.m s + k
    · rw [if_pos hr] at hg
      cases hpm : mlxsw_m_port_mapping_get st.m s p with
      | none => rw [hpm] at hg; cases hg
      | some pm0 =>
        rw [hpm] at hg
        simp only [Option.map_some', Option.some.injEq] at hg
        rw [← hg]
        exact ⟨(hun p pm0 hpm).2, by simp⟩
    · rw [if_neg hr] at hg
      exact ⟨(hun p pm hg).2, (hun p pm hg).1⟩
  · intro p pm h1 h2 hg
    rw [ht p, if_pos ⟨h1, h2⟩] at hg
    cases hpm : mlxsw_m_port_mapping_get st.m s p with
    | none => rw [hpm] at hg; cases hg
    | some pm0 =>
      rw [hpm] at hg
      simp only [Option.map_some', Option.some.injEq] at hg
      rw [← hg]

/-- Witness of C6: on a chassis of two slots and eight ports, slot 1 reports
three modules and the registration of the interface for local port 2 fails. -/
theorem got_active_rollback_witness :
    ∃ st' lc', mlxsw_m_got_active (env_faulty 1 16 3 8 2 3) (State_invalidated 2 16 8) 1
        = some st' ∧
      st'.m.line_cards[1]? = some lc' ∧ lc'.active = false ∧
      (∀ p pm, mlxsw_m_port_mapping_get st'.m 1 p = some pm →
        pm.port = none ∧ pm.module_to_port ≤ 0) ∧
      (∀ p pm, offset_of (State_invalidated 2 16 8).m 1 + 1 ≤ p →
        p ≤ offset_of (State_invalidated 2 16 8).m 1 + 3 →
        mlxsw_m_port_mapping_get st'.m 1 p = some pm → pm.module_to_port = -1) ∧
      st'.w.core_ports = (State_invalidated 2 16 8).w.core_ports ∧
      (∀ d ∈ st'.w.netdevs, d.id < (State_invalidated 2 16 8).w.next_dev) :=
  got_active_rollback (env_faulty 1 16 3 8 2 3) (State_invalidated 2 16 8) 1 3 2
    (line_card_invalidated 8) rfl (by decide) rfl
    (fun p pm h => by
      rw [State_invalidated_entry 2 16 8 1 p pm h]
      exact ⟨by decide, rfl⟩)
    rfl rfl (by decide) (by decide) (by decide)
    (by simp [fresh, State_invalidated, World_zero])
    (by decide) (by decide)
    (fun p h1 h2 => by
      have h3 : offset_of (State_invalidated 2 16 8).m 1 = 0 := by decide
      have hp : p = 1 := by omega
      subst hp
      exact ⟨rfl, rfl, rfl, rfl⟩)
    (by simp [create_ok, env_faulty])

/-! ## Repeated activation -/

/-- C3, counterexample: slot 1 of a chassis with two slots and four ports is
activated twice with capacity 3 and no failure. The second call sends three
more map notifications and performs three more core-port inits, interface
allocations and registrations; six interfaces are allocated afterwards and the
entry of local port 1 refers to interface 3 instead of interface 0. -/
theorem got_active_twice_counterexample :
    ∃ st1 st2,
      mlxsw_m_got_active (env_ok 1 16 3 4) (State_invalidated 2 16 4) 1 = some st1 ∧
      mlxsw_m_got_active (env_ok 1 16 3 4) st1 1 = some st2 ∧
      (st1.m.line_cards[1]?).map (fun lc => lc.active) = some true ∧
      calls is_module_port_map st1.w = 3 ∧ calls is_module_port_map st2.w = 6 ∧
      calls is_core_port_init st1.w = 3 ∧ calls is_core_port_init st2.w = 6 ∧
      calls is_alloc_etherdev st1.w = 3 ∧ calls is_alloc_etherdev st2.w = 6 ∧
      calls is_register_netdev st1.w = 3 ∧ calls is_register_netdev st2.w = 6 ∧
      st1.w.netdevs.length = 3 ∧ st2.w.netdevs.length = 6 ∧
      (mlxsw_m_port_mapping_get st1.m 1 1).map (fun pm => pm.port.map (fun x => x.dev))
        = some (some 0) ∧
      (mlxsw_m_port_mapping_get st2.m 1 1).map (fun pm => pm.port.map (fun x => x.dev))
        = some (some 3) :=
  ⟨_, _, rfl, rfl, rfl, rfl, rfl, rfl, rfl, rfl, rfl, rfl, rfl, rfl, rfl, rfl, rfl⟩

/-- C3, amended: under the conditions of a successful first activation (table
at least as long as the chassis `max_ports`, no assigned entry, capacity `k`
with `1 ≤ k ≤ 254`, `offset + k` below `max_ports`, no failure), a second
`mlxsw_m_got_active` with the same answers returns and is not a no-op: it
performs `k` further map notifications, core-port inits, interface allocations
and registrations, and the number of allocated interfaces grows by `k`. It
leaves `module_to_port` and `module` of every entry of the slot as they were
after the first call, keeps the slot active, and replaces the port reference
of each of the `k` mapped entries by a Port Object on a newly allocated
interface with the same local port and module. -/
theorem got_active_twice (env : Env) (st : State) (s k : Nat) (lc : mlxsw_m_line_card)
    (hlc : st.m.line_cards[s]? = some lc)
    (hM : st.m.max_ports ≤ lc.port_mapping.length)
    (hun : ∀ p pm, mlxsw_m_port_mapping_get st.m s p = some pm →
      pm.module_to_port ≤ 0 ∧ pm.port = none)
    (hq : env.mgpir_err s = 0)
    (hk : (env.mgpir s).num_of_modules = k) (hk1 : 1 ≤ k) (hk2 : k ≤ 254)
    (hb : offset_of st.m s + k < st.m.max_ports)
    (hok : ∀ p, create_ok env s p) :
    ∃ st1 st2 lc2, mlxsw_m_got_active env st s = some st1 ∧
      mlxsw_m_got_active env st1 s = some st2 ∧
      calls is_module_port_map st2.w = calls is_module_port_map st1.w + k ∧
      calls is_core_port_init st2.w = calls is_core_port_init st1.w + k ∧
      calls is_alloc_etherdev st2.w = calls is_alloc_etherdev st1.w + k ∧
      calls is_register_netdev st2.w = calls is_register_netdev st1.w + k ∧
      st2.w.netdevs.length = st1.w.netdevs.length + k ∧
      st2.m.line_cards[s]? = some lc2 ∧ lc2.active = true ∧
      (∀ p pm1, mlxsw_m_port_mapping_get st1.m s p = some pm1 →
        ∃ pm2, mlxsw_m_port_mapping_get st2.m s p = some pm2 ∧
          pm2.module_to_port = pm1.module_to_port ∧ pm2.module = pm1.module) ∧
      (∀ i, 1 ≤ i → i ≤ k →
        ∃ pm1 pm2 x1 x2,
          mlxsw_m_port_mapping_get st1.m s (i + offset_of st.m s) = some pm1 ∧
          mlxsw_m_port_mapping_get st2.m s (i + offset_of st.m s) = some pm2 ∧
          pm1.port = some x1 ∧ pm2.port = some x2 ∧
          x1.dev < st1.w.next_dev ∧ x2.dev = st1.w.next_dev + (i - 1) ∧
          x2.local_port = x1.local_port ∧ x2.module = x1.module) := by
  have hlt : ∀ i, i ≤ k → i + offset_of st.m s < lc.port_mapping.length := by
    intro i hi
    omega
  have harith : ∀ i, 1 ≤ i → i ≤ k →
      st.w.next_dev + (i + offset_of st.m s - (offset_of st.m s + 1)) < st.w.next_dev + k ∧
      i + offset_of st.m s - (offset_of st.m s + 1) = i - 1 := by
    intro i h1 h2
    omega
  -- first call
  obtain ⟨st3, st1, lc3, _, hres, hrun1, hlc3, hlc1, hmp1, hmmc1, hg1, hw1⟩ :=
    got_active_ok env st s k lc hlc hM hq hk hk1 hk2 hb
      (fun p pm _ _ hg => by
        have := (hun p pm hg).1
        omega)
      (fun p pm _ hg => (hun p pm hg).1)
      (fun p _ _ => hok p)
  obtain ⟨hmp3, hmmc3, ⟨lc0, lc3', hlc0, hlc3', _, _, _, hlen3⟩, ht3, hn3, _⟩ := hres
  rw [hlc3] at hlc3'
  rw [hlc] at hlc0
  simp only [Option.some.injEq] at hlc3' hlc0
  rw [← hlc3', ← hlc0] at hlen3
  have ho1 : offset_of st1.m s = offset_of st.m s := by
    unfold offset_of
    rw [hmmc1, hmmc3]
  have hmpa : st1.m.max_ports = st.m.max_ports := hmp1.trans hmp3
  have ht1 : ∀ p, mlxsw_m_port_mapping_get st1.m s p =
      if offset_of st.m s + 1 ≤ p ∧ p ≤ offset_of st.m s + k then
        (mlxsw_m_port_mapping_get st.m s p).map
          (fun _ => { port := some { dev := st.w.next_dev + (p - (offset_of st.m s + 1)),
                                     local_port := p, module := p - offset_of st.m s - 1,
                                     slot_index := s, module_offset := offset_of st.m s },
                      module_to_port := (p : Int), module := p - offset_of st.m s - 1 })
      else mlxsw_m_port_mapping_get st.m s p := by
    intro p
    rw [hg1, ht3]
  -- second call
  obtain ⟨st4, st2, lc4, _, hres2, hrun2, hlc4, hlc2, _, _, hg2, hw2⟩ :=
    got_active_ok env st1 s k { lc3 with active := true } hlc1
      (by rw [hmpa]; simpa [hlen3] using hM) hq hk hk1 hk2
      (by rw [ho1, hmpa]; exact hb)
      (fun p pm h1 h2 hg => by
        rw [ho1] at h1 h2
        rw [ht1 p, if_pos ⟨h1, h2⟩] at hg
        cases hpm : mlxsw_m_port_mapping_get st.m s p with
        | none => rw [hpm] at hg; cases hg
        | some pm0 =>
          rw [hpm] at hg
          simp only [Option.map_some', Option.some.injEq] at hg
          rw [← hg, hmpa]
          simp only
          omega)
      (fun p pm hr hg => by
        rw [ho1] at hr
        rw [ht1 p, if_neg hr] at hg
        exact (hun p pm hg).1)
      (fun p _ _ => hok p)
  rw [ho1] at hres2
  obtain ⟨_, _, _, ht4, hn4, hlen4, _, _, hc1, hc2, hc3, hc4, _⟩ := hres2
  refine ⟨st1, st2, _, hrun1, hrun2, ?_, ?_, ?_, ?_, ?_, hlc2, rfl, ?_, ?_⟩
  · rw [hw2, hc1]
  · rw [hw2, hc2]
  · rw [hw2, hc3]
  · rw [hw2, hc4]
  · rw [hw2, hlen4]
  · intro p pm1 hpm1
    rw [hg2, ht4, hpm1]
    by_cases hr : offset_of st.m s + 1 ≤ p ∧ p ≤ offset_of st.m s + k
    · rw [if_pos hr]
      rw [ht1 p, if_pos hr] at hpm1
      cases hpm : mlxsw_m_port_mapping_get st.m s p with
      | none => rw [hpm] at hpm1; cases hpm1
      | some pm0 =>
        rw [hpm] at hpm1
        simp only [Option.map_some', Option.some.injEq] at hpm1
        refine ⟨_, rfl, ?_, ?_⟩
        · rw [← hpm1]
        · rw [← hpm1]
    · rw [if_neg hr]
      exact ⟨pm1, rfl, rfl, rfl⟩
  · intro i hi1 hi2
    obtain ⟨pm0, hpm0⟩ := mapping_get_of_lt st.m s (i + offset_of st.m s) lc hlc (hlt i hi2)
    have hr : offset_of st.m s + 1 ≤ i + offset_of st.m s ∧
        i + offset_of st.m s ≤ offset_of st.m s + k :=
      ⟨by rw [Nat.add_comm]; exact Nat.add_le_add_right hi1 _,
       by rw [Nat.add_comm]; exact Nat.add_le_add_left hi2 _⟩
    have h1 := ht1 (i + offset_of st.m s)
    rw [if_pos hr, hpm0] at h1
    have h2 := ht4 (i + offset_of st.m s)
    rw [if_pos hr, h1] at h2
    rw [← hg2] at h2
    refine ⟨_, _, _, _, h1, h2, rfl, rfl, ?_, ?_, rfl, rfl⟩
    · rw [hw1, hn3]
      exact (harith i hi1 hi2).1
    · exact congrArg (fun n => st1.w.next_dev + n) (harith i hi1 hi2).2

/-- Witness of C3 amended: slot 1 of a chassis with two slots and four ports,
capacity 3. -/
theorem got_active_twice_witness :
    ∃ st1 st2 lc2,
      mlxsw_m_got_active (env_ok 1 16 3 4) (State_invalidated 2 16 4) 1 = some st1 ∧
      mlxsw_m_got_active (env_ok 1 16 3 4) st1 1 = some st2 ∧
      calls is_module_port_map st2.w = calls is_module_port_map st1.w + 3 ∧
      calls is_core_port_init st2.w = calls is_core_port_init st1.w + 3 ∧
      calls is_alloc_etherdev st2.w = calls is_alloc_etherdev st1.w + 3 ∧
      calls is_register_netdev st2.w = calls is_register_netdev st1.w + 3 ∧
      st2.w.netdevs.length = st1.w.netdevs.length + 3 ∧
      st2.m.line_cards[1]? = some lc2 ∧ lc2.active = true ∧
      (∀ p pm1, mlxsw_m_port_mapping_get st1.m 1 p = some pm1 →
        ∃ pm2, mlxsw_m_port_mapping_get st2.m 1 p = some pm2 ∧
          pm2.module_to_port = pm1.module_to_port ∧ pm2.module = pm1.module) ∧
      (∀ i, 1 ≤ i → i ≤ 3 →
        ∃ pm1 pm2 x1 x2,
          mlxsw_m_port_mapping_get st1.m 1 (i + offset_of (State_invalidated 2 16 4).m 1)
            = some pm1 ∧
          mlxsw_m_port_mapping_get st2.m 1 (i + offset_of (State_invalidated 2 16 4).m 1)
            = some pm2 ∧
          pm1.port = some x1 ∧ pm2.port = some x2 ∧
          x1.dev < st1.w.next_dev ∧ x2.dev = st1.w.next_dev + (i - 1) ∧
          x2.local_port = x1.local_port ∧ x2.module = x1.module) :=
  got_active_twice (env_ok 1 16 3 4) (State_invalidated 2 16 4) 1 3
    (line_card_invalidated 4) rfl (by decide)
    (fun p pm h => by
      rw [State_invalidated_entry 2 16 4 1 p pm h]
      exact ⟨by decide, rfl⟩)
    rfl rfl (by decide) (by decide) (by decide)
    (fun p => ⟨rfl, rfl, rfl, rfl⟩)

/-! ## Module offset and hardware address -/

/-- C9, counterexample: a chassis with six slots and 64 modules per slot;
slot 5 is activated with one module. The stored `module_offset` is 0, while
`(5 - 1) * 64` is 256; the port of module 0 gets local port 1 and the last
address byte 1. -/
theorem module_offset_wraps_counterexample :
    ∃ st', mlxsw_m_got_active (env_ok 5 64 1 8) (State_invalidated 6 64 8) 5 = some st' ∧
      (st'.m.line_cards[5]?).map (fun lc => lc.module_offset) = some 0 ∧
      (5 - 1) * (State_invalidated 6 64 8).m.max_module_count = 256 ∧
      (mlxsw_m_port_mapping_get st'.m 5 1).map (fun pm => pm.port) =
        some (some { dev := 0, local_port := 1, module := 0, slot_index := 5,
                     module_offset := 0 }) ∧
      st'.w.netdevs = [{ id := 0, dev_addr_last := 1, registered := true }] :=
  ⟨_, rfl, rfl, rfl, rfl, rfl⟩

/-- C9, amended: after a successful activation of slot `s` with `k` modules
(conditions as for C4), the stored `module_offset` is 0 for slot 0 and
`((s - 1) * max_module_count) mod 256` otherwise; for every module `m < k` the
entry of local port `m + 1 + module_offset` holds the Port Object of module
`m`, whose interface is allocated with last address byte
`(m + 1 + module_offset) mod 256`. When `s = 0` or
`(s - 1) * max_module_count + k ≤ 255`, nothing wraps: the offset is exactly
`(s - 1) * max_module_count` and the byte is exactly `m + 1 + module_offset`,
at most 255. -/
theorem module_offset_and_address_byte (env : Env) (st : State) (s k : Nat)
    (lc : mlxsw_m_line_card)
    (hlc : st.m.line_cards[s]? = some lc)
    (hM : st.m.max_ports ≤ lc.port_mapping.length)
    (hun : ∀ p pm, mlxsw_m_port_mapping_get st.m s p = some pm →
      pm.module_to_port ≤ 0 ∧ pm.port = none)
    (hq : env.mgpir_err s = 0)
    (hk : (env.mgpir s).num_of_modules = k) (hk1 : 1 ≤ k) (hk2 : k ≤ 254)
    (hb : offset_of st.m s + k < st.m.max_ports)
    (hok : ∀ p, create_ok env s p) :
    ∃ st' lc', mlxsw_m_got_active env st s = some st' ∧
      st'.m.line_cards[s]? = some lc' ∧
      lc'.module_offset =
        (if s ≠ 0 then ((s - 1) * st.m.max_module_count) % 256 else 0) ∧
      (∀ m, m < k →
        ∃ pm x d, mlxsw_m_port_mapping_get st'.m s (m + 1 + lc'.module_offset) = some pm ∧
          pm.port = some x ∧ x.module = m ∧ x.module_offset = lc'.module_offset ∧
          d ∈ st'.w.netdevs ∧ d.id = x.dev ∧
          d.dev_addr_last = (m + 1 + lc'.module_offset) % 256) ∧
      ((s = 0 ∨ (s - 1) * st.m.max_module_count + k ≤ 255) →
        (s ≠ 0 → lc'.module_offset = (s - 1) * st.m.max_module_count) ∧
        (∀ m, m < k → m + 1 + lc'.module_offset ≤ 255 ∧
          (m + 1 + lc'.module_offset) % 256 = m + 1 + lc'.module_offset)) := by
  have hodef : offset_of st.m s =
      (if s ≠ 0 then ((s - 1) * st.m.max_module_count) % 256 else 0) := rfl
  have harith : ∀ m, m < k →
      offset_of st.m s + 1 ≤ m + 1 + offset_of st.m s ∧
      m + 1 + offset_of st.m s ≤ offset_of st.m s + k ∧
      m + 1 + offset_of st.m s < lc.port_mapping.length ∧
      m + 1 + offset_of st.m s - offset_of st.m s - 1 = m ∧
      m + 1 + offset_of st.m s - (offset_of st.m s + 1) = m := by
    intro m hm
    omega
  have hexact : (s = 0 ∨ (s - 1) * st.m.max_module_count + k ≤ 255) →
      (s ≠ 0 → offset_of st.m s = (s - 1) * st.m.max_module_count) ∧
      (∀ m, m < k → m + 1 + offset_of st.m s ≤ 255 ∧
        (m + 1 + offset_of st.m s) % 256 = m + 1 + offset_of st.m s) := by
    intro h
    have h1 : s ≠ 0 → offset_of st.m s = (s - 1) * st.m.max_module_count := by
      intro hs
      rw [hodef, if_pos hs]
      apply Nat.mod_eq_of_lt
      rcases h with h | h
      · exact absurd h hs
      · omega
    have h0 : s = 0 → offset_of st.m s = 0 := by
      intro hs
      rw [hodef, if_neg (by simp [hs])]
    refine ⟨h1, ?_⟩
    intro m hm
    have hle : m + 1 + offset_of st.m s ≤ 255 := by
      by_cases hs : s = 0
      · rw [h0 hs]
        omega
      · rw [h1 hs]
        rcases h with h | h
        · exact absurd h hs
        · omega
    exact ⟨hle, Nat.mod_eq_of_lt (by omega)⟩
  obtain ⟨st3, st', lc3, _, hres, hrun, hlc3, hlc', _, _, hg, hw⟩ :=
    got_active_ok env st s k lc hlc hM hq hk hk1 hk2 hb
      (fun p pm _ _ hg => by
        have := (hun p pm hg).1
        omega)
      (fun p pm _ hg => (hun p pm hg).1)
      (fun p _ _ => hok p)
  obtain ⟨_, _, ⟨lc0, lc3', _, hlc3', _, hoff, _, _⟩, ht, _, _, _, _, _, _, _, _, hdev⟩ := hres
  rw [hlc3] at hlc3'
  simp only [Option.some.injEq] at hlc3'
  rw [← hlc3'] at hoff
  refine ⟨st', { lc3 with active := true }, hrun, hlc', ?_, ?_, ?_⟩
  · simp only [hoff]
    exact hodef
  · intro m hm
    simp only [hoff]
    obtain ⟨h1, h2, h3, h4, h5⟩ := harith m hm
    obtain ⟨pm0, hpm0⟩ := mapping_get_of_lt st.m s (m + 1 + offset_of st.m s) lc hlc h3
    obtain ⟨d, hd, hid, _, haddr⟩ := hdev (m + 1 + offset_of st.m s) h1 h2
    have hget := ht (m + 1 + offset_of st.m s)
    rw [if_pos ⟨h1, h2⟩, hpm0] at hget
    rw [← hg] at hget
    refine ⟨_, _, d, hget, rfl, h4, rfl, ?_, ?_, ?_⟩
    · rw [hw]
      exact hd
    · exact hid
    · rw [haddr, h4]
  · simp only [hoff]
    exact hexact

/-- Witness of C9 amended: slot 2 of a chassis with three slots, 16 modules
per slot and 40 ports is activated with three modules; the offset is 16. -/
theorem module_offset_and_address_byte_witness :
    ∃ st' lc', mlxsw_m_got_active (env_ok 2 16 3 40) (State_invalidated 3 16 40) 2 = some st' ∧
      st'.m.line_cards[2]? = some lc' ∧
      lc'.module_offset =
        (if 2 ≠ 0 then ((2 - 1) * (State_invalidated 3 16 40).m.max_module_count) % 256
         else 0) ∧
      (∀ m, m < 3 →
        ∃ pm x d, mlxsw_m_port_mapping_get st'.m 2 (m + 1 + lc'.module_offset) = some pm ∧
          pm.port = some x ∧ x.module = m ∧ x.module_offset = lc'.module_offset ∧
          d ∈ st'.w.netdevs ∧ d.id = x.dev ∧
          d.dev_addr_last = (m + 1 + lc'.module_offset) % 256) ∧
      ((2 = 0 ∨ (2 - 1) * (State_invalidated 3 16 40).m.max_module_count + 3 ≤ 255) →
        (2 ≠ 0 → lc'.module_offset = (2 - 1) * (State_invalidated 3 16 40).m.max_module_count) ∧
        (∀ m, m < 3 → m + 1 + lc'.module_offset ≤ 255 ∧
          (m + 1 + lc'.module_offset) % 256 = m + 1 + lc'.module_offset)) :=
  module_offset_and_address_byte (env_ok 2 16 3 40) (State_invalidated 3 16 40) 2 3
    (line_card_invalidated 40) rfl (by decide)
    (fun p pm h => by
      rw [State_invalidated_entry 3 16 40 2 p pm h]
      exact ⟨by decide, rfl⟩)
    rfl rfl (by decide) (by decide) (by decide)
    (fun p => ⟨rfl, rfl, rfl, rfl⟩)

/-! ## Allocation of the line card records -/

theorem line_cards_alloc_zeroed (env : Env) (m : mlxsw_m)
    (hfresh : m.max_ports = 0)
    (hc : env.kcalloc_ok = true) (hz : ∀ i, env.kzalloc_ok i = true) :
    mlxsw_env_line_cards_alloc env m =
      some (0, { m with max_ports := env.core_max_ports % 65536,
                        line_cards := List.replicate m.num_of_slots
                                        (line_card_zeroed env.core_max_ports) }) := by
  obtain ⟨m1, hrun, hinv⟩ := for_up_inv (line_cards_alloc_body env env.core_max_ports)
    (fun i m' => m' = { m with line_cards := List.replicate i
                                               (line_card_zeroed env.core_max_ports) })
    m.num_of_slots 0 { m with line_cards := [] } rfl
    (by
      intro i m' _ _ hm'
      subst hm'
      refine ⟨_, ?_, rfl⟩
      simp only [line_cards_alloc_body, hz i, hfresh, for_up]
      simp only [Bool.true_eq_false, if_false, Option.some.injEq, Prod.mk.injEq, true_and,
        mlxsw_m.mk.injEq, and_true]
      rw [List.replicate_succ'])
  simp only [Nat.zero_add] at hrun hinv
  simp only [mlxsw_env_line_cards_alloc, hc, hrun, hinv]
  simp

/-- C7, the code at the failing input: the zeroed driver data after a
peripheral-info response with one pluggable slot, and a core reporting four
ports. `mlxsw_env_line_cards_alloc` succeeds and every entry of both tables
has `module_to_port = 0`: the invalidation loop is bounded by the field
`mlxsw_m->max_ports`, which is still 0 when the loop runs. -/
theorem line_cards_alloc_leaves_zero :
    mlxsw_env_line_cards_alloc (env_ok 1 16 0 4)
        (mlxsw_m_get_peripheral_info (env_ok 1 16 0 4) mlxsw_m_zero).2 =
      some (0, { max_ports := 4, max_module_count := 16, num_of_slots := 2,
                 line_cards := [line_card_zeroed 4, line_card_zeroed 4] }) ∧
    mlxsw_m_port_mapping_get
        { max_ports := 4, max_module_count := 16, num_of_slots := 2,
          line_cards := [line_card_zeroed 4, line_card_zeroed 4] } 0 0 =
      some { port := none, module_to_port := 0, module := 0 } :=
  ⟨rfl, rfl⟩

/-! ## Full lifecycle -/

/-- C5, the code at the failing input: initialisation of the zeroed state
(one pluggable slot, four ports, no module on the main board), activation of
slot 1 with three modules, deactivation of slot 1. Afterwards no entry of
slot 1 holds a port and the slot is inactive, the three entries that were
mapped have `module_to_port = -1`, but entry 0 has `module_to_port = 0`. -/
theorem lifecycle_leaves_zero_entry :
    ∃ st0 st1 st2,
      mlxsw_m_init (env_ok 1 16 0 4) State_zero = some (0, st0) ∧
      mlxsw_m_got_active (env_ok 1 16 3 4) st0 1 = some st1 ∧
      (st1.m.line_cards[1]?).map (fun lc => lc.active) = some true ∧
      mlxsw_m_got_inactive st1 1 = some st2 ∧
      st2.m.max_ports = 4 ∧
      (st2.m.line_cards[1]?).map (fun lc => lc.active) = some false ∧
      (st2.m.line_cards[1]?).map (fun lc => lc.port_mapping.map (fun pm => pm.port)) =
        some [none, none, none, none] ∧
      (st2.m.line_cards[1]?).map (fun lc => lc.port_mapping.map (fun pm => pm.module_to_port)) =
        some [0, -1, -1, -1] :=
  ⟨_, _, _, rfl, rfl, rfl, rfl, rfl, rfl, rfl, rfl⟩

/-! ## Local ports of the Port Objects -/

theorem indexed_put (m : mlxsw_m) (s lp : Nat) (e : mlxsw_m_port_mapping)
    (hinv : ports_indexed m)
    (he : ∀ x, e.port = some x → x.local_port = lp ∧ x.slot_index = s) :
    ports_indexed (port_mapping_put m s lp e) := by
  intro s' p' pm x hget hx
  rw [mapping_get_put] at hget
  by_cases h : s' = s ∧ p' = lp
  · rw [if_pos h] at hget
    obtain ⟨rfl, rfl⟩ := h
    cases hg : mlxsw_m_port_mapping_get m s' p' with
    | none => rw [hg] at hget; cases hget
    | some pm0 =>
      rw [hg] at hget
      simp only [Option.map_some', Option.some.injEq] at hget
      subst hget
      exact he x hx
  · rw [if_neg h] at hget
    exact hinv s' p' pm x hget hx

theorem indexed_line_card_put (m : mlxsw_m) (s : Nat) (lc lc' : mlxsw_m_line_card)
    (hlc : m.line_cards[s]? = some lc) (ht : lc'.port_mapping = lc.port_mapping)
    (hinv : ports_indexed m) : ports_indexed (line_card_put m s lc') := by
  intro s' p' pm x hget hx
  rw [mapping_get_line_card_put m s lc lc' hlc ht] at hget
  exact hinv s' p' pm x hget hx

theorem module_map_indexed (st : State) (s lp module : Nat) (r : Int × State)
    (hinv : ports_indexed st.m) (h : mlxsw_m_port_module_map st s lp module = some r) :
    ports_indexed r.2.m := by
  unfold mlxsw_m_port_module_map at h
  cases hget : mlxsw_m_port_mapping_get st.m s lp with
  | none => rw [hget] at h; cases h
  | some pm =>
    rw [hget] at h
    simp only at h
    split_ifs at h
    · cases h
      exact hinv
    · cases h
      exact indexed_put _ _ _ _ hinv (fun x hx => hinv s lp pm x hget hx)

theorem module_unmap_indexed (st : State) (s i : Nat) (st' : State)
    (hinv : ports_indexed st.m) (h : mlxsw_m_port_module_unmap st s i = some st') :
    ports_indexed st'.m := by
  unfold mlxsw_m_port_module_unmap at h
  cases hget : mlxsw_m_port_mapping_get st.m s i with
  | none => rw [hget] at h; cases h
  | some pm =>
    rw [hget] at h
    cases h
    exact indexed_put _ _ _ _ hinv (fun x hx => hinv s i pm x hget hx)

theorem port_remove_indexed (st : State) (s lp : Nat) (st' : State)
    (hinv : ports_indexed st.m) (h : mlxsw_m_port_remove st s lp = some st') :
    ports_indexed st'.m := by
  unfold mlxsw_m_port_remove at h
  cases hget : mlxsw_m_port_mapping_get st.m s lp with
  | none => rw [hget] at h; cases h
  | some pm =>
    rw [hget] at h
    cases hp : pm.port with
    | none => simp only [hp] at h; cases h
    | some x =>
      simp only [hp] at h
      cases h
      exact indexed_put _ _ _ _ hinv (fun x hx => by cases hx)

theorem port_create_indexed (env : Env) (st : State) (s lp module : Nat) (r : Int × State)
    (hinv : ports_indexed st.m) (h : mlxsw_m_port_create env st s lp module = some r) :
    ports_indexed r.2.m := by
  unfold mlxsw_m_port_create at h
  cases hlc : st.m.line_cards[s]? with
  | none => rw [hlc] at h; cases h
  | some lc =>
    rw [hlc] at h
    simp only at h
    split_ifs at h with h1 h2 h3 h4
    · cases h
      exact hinv
    · cases h
      exact hinv
    · cases h
      exact hinv
    · cases hget : mlxsw_m_port_mapping_get st.m s lp with
      | none => rw [hget] at h; cases h
      | some pm =>
        rw [hget] at h
        simp only at h
        cases h
        exact indexed_put _ _ _ _
          (indexed_put _ _ _ _ hinv (fun x hx => by cases hx; exact ⟨rfl, rfl⟩))
          (fun x hx => by cases hx)
    · cases hget : mlxsw_m_port_mapping_get st.m s lp with
      | none => rw [hget] at h; cases h
      | some pm =>
        rw [hget] at h
        simp only at h
        cases h
        exact indexed_put _ _ _ _ hinv (fun x hx => by cases hx; exact ⟨rfl, rfl⟩)

theorem map_body_indexed (s i : Nat) (st : State) (err : Int) (st' : State)
    (hinv : ports_indexed st.m) (h : ports_create_map_body s i st = some (err, st')) :
    ports_indexed st'.m := by
  unfold ports_create_map_body at h
  cases hlc : st.m.line_cards[s]? with
  | none => rw [hlc] at h; cases h
  | some lc =>
    rw [hlc] at h
    exact module_map_indexed st s _ _ (err, st') hinv h

theorem create_body_indexed (env : Env) (s i : Nat) (st : State) (err : Int) (st' : State)
    (hinv : ports_indexed st.m) (h : ports_create_create_body env s i st = some (err, st')) :
    ports_indexed st'.m := by
  unfold ports_create_create_body at h
  cases hget : mlxsw_m_port_mapping_get st.m s i with
  | none => rw [hget] at h; cases h
  | some pm =>
    rw [hget] at h
    simp only at h
    split_ifs at h
    · exact port_create_indexed env st s _ _ (err, st') hinv h
    · cases h
      exact hinv

theorem remove_body_indexed (s i : Nat) (st st' : State)
    (hinv : ports_indexed st.m) (h : ports_create_remove_body s i st = some st') :
    ports_indexed st'.m := by
  unfold ports_create_remove_body at h
  cases hget : mlxsw_m_port_mapping_get st.m s i with
  | none => rw [hget] at h; cases h
  | some pm =>
    rw [hget] at h
    simp only at h
    split_ifs at h
    · exact port_remove_indexed st s _ st' hinv h
    · cases h
      exact hinv

theorem unmap_body_indexed (s i : Nat) (st st' : State)
    (hinv : ports_indexed st.m) (h : ports_create_unmap_body s i st = some st') :
    ports_indexed st'.m := by
  unfold ports_create_unmap_body at h
  cases hget : mlxsw_m_port_mapping_get st.m s i with
  | none => rw [hget] at h; cases h
  | some pm =>
    rw [hget] at h
    simp only at h
    split_ifs at h
    · exact module_unmap_indexed st s i st' hinv h
    · cases h
      exact hinv

theorem ports_remove_body_indexed (s i : Nat) (st : State) (err : Int) (st' : State)
    (hinv : ports_indexed st.m) (h : ports_remove_body s i st = some (err, st')) :
    ports_indexed st'.m := by
  unfold ports_remove_body at h
  cases hget : mlxsw_m_port_mapping_get st.m s i with
  | none => rw [hget] at h; cases h
  | some pm =>
    rw [hget] at h
    simp only at h
    split_ifs at h
    · cases hp : pm.port with
      | none => simp only [hp] at h; cases h
      | some x =>
        simp only [hp] at h
        cases hr : mlxsw_m_port_remove st s (to_u16 pm.module_to_port) with
        | none => rw [hr] at h; cases h
        | some st1 =>
          rw [hr] at h
          simp only at h
          cases hu : mlxsw_m_port_module_unmap st1 s i with
          | none => rw [hu] at h; cases h
          | some st2 =>
            rw [hu] at h
            cases h
            exact module_unmap_indexed st1 s i st' (port_remove_indexed st s _ st1 hinv hr) hu
    · cases h
      exact hinv

theorem ports_remove_indexed (st : State) (s : Nat) (st' : State)
    (hinv : ports_indexed st.m) (h : mlxsw_m_ports_remove st s = some st') :
    ports_indexed st'.m := by
  unfold mlxsw_m_ports_remove at h
  cases hl : for_up (ports_remove_body s) st.m.max_ports 0 st with
  | none => rw [hl] at h; cases h
  | some r =>
    rw [hl] at h
    obtain ⟨e, i, st1⟩ := r
    cases h
    exact for_up_preserves (ports_remove_body s) (fun st => ports_indexed st.m)
      (fun i st err st' hi hb => ports_remove_body_indexed s i st err st' hi hb)
      st.m.max_ports 0 st (e, i, st') hinv hl

theorem err_map_indexed (s i : Nat) (err : Int) (st : State) (r : Int × State)
    (hinv : ports_indexed st.m) (h : err_module_to_port_map s i err st = some r) :
    ports_indexed r.2.m := by
  unfold err_module_to_port_map at h
  cases hl : for_down_pos (ports_create_unmap_body s) i st with
  | none => rw [hl] at h; cases h
  | some st1 =>
    rw [hl] at h
    cases h
    exact for_down_pos_preserves (ports_create_unmap_body s) (fun st => ports_indexed st.m)
      (fun i st st' hi hb => unmap_body_indexed s i st st' hi hb) i st st1 hinv hl

theorem err_create_indexed (s i : Nat) (err : Int) (st : State) (r : Int × State)
    (hinv : ports_indexed st.m) (h : err_module_to_port_create s i err st = some r) :
    ports_indexed r.2.m := by
  unfold err_module_to_port_create at h
  cases hl : for_down (ports_create_remove_body s) i st with
  | none => rw [hl] at h; cases h
  | some st1 =>
    rw [hl] at h
    exact err_map_indexed s _ err st1 r
      (for_down_preserves (ports_create_remove_body s) (fun st => ports_indexed st.m)
        (fun i st st' hi hb => remove_body_indexed s i st st' hi hb) i st st1 hinv hl) h

theorem ports_create_loops_indexed (env : Env) (s n : Nat) (st : State) (r : Int × State)
    (hinv : ports_indexed st.m) (h : ports_create_loops env s n st = some r) :
    ports_indexed r.2.m := by
  unfold ports_create_loops at h
  cases hl1 : for_up (ports_create_map_body s) (n - 1) 1 st with
  | none => rw [hl1] at h; cases h
  | some r1 =>
    obtain ⟨e1, i1, st2⟩ := r1
    have hinv2 : ports_indexed st2.m :=
      for_up_preserves (ports_create_map_body s) (fun st => ports_indexed st.m)
        (fun i st err st' hi hb => map_body_indexed s i st err st' hi hb)
        _ _ _ (e1, i1, st2) hinv hl1
    rw [hl1] at h
    simp only at h
    by_cases he1 : e1 ≠ 0
    · rw [if_pos he1] at h
      exact err_map_indexed s i1 e1 st2 r hinv2 h
    · rw [if_neg he1] at h
      cases hl3 : for_up (ports_create_create_body env s) st2.m.max_ports 0 st2 with
      | none => rw [hl3] at h; cases h
      | some r3 =>
        obtain ⟨e3, i3, st3⟩ := r3
        have hinv3 : ports_indexed st3.m :=
          for_up_preserves (ports_create_create_body env s) (fun st => ports_indexed st.m)
            (fun i st err st' hi hb => create_body_indexed env s i st err st' hi hb)
            _ _ _ (e3, i3, st3) hinv2 hl3
        rw [hl3] at h
        simp only at h
        by_cases he3 : e3 ≠ 0
        · rw [if_pos he3] at h
          exact err_create_indexed s i3 e3 st3 r hinv3 h
        · rw [if_neg he3] at h
          cases h
          exact hinv3

theorem ports_create_indexed (env : Env) (st : State) (s : Nat) (r : Int × State)
    (hinv : ports_indexed st.m) (h : mlxsw_m_ports_create env st s = some r) :
    ports_indexed r.2.m := by
  unfold mlxsw_m_ports_create at h
  by_cases hq : env.mgpir_err s ≠ 0
  · rw [if_pos hq] at h
    cases h
    exact hinv
  · rw [if_neg hq] at h
    cases hlc : st.m.line_cards[s]? with
    | none => rw [hlc] at h; cases h
    | some lc =>
      rw [hlc] at h
      simp only at h
      by_cases h0 : (env.mgpir s).num_of_modules % 256 = 0
      · rw [if_pos h0] at h
        cases h
        apply indexed_line_card_put st.m s lc _ hlc _ hinv
        rfl
      · rw [if_neg h0] at h
        refine ports_create_loops_indexed env s _ _ r ?_ h
        apply indexed_line_card_put st.m s lc _ hlc _ hinv
        rfl

theorem no_ports_indexed (m : mlxsw_m) (h : no_ports m) : ports_indexed m := by
  intro s p pm x hget hx
  rw [h s p pm hget] at hx
  cases hx

theorem no_ports_put (m : mlxsw_m) (s lp : Nat) (e : mlxsw_m_port_mapping)
    (hinv : no_ports m) (he : e.port = none) : no_ports (port_mapping_put m s lp e) := by
  intro s' p' pm hget
  rw [mapping_get_put] at hget
  by_cases h : s' = s ∧ p' = lp
  · rw [if_pos h] at hget
    cases hg : mlxsw_m_port_mapping_get m s lp with
    | none => rw [hg] at hget; cases hget
    | some pm0 =>
      rw [hg] at hget
      simp only [Option.map_some', Option.some.injEq] at hget
      subst hget
      exact he
  · rw [if_neg h] at hget
    exact hinv s' p' pm hget

theorem invalidate_body_no_ports (i j : Nat) (m : mlxsw_m) (err : Int) (m' : mlxsw_m)
    (hinv : no_ports m) (h : line_cards_alloc_invalidate_body i j m = some (err, m')) :
    no_ports m' := by
  unfold line_cards_alloc_invalidate_body at h
  cases hget : mlxsw_m_port_mapping_get m i j with
  | none => rw [hget] at h; cases h
  | some pm =>
    rw [hget] at h
    cases h
    exact no_ports_put _ _ _ _ hinv (hinv i j pm hget)

theorem alloc_body_no_ports (env : Env) (max_ports i : Nat) (m : mlxsw_m) (err : Int)
    (m' : mlxsw_m) (hinv : no_ports m)
    (h : line_cards_alloc_body env max_ports i m = some (err, m')) : no_ports m' := by
  unfold line_cards_alloc_body at h
  by_cases hz : env.kzalloc_ok i = false
  · rw [if_pos hz] at h
    cases h
    exact hinv
  · rw [if_neg hz] at h
    simp only at h
    have hinv1 : no_ports
        { m with line_cards := m.line_cards ++ [line_card_zeroed max_ports] } := by
      intro s p pm hget
      unfold mlxsw_m_port_mapping_get at hget
      simp only [List.getElem?_append] at hget
      by_cases hs : s < m.line_cards.length
      · rw [if_pos hs] at hget
        exact hinv s p pm hget
      · rw [if_neg hs] at hget
        cases hl : [line_card_zeroed max_ports][s - m.line_cards.length]? with
        | none => rw [hl] at hget; cases hget
        | some lc =>
          rw [hl] at hget
          simp only at hget
          have hmem : lc ∈ [line_card_zeroed max_ports] := List.getElem?_mem hl
          simp only [List.mem_singleton] at hmem
          subst hmem
          simp only [line_card_zeroed, List.getElem?_replicate] at hget
          split_ifs at hget
          cases hget
          rfl
    cases hl : for_up (line_cards_alloc_invalidate_body i) m.max_ports 0
        { m with line_cards := m.line_cards ++ [line_card_zeroed max_ports] } with
    | none => rw [hl] at h; cases h
    | some r =>
      obtain ⟨e, j, m2⟩ := r
      rw [hl] at h
      cases h
      exact for_up_preserves (line_cards_alloc_invalidate_body i) no_ports
        (fun j m err m' hi hb => invalidate_body_no_ports i j m err m' hi hb)
        _ _ _ (e, j, m') hinv1 hl

theorem line_cards_alloc_no_ports (env : Env) (m : mlxsw_m) (r : Int × mlxsw_m)
    (h : mlxsw_env_line_cards_alloc env m = some r) : no_ports r.2 := by
  unfold mlxsw_env_line_cards_alloc at h
  simp only at h
  by_cases hc : env.kcalloc_ok = false
  · rw [if_pos hc] at h
    cases h
    intro s p pm hget
    simp [mlxsw_m_port_mapping_get] at hget
  · rw [if_neg hc] at h
    cases hl : for_up (line_cards_alloc_body env env.core_max_ports) m.num_of_slots 0
        { m with line_cards := [] } with
    | none => rw [hl] at h; cases h
    | some r1 =>
      obtain ⟨e, i, m1⟩ := r1
      have hinv1 : no_ports m1 :=
        for_up_preserves (line_cards_alloc_body env env.core_max_ports) no_ports
          (fun i m err m' hi hb => alloc_body_no_ports env _ i m err m' hi hb)
          _ _ _ (e, i, m1) (by
            intro s p pm hget
            simp [mlxsw_m_port_mapping_get] at hget) hl
      rw [hl] at h
      simp only at h
      by_cases he : e ≠ 0
      · rw [if_pos he] at h
        cases h
        intro s p pm hget
        simp [mlxsw_m_port_mapping_get] at hget
      · rw [if_neg he] at h
        cases h
        intro s p pm hget
        exact hinv1 s p pm hget

theorem got_active_indexed (env : Env) (st : State) (s : Nat) (st' : State)
    (hinv : ports_indexed st.m) (h : mlxsw_m_got_active env st s = some st') :
    ports_indexed st'.m := by
  unfold mlxsw_m_got_active at h
  cases hc : mlxsw_m_ports_create env st s with
  | none => rw [hc] at h; cases h
  | some r =>
    obtain ⟨err, st1⟩ := r
    have hinv1 : ports_indexed st1.m := ports_create_indexed env st s (err, st1) hinv hc
    rw [hc] at h
    simp only at h
    by_cases he : err ≠ 0
    · rw [if_pos he] at h
      cases h
      exact hinv1
    · rw [if_neg he] at h
      cases hlc : st1.m.line_cards[s]? with
      | none => rw [hlc] at h; cases h
      | some lc =>
        rw [hlc] at h
        cases h
        apply indexed_line_card_put st1.m s lc _ hlc _ hinv1
        rfl

theorem got_inactive_indexed (st : State) (s : Nat) (st' : State)
    (hinv : ports_indexed st.m) (h : mlxsw_m_got_inactive st s = some st') :
    ports_indexed st'.m := by
  unfold mlxsw_m_got_inactive at h
  cases hc : mlxsw_m_ports_remove st s with
  | none => rw [hc] at h; cases h
  | some st1 =>
    have hinv1 : ports_indexed st1.m := ports_remove_indexed st s st1 hinv hc
    rw [hc] at h
    simp only at h
    cases hlc : st1.m.line_cards[s]? with
    | none => rw [hlc] at h; cases h
    | some lc =>
      rw [hlc] at h
      cases h
      apply indexed_line_card_put st1.m s lc _ hlc _ hinv1
      rfl

theorem init_indexed (env : Env) (st0 st : State)
    (h : mlxsw_m_init env st0 = some (0, st)) : ports_indexed st.m := by
  unfold mlxsw_m_init at h
  by_cases hf : env.fw_rev_ok = false
  · rw [if_pos hf] at h
    simp [EINVAL] at h
  · rw [if_neg hf] at h
    simp only at h
    by_cases hp : (mlxsw_m_get_peripheral_info env st0.m).1 ≠ 0
    · rw [if_pos hp] at h
      simp only [Option.some.injEq, Prod.mk.injEq] at h
      exact absurd h.1 hp
    · rw [if_neg hp] at h
      cases ha : mlxsw_env_line_cards_alloc env (mlxsw_m_get_peripheral_info env st0.m).2 with
      | none => rw [ha] at h; cases h
      | some r =>
        obtain ⟨e, m1⟩ := r
        have hnp : no_ports m1 := line_cards_alloc_no_ports env _ (e, m1) ha
        rw [ha] at h
        simp only at h
        by_cases he : e ≠ 0
        · rw [if_pos he] at h
          simp only [Option.some.injEq, Prod.mk.injEq] at h
          exact absurd h.1 he
        · rw [if_neg he] at h
          cases hc : mlxsw_m_ports_create env { st0 with m := m1 } 0 with
          | none => rw [hc] at h; cases h
          | some r1 =>
            obtain ⟨e1, st1⟩ := r1
            have hinv1 : ports_indexed st1.m :=
              ports_create_indexed env { st0 with m := m1 } 0 (e1, st1)
                (no_ports_indexed m1 hnp) hc
            rw [hc] at h
            simp only at h
            by_cases he1 : e1 ≠ 0
            · rw [if_pos he1] at h
              simp only [Option.some.injEq, Prod.mk.injEq] at h
              exact absurd h.1 he1
            · rw [if_neg he1] at h
              by_cases hr : mlxsw_m_linecards_register env ≠ 0
              · rw [if_pos hr] at h
                cases hrm : mlxsw_m_ports_remove st1 0 with
                | none => rw [hrm] at h; cases h
                | some st2 =>
                  rw [hrm] at h
                  simp only [Option.some.injEq, Prod.mk.injEq] at h
                  exact absurd h.1 hr
              · rw [if_neg hr] at h
                simp only [Option.some.injEq, Prod.mk.injEq, true_and] at h
                rw [← h]
                exact hinv1

theorem reachable_indexed (st : State) (h : Reachable st) : ports_indexed st.m := by
  induction h with
  | init env st0 st hinit => exact init_indexed env st0 st hinit
  | got_active env st s st' _ hrun ih => exact got_active_indexed env st s st' ih hrun
  | got_inactive st s st' _ hrun ih => exact got_inactive_indexed st s st' ih hrun

/-- C8, counterexample: a chassis whose main board reports three modules and
whose line card in slot 1 reports three modules as well. After initialisation
and activation of slot 1, module 0 of slot 0 and module 0 of slot 1 both have
a Port Object, on different interfaces, and both have local port 1. -/
theorem local_port_shared_counterexample :
    ∃ st0 st1 x y,
      mlxsw_m_init (env_ok 1 16 3 4) State_zero = some (0, st0) ∧
      mlxsw_m_got_active (env_ok 1 16 3 4) st0 1 = some st1 ∧
      (mlxsw_m_port_mapping_get st1.m 0 1).map (fun pm => pm.port) = some (some x) ∧
      (mlxsw_m_port_mapping_get st1.m 1 1).map (fun pm => pm.port) = some (some y) ∧
      x.slot_index = 0 ∧ x.module = 0 ∧ y.slot_index = 1 ∧ y.module = 0 ∧
      x.dev ≠ y.dev ∧ x.local_port = 1 ∧ y.local_port = 1 :=
  ⟨_, _, _, _, rfl, rfl, rfl, rfl, rfl, rfl, rfl, rfl, by decide, rfl, rfl⟩

/-- C8, amended: in every state reached by initialisation and any sequence of
`mlxsw_m_got_active` and `mlxsw_m_got_inactive` calls, every Port Object held
by a mapping entry has the index of its entry as local port and the slot of
its table as slot index; hence two Port Objects held by distinct entries of
the same slot (two modules of one slot) have different local ports. -/
theorem local_port_unique_in_slot (st : State) (hreach : Reachable st)
    (s p q : Nat) (pm qm : mlxsw_m_port_mapping) (x y : mlxsw_m_port)
    (hp : mlxsw_m_port_mapping_get st.m s p = some pm) (hx : pm.port = some x)
    (hq : mlxsw_m_port_mapping_get st.m s q = some qm) (hy : qm.port = some y)
    (hne : p ≠ q) :
    x.local_port = p ∧ x.slot_index = s ∧ y.local_port = q ∧ y.slot_index = s ∧
      x.local_port ≠ y.local_port := by
  have hinv := reachable_indexed st hreach
  obtain ⟨h1, h2⟩ := hinv s p pm x hp hx
  obtain ⟨h3, h4⟩ := hinv s q qm y hq hy
  refine ⟨h1, h2, h3, h4, ?_⟩
  rw [h1, h3]
  exact hne

/-- Witness of C8 amended: after initialisation of a main board with three
modules, the ports of modules 0 and 1 sit in entries 1 and 2 of slot 0. -/
theorem local_port_unique_in_slot_witness :
    ∃ pm qm x y, Reachable State_main_board ∧
      mlxsw_m_port_mapping_get State_main_board.m 0 1 = some pm ∧ pm.port = some x ∧
      mlxsw_m_port_mapping_get State_main_board.m 0 2 = some qm ∧ qm.port = some y ∧
      (1 : Nat) ≠ 2 ∧
      (x.local_port = 1 ∧ x.slot_index = 0 ∧ y.local_port = 2 ∧ y.slot_index = 0 ∧
        x.local_port ≠ y.local_port) :=
  ⟨{ port := some { dev := 0, local_port := 1, module := 0, slot_index := 0,
                    module_offset := 0 },
     module_to_port := 1, module := 0 },
   { port := some { dev := 1, local_port := 2, module := 1, slot_index := 0,
                    module_offset := 0 },
     module_to_port := 2, module := 1 },
   { dev := 0, local_port := 1, module := 0, slot_index := 0, module_offset := 0 },
   { dev := 1, local_port := 2, module := 1, slot_index := 0, module_offset := 0 },
   Reachable.init (env_ok 0 0 3 4) State_zero State_main_board rfl,
   rfl, rfl, rfl, rfl, by decide,
   local_port_unique_in_slot State_main_board
     (Reachable.init (env_ok 0 0 3 4) State_zero State_main_board rfl) 0 1 2
     { port := some { dev := 0, local_port := 1, module := 0, slot_index := 0,
                      module_offset := 0 },
       module_to_port := 1, module := 0 }
     { port := some { dev := 1, local_port := 2, module := 1, slot_index := 0,
                      module_offset := 0 },
       module_to_port := 2, module := 1 }
     { dev := 0, local_port := 1, module := 0, slot_index := 0, module_offset := 0 }
     { dev := 1, local_port := 2, module := 1, slot_index := 0, module_offset := 0 }
     rfl rfl rfl rfl (by decide)⟩

/-! ## Deactivation -/

theorem ports_remove_step (st3 : State) (s o k : Nat) (hs : range_mapped st3 s o k)
    (hp : ∀ p pm, o + 1 ≤ p → p ≤ o + k → mlxsw_m_port_mapping_get st3.m s p = some pm →
      pm.port ≠ none)
    (i : Nat) (st : State) (hi : i < st3.m.max_ports)
    (hinv : remove_inv st3 s o k i st) :
    ∃ st', ports_remove_body s i st = some (0, st') ∧ remove_inv st3 s o k (i + 1) st' := by
  obtain ⟨⟨lc3, hlc3, ho, hM⟩, hb, h16, hin, hout⟩ := hs
  obtain ⟨hh, ht⟩ := hinv
  obtain ⟨pm, hpm⟩ := mapping_get_of_lt st3.m s i lc3 hlc3 (by omega)
  have hget : mlxsw_m_port_mapping_get st.m s i = some pm := by
    rw [ht i, if_neg (by omega), hpm]
  by_cases hr : o + 1 ≤ i ∧ i ≤ o + k
  · obtain ⟨pm', hpm', hmtp⟩ := hin i hr.1 hr.2
    rw [hpm] at hpm'
    simp only [Option.some.injEq] at hpm'
    subst hpm'
    have hu : to_u16 pm.module_to_port = i := by
      rw [hmtp]
      exact to_u16_natCast i (by omega)
    cases hx : pm.port with
    | none => exact absurd hx (hp i pm hr.1 hr.2 hpm)
    | some x =>
      obtain ⟨st1, hrun1, hm1, _⟩ := port_remove_ok st s i pm x hget hx
      have hget1 : mlxsw_m_port_mapping_get st1.m s i = some { pm with port := none } := by
        rw [hm1, mapping_get_put, if_pos ⟨rfl, rfl⟩, hget]
        rfl
      obtain ⟨st2, hrun2, hm2, _⟩ := module_unmap_ok st1 s i _ hget1
      refine ⟨st2, ?_, ?_, ?_⟩
      · simp only [ports_remove_body, hget, hu, hx]
        rw [if_pos (by omega)]
        simp only [hrun1, hrun2]
      · rw [hm2, hdr_put, hm1, hdr_put, hh]
      · intro p
        rw [hm2, mapping_get_put]
        by_cases hpi : p = i
        · subst hpi
          rw [if_pos ⟨rfl, rfl⟩, if_pos ⟨hr.1, hr.2, by omega⟩, hget1, hpm]
          rfl
        · rw [if_neg (by simp [hpi]), hm1, mapping_get_put, if_neg (by simp [hpi]), ht p]
          by_cases hr1 : o + 1 ≤ p ∧ p ≤ o + k ∧ p < i
          · rw [if_pos hr1, if_pos ⟨hr1.1, hr1.2.1, by omega⟩]
          · rw [if_neg hr1, if_neg (by omega)]
  · have hle : pm.module_to_port ≤ 0 := hout i pm hr hpm
    refine ⟨st, ?_, hh, ?_⟩
    · simp only [ports_remove_body, hget]
      rw [if_neg (by omega)]
    · intro p
      rw [ht p]
      by_cases hr1 : o + 1 ≤ p ∧ p ≤ o + k ∧ p < i
      · rw [if_pos hr1, if_pos ⟨hr1.1, hr1.2.1, by omega⟩]
      · rw [if_neg hr1, if_neg (by omega)]

theorem ports_remove_ok (st3 : State) (s o k : Nat) (hs : range_mapped st3 s o k)
    (hp : ∀ p pm, o + 1 ≤ p → p ≤ o + k → mlxsw_m_port_mapping_get st3.m s p = some pm →
      pm.port ≠ none) :
    ∃ st', mlxsw_m_ports_remove st3 s = some st' ∧
      remove_inv st3 s o k st3.m.max_ports st' := by
  obtain ⟨st', hrun, hinv⟩ := for_up_inv (ports_remove_body s) (remove_inv st3 s o k)
    st3.m.max_ports 0 st3
    ⟨rfl, fun p => by rw [if_neg (by omega)]⟩
    (fun i st _ hi hinv => ports_remove_step st3 s o k hs hp i st (by omega) hinv)
  refine ⟨st', ?_, by simpa using hinv⟩
  simp only [mlxsw_m_ports_remove, hrun]

/-- Support for C5: from a table that is invalidated as the allocation
intends (every entry `-1`, no port), a successful activation followed by the
deactivation of the slot returns, and afterwards every entry of the slot has
`module_to_port = -1` and no port, and the slot is inactive. -/
theorem lifecycle_from_invalidated (env : Env) (st : State) (s k : Nat)
    (lc : mlxsw_m_line_card)
    (hlc : st.m.line_cards[s]? = some lc)
    (hM : st.m.max_ports ≤ lc.port_mapping.length)
    (hun : ∀ p pm, mlxsw_m_port_mapping_get st.m s p = some pm →
      pm.module_to_port = -1 ∧ pm.port = none)
    (hq : env.mgpir_err s = 0)
    (hk : (env.mgpir s).num_of_modules = k) (hk1 : 1 ≤ k) (hk2 : k ≤ 254)
    (hb : offset_of st.m s + k < st.m.max_ports)
    (hok : ∀ p, create_ok env s p) :
    ∃ st1 st2 lc2, mlxsw_m_got_active env st s = some st1 ∧
      mlxsw_m_got_inactive st1 s = some st2 ∧
      st2.m.line_cards[s]? = some lc2 ∧ lc2.active = false ∧
      (∀ p pm, mlxsw_m_port_mapping_get st2.m s p = some pm →
        pm.module_to_port = -1 ∧ pm.port = none) := by
  have h16 : offset_of st.m s + k < 65536 := by
    have : offset_of st.m s < 256 := by
      unfold offset_of
      split_ifs
      · exact Nat.mod_lt _ (by decide)
      · decide
    omega
  obtain ⟨st3, st1, lc3, _, hres, hrun1, hlc3, hlc1, hmp1, _, hg1, _⟩ :=
    got_active_ok env st s k lc hlc hM hq hk hk1 hk2 hb
      (fun p pm _ _ hg => by
        have := (hun p pm hg).1
        omega)
      (fun p pm _ hg => by
        have := (hun p pm hg).1
        omega)
      (fun p _ _ => hok p)
  obtain ⟨hmp3, _, ⟨lc0, lc3', hlc0, hlc3', _, hoff3, _, hlen3⟩, ht3, _⟩ := hres
  rw [hlc3] at hlc3'
  rw [hlc] at hlc0
  simp only [Option.some.injEq] at hlc3' hlc0
  rw [← hlc3'] at hoff3 hlen3
  rw [← hlc0] at hlen3
  have hmpa : st1.m.max_ports = st.m.max_ports := hmp1.trans hmp3
  have ht1 : ∀ p, mlxsw_m_port_mapping_get st1.m s p =
      if offset_of st.m s + 1 ≤ p ∧ p ≤ offset_of st.m s + k then
        (mlxsw_m_port_mapping_get st.m s p).map
          (fun _ => { port := some { dev := st.w.next_dev + (p - (offset_of st.m s + 1)),
                                     local_port := p, module := p - offset_of st.m s - 1,
                                     slot_index := s, module_offset := offset_of st.m s },
                      module_to_port := (p : Int), module := p - offset_of st.m s - 1 })
      else mlxsw_m_port_mapping_get st.m s p := by
    intro p
    rw [hg1, ht3]
  have hs1 : range_mapped st1 s (offset_of st.m s) k := by
    refine ⟨⟨{ lc3 with active := true }, hlc1, hoff3, ?_⟩, by rw [hmpa]; exact hb, h16, ?_, ?_⟩
    · rw [hmpa]
      simpa [hlen3] using hM
    · intro p h1 h2
      obtain ⟨pm, hpm⟩ := mapping_get_of_lt st.m s p lc hlc (by omega)
      have hg := ht1 p
      rw [if_pos ⟨h1, h2⟩, hpm] at hg
      exact ⟨_, hg, rfl⟩
    · intro p pm hr hg
      rw [ht1 p, if_neg hr] at hg
      have := (hun p pm hg).1
      omega
  have hp1 : ∀ p pm, offset_of st.m s + 1 ≤ p → p ≤ offset_of st.m s + k →
      mlxsw_m_port_mapping_get st1.m s p = some pm → pm.port ≠ none := by
    intro p pm h1 h2 hg
    rw [ht1 p, if_pos ⟨h1, h2⟩] at hg
    cases hpm : mlxsw_m_port_mapping_get st.m s p with
    | none => rw [hpm] at hg; cases hg
    | some pm0 =>
      rw [hpm] at hg
      simp only [Option.map_some', Option.some.injEq] at hg
      rw [← hg]
      simp
  obtain ⟨st4, hrun4, hh4, ht4⟩ := ports_remove_ok st1 s (offset_of st.m s) k hs1 hp1
  obtain ⟨lc4, hlc4, _⟩ := hdr_line_card st4.m st1.m s _ hh4 hlc1
  refine ⟨st1, { st4 with m := line_card_put st4.m s { lc4 with active := false } },
    { lc4 with active := false }, hrun1, ?_, ?_, rfl, ?_⟩
  · simp only [mlxsw_m_got_inactive, hrun4, hlc4]
  · exact line_cards_line_card_put st4.m s lc4 _ hlc4
  · intro p pm hg
    rw [mapping_get_line_card_put st4.m s lc4 { lc4 with active := false } hlc4 rfl,
      ht4 p, ht1 p] at hg
    by_cases hr : offset_of st.m s + 1 ≤ p ∧ p ≤ offset_of st.m s + k
    · rw [if_pos ⟨hr.1, hr.2, by rw [hmpa]; omega⟩, if_pos hr] at hg
      cases hpm : mlxsw_m_port_mapping_get st.m s p with
      | none => rw [hpm] at hg; cases hg
      | some pm0 =>
        rw [hpm] at hg
        simp only [Option.map_some', Option.some.injEq] at hg
        rw [← hg]
        exact ⟨rfl, rfl⟩
    · rw [if_neg (by omega), if_neg hr] at hg
      exact hun p pm hg

/-! ## Table accesses stay in range -/

theorem for_up_total {σ : Type} (body : Nat → σ → Option (Int × σ)) (P : Nat → σ → Prop) :
    ∀ (n i0 : Nat) (st : σ), P i0 st →
      (∀ i st, i0 ≤ i → i < i0 + n → P i st →
        ∃ err st', body i st = some (err, st') ∧ (err = 0 → P (i + 1) st') ∧
          (err ≠ 0 → P i st')) →
      ∃ err j st', for_up body n i0 st = some (err, j, st') ∧ i0 ≤ j ∧ j ≤ i0 + n ∧
        (err = 0 → j = i0 + n) ∧ P j st' := by
  intro n
  induction n with
  | zero =>
    intro i0 st h0 _
    exact ⟨0, i0, st, rfl, Nat.le_refl _, Nat.le_refl _, fun _ => rfl, h0⟩
  | succ n ih =>
    intro i0 st h0 hstep
    obtain ⟨err, st1, hb, hok, hfail⟩ := hstep i0 st (Nat.le_refl _) (by omega) h0
    by_cases he : err = 0
    · subst he
      obtain ⟨err2, j, st2, hl, hj1, hj2, hj3, hp⟩ := ih (i0 + 1) st1 (hok rfl)
        (fun i st hi hlt hp => hstep i st (by omega) (by omega) hp)
      refine ⟨err2, j, st2, ?_, by omega, by omega, fun h => by have := hj3 h; omega, hp⟩
      simp only [for_up, hb]
      rw [if_neg (by simp), hl]
    · refine ⟨err, i0, st1, ?_, Nat.le_refl _, by omega, fun h => absurd h he, hfail he⟩
      simp only [for_up, hb]
      rw [if_pos he]

theorem slot_base_of_hdr (b st : State) (s : Nat) (hh : hdr st.m = hdr b.m)
    (hb : slot_base b s) : slot_base st s := by
  obtain ⟨h16, lc, hlc, hlen⟩ := hb
  obtain ⟨lc', hlc', hlh⟩ := hdr_line_card st.m b.m s lc hh hlc
  simp only [lc_hdr, Prod.mk.injEq] at hlh
  have hmp := hdr_max_ports _ _ hh
  refine ⟨by rw [hmp]; exact h16, lc', hlc', ?_⟩
  rw [hmp, hlh.2.2.2]
  exact hlen

theorem mapping_get_of_base (st : State) (s p : Nat) (hb : slot_base st s)
    (hp : p < st.m.max_ports) : ∃ pm, mlxsw_m_port_mapping_get st.m s p = some pm := by
  obtain ⟨_, lc, hlc, hlen⟩ := hb
  exact mapping_get_of_lt st.m s p lc hlc (by omega)

theorem port_create_total (env : Env) (st : State) (s lp module : Nat)
    (lc : mlxsw_m_line_card) (pm : mlxsw_m_port_mapping)
    (hlc : st.m.line_cards[s]? = some lc)
    (hget : mlxsw_m_port_mapping_get st.m s lp = some pm) :
    ∃ err st' X, mlxsw_m_port_create env st s lp module = some (err, st') ∧
      st'.m = port_mapping_put st.m s lp { pm with port := X } ∧ (err = 0 → X ≠ none) := by
  have hself : port_mapping_put st.m s lp { pm with port := pm.port } = st.m :=
    put_get_self st.m s lp pm hget
  unfold mlxsw_m_port_create
  simp only [hlc]
  by_cases h1 : env.core_port_init_err s lp ≠ 0
  · rw [if_pos h1]
    exact ⟨_, _, pm.port, rfl, hself.symm, fun h => absurd h h1⟩
  · rw [if_neg h1]
    by_cases h2 : env.alloc_etherdev_ok s lp = false
    · rw [if_pos h2]
      exact ⟨_, _, pm.port, rfl, hself.symm, fun h => by simp [ENOMEM] at h⟩
    · rw [if_neg h2]
      by_cases h3 : env.ppad_err s lp ≠ 0
      · simp only [mlxsw_m_port_dev_addr_get, if_pos h3]
        exact ⟨_, _, pm.port, rfl, hself.symm, fun h => absurd h h3⟩
      · simp only [mlxsw_m_port_dev_addr_get, if_neg h3]
        rw [if_neg (by simp), hget]
        simp only
        by_cases h4 : env.register_netdev_err s lp ≠ 0
        · rw [if_pos h4]
          exact ⟨_, _, none, rfl, by simp only [put_put], fun h => absurd h h4⟩
        · rw [if_neg h4]
          exact ⟨_, _, some _, rfl, rfl, fun _ => by simp⟩

theorem put_entry_cases (m : mlxsw_m) (s lp p : Nat) (e pm pm' : mlxsw_m_port_mapping)
    (hget : mlxsw_m_port_mapping_get m s lp = some pm)
    (h : mlxsw_m_port_mapping_get (port_mapping_put m s lp e) s p = some pm') :
    (p = lp ∧ pm' = e) ∨ (p ≠ lp ∧ mlxsw_m_port_mapping_get m s p = some pm') := by
  rw [mapping_get_put] at h
  by_cases hp : p = lp
  · subst hp
    rw [if_pos ⟨rfl, rfl⟩, hget] at h
    simp only [Option.map_some', Option.some.injEq] at h
    exact Or.inl ⟨rfl, h.symm⟩
  · rw [if_neg (by simp [hp])] at h
    exact Or.inr ⟨hp, h⟩

theorem put_max_ports (m : mlxsw_m) (s lp : Nat) (e : mlxsw_m_port_mapping) :
    (port_mapping_put m s lp e).max_ports = m.max_ports :=
  hdr_max_ports _ _ (hdr_put m s lp e)

theorem own_index_put (st st' : State) (s lp : Nat) (e pm : mlxsw_m_port_mapping)
    (hm : st'.m = port_mapping_put st.m s lp e)
    (hget : mlxsw_m_port_mapping_get st.m s lp = some pm)
    (he : e.module_to_port > 0 → e.module_to_port = (lp : Int) ∧ lp < st.m.max_ports)
    (hinv : entries_own_index st s) : entries_own_index st' s := by
  intro p pm' hg hpos
  rw [hm] at hg
  rw [hm, put_max_ports]
  rcases put_entry_cases st.m s lp p e pm pm' hget hg with ⟨hp, hpm⟩ | ⟨_, hold⟩
  · subst hp
    subst hpm
    exact he hpos
  · exact hinv p pm' hold hpos

theorem wf_map_step (b : State) (s o : Nat) (hb : slot_base b s)
    (hoff : ∃ lc, b.m.line_cards[s]? = some lc ∧ lc.module_offset = o)
    (ho8 : o < 256) (i : Nat) (hi1 : 1 ≤ i) (hi2 : i ≤ 255)
    (hlt : i + o < b.m.max_ports) (st : State)
    (hh : hdr st.m = hdr b.m) (hinv : entries_own_index st s) :
    ∃ st', ports_create_map_body s i st = some (0, st') ∧ hdr st'.m = hdr b.m ∧
      entries_own_index st' s := by
  obtain ⟨lc0, hlc0, ho⟩ := hoff
  obtain ⟨lc, hlc, hlh⟩ := hdr_line_card st.m b.m s lc0 hh hlc0
  have hoff' : lc.module_offset = o := by
    simp only [lc_hdr, Prod.mk.injEq] at hlh
    rw [hlh.2.1, ho]
  have hmp : st.m.max_ports = b.m.max_ports := hdr_max_ports _ _ hh
  obtain ⟨pm, hget⟩ := mapping_get_of_base st s (i + o) (slot_base_of_hdr b st s hh hb)
    (by rw [hmp]; exact hlt)
  have hcheck : pm.module_to_port < (st.m.max_ports : Int) := by
    by_cases hpos : pm.module_to_port > 0
    · obtain ⟨h1, h2⟩ := hinv (i + o) pm hget hpos
      omega
    · omega
  have e1 : (i + o) % 65536 = i + o := Nat.mod_eq_of_lt (by omega)
  have e2 : (i - 1) % 256 = i - 1 := Nat.mod_eq_of_lt (by omega)
  obtain ⟨st', hrun, hm', _⟩ := module_map_ok st s (i + o) (i - 1) pm hget hcheck
  refine ⟨st', ?_, ?_, ?_⟩
  · simp only [ports_create_map_body, hlc, hoff', e1, e2]
    exact hrun
  · rw [hm', hdr_put, hh]
  · exact own_index_put st st' s (i + o) _ pm hm' hget
      (fun _ => ⟨rfl, by rw [hmp]; exact hlt⟩) hinv

theorem wf_map_loop (b : State) (s o n : Nat) (hb : slot_base b s)
    (hoff : ∃ lc, b.m.line_cards[s]? = some lc ∧ lc.module_offset = o)
    (ho8 : o < 256) (hn : n ≤ 254) (hlt : o + n < b.m.max_ports)
    (hinv : entries_own_index b s) :
    ∃ st2, for_up (ports_create_map_body s) n 1 b = some (0, 1 + n, st2) ∧
      hdr st2.m = hdr b.m ∧ entries_own_index st2 s :=
  for_up_inv (ports_create_map_body s)
    (fun _ st => hdr st.m = hdr b.m ∧ entries_own_index st s) n 1 b ⟨rfl, hinv⟩
    (fun i st hi1 hi2 hp =>
      wf_map_step b s o hb hoff ho8 i hi1 (by omega) (by omega) st hp.1 hp.2)

theorem wf_create_step (env : Env) (b : State) (s : Nat) (hb : slot_base b s)
    (i : Nat) (st : State) (hi : i < b.m.max_ports) (hinv : walk_inv b s i st) :
    ∃ err st', ports_create_create_body env s i st = some (err, st') ∧
      (err = 0 → walk_inv b s (i + 1) st') ∧ (err ≠ 0 → walk_inv b s i st') := by
  obtain ⟨hh, hown, hports⟩ := hinv
  have hmp : st.m.max_ports = b.m.max_ports := hdr_max_ports _ _ hh
  have hbase := slot_base_of_hdr b st s hh hb
  obtain ⟨pm, hget⟩ := mapping_get_of_base st s i hbase (by rw [hmp]; exact hi)
  obtain ⟨h16, lc, hlc, _⟩ := hbase
  by_cases hpos : pm.module_to_port > 0
  · obtain ⟨hidx, _⟩ := hown i pm hget hpos
    have hu : to_u16 pm.module_to_port = i := by
      rw [hidx]
      exact to_u16_natCast i (by omega)
    obtain ⟨err, st', X, hrun, hm', hX⟩ :=
      port_create_total env st s i pm.module lc pm hlc hget
    have hown' : entries_own_index st' s :=
      own_index_put st st' s i _ pm hm' hget (fun _ => hown i pm hget hpos) hown
    refine ⟨err, st', ?_, ?_, ?_⟩
    · simp only [ports_create_create_body, hget, hu]
      rw [if_pos hpos]
      exact hrun
    · intro he
      refine ⟨by rw [hm', hdr_put, hh], hown', ?_⟩
      intro p pm' hp hg hpos'
      rw [hm'] at hg
      rcases put_entry_cases st.m s i p _ pm pm' hget hg with ⟨_, hpm⟩ | ⟨hne, hold⟩
      · rw [hpm]
        exact hX he
      · exact hports p pm' (by omega) hold hpos'
    · intro _
      refine ⟨by rw [hm', hdr_put, hh], hown', ?_⟩
      intro p pm' hp hg hpos'
      rw [hm'] at hg
      rcases put_entry_cases st.m s i p _ pm pm' hget hg with ⟨hpi, _⟩ | ⟨_, hold⟩
      · omega
      · exact hports p pm' hp hold hpos'
  · refine ⟨0, st, ?_, ?_, fun h => absurd rfl h⟩
    · simp only [ports_create_create_body, hget]
      rw [if_neg hpos]
    · intro _
      refine ⟨hh, hown, ?_⟩
      intro p pm' hp hg hpos'
      by_cases hpi : p = i
      · subst hpi
        rw [hget] at hg
        simp only [Option.some.injEq] at hg
        subst hg
        exact absurd hpos' hpos
      · exact hports p pm' (by omega) hg hpos'

theorem wf_remove_step (b : State) (s : Nat) (hb : slot_base b s)
    (i : Nat) (st : State) (hi : i < b.m.max_ports) (hinv : walk_inv b s (i + 1) st) :
    ∃ st', ports_create_remove_body s i st = some st' ∧ walk_inv b s i st' := by
  obtain ⟨hh, hown, hports⟩ := hinv
  have hmp : st.m.max_ports = b.m.max_ports := hdr_max_ports _ _ hh
  have hbase := slot_base_of_hdr b st s hh hb
  obtain ⟨pm, hget⟩ := mapping_get_of_base st s i hbase (by rw [hmp]; exact hi)
  by_cases hpos : pm.module_to_port > 0
  · obtain ⟨hidx, _⟩ := hown i pm hget hpos
    have hu : to_u16 pm.module_to_port = i := by
      rw [hidx]
      exact to_u16_natCast i (by have := hbase.1; omega)
    cases hx : pm.port with
    | none => exact absurd hx (hports i pm (by omega) hget hpos)
    | some x =>
      obtain ⟨st', hrun, hm', _⟩ := port_remove_ok st s i pm x hget hx
      refine ⟨st', ?_, by rw [hm', hdr_put, hh],
        own_index_put st st' s i _ pm hm' hget (fun _ => hown i pm hget hpos) hown, ?_⟩
      · simp only [ports_create_remove_body, hget, hu]
        rw [if_pos hpos]
        exact hrun
      · intro p pm' hp hg hpos'
        rw [hm'] at hg
        rcases put_entry_cases st.m s i p _ pm pm' hget hg with ⟨hpi, _⟩ | ⟨_, hold⟩
        · omega
        · exact hports p pm' (by omega) hold hpos'
  · refine ⟨st, ?_, hh, hown, fun p pm' hp hg hpos' => hports p pm' (by omega) hg hpos'⟩
    simp only [ports_create_remove_body, hget]
    rw [if_neg hpos]

theorem wf_unmap_step (b : State) (s : Nat) (hb : slot_base b s)
    (i : Nat) (st : State) (hi : i < b.m.max_ports) (hinv : unwind_map_inv b s (i + 1) st) :
    ∃ st', ports_create_unmap_body s i st = some st' ∧ unwind_map_inv b s i st' := by
  obtain ⟨hh, hown, hun⟩ := hinv
  have hmp : st.m.max_ports = b.m.max_ports := hdr_max_ports _ _ hh
  have hbase := slot_base_of_hdr b st s hh hb
  obtain ⟨pm, hget⟩ := mapping_get_of_base st s i hbase (by rw [hmp]; exact hi)
  by_cases hpos : pm.module_to_port > 0
  · obtain ⟨st', hrun, hm', _⟩ := module_unmap_ok st s i pm hget
    refine ⟨st', ?_, by rw [hm', hdr_put, hh],
      own_index_put st st' s i _ pm hm' hget (fun h => by simp at h) hown, ?_⟩
    · simp only [ports_create_unmap_body, hget]
      rw [if_pos hpos]
      exact hrun
    · intro p pm' hp hg
      rw [hm'] at hg
      rcases put_entry_cases st.m s i p _ pm pm' hget hg with ⟨_, hpm⟩ | ⟨hne, hold⟩
      · rw [hpm]
        simp
      · exact hun p pm' (by omega) hold
  · refine ⟨st, ?_, hh, hown, ?_⟩
    · simp only [ports_create_unmap_body, hget]
      rw [if_neg hpos]
    · intro p pm' hp hg
      by_cases hpi : p = i
      · subst hpi
        rw [hget] at hg
        simp only [Option.some.injEq] at hg
        subst hg
        omega
      · exact hun p pm' (by omega) hg

theorem wf_ports_remove_step (b : State) (s : Nat) (hb : slot_base b s)
    (i : Nat) (st : State) (hi : i < b.m.max_ports) (hinv : deactivate_inv b s i st) :
    ∃ st', ports_remove_body s i st = some (0, st') ∧ deactivate_inv b s (i + 1) st' := by
  obtain ⟨hh, hown, hun, hports⟩ := hinv
  have hmp : st.m.max_ports = b.m.max_ports := hdr_max_ports _ _ hh
  have hbase := slot_base_of_hdr b st s hh hb
  obtain ⟨pm, hget⟩ := mapping_get_of_base st s i hbase (by rw [hmp]; exact hi)
  by_cases hpos : pm.module_to_port > 0
  · obtain ⟨hidx, _⟩ := hown i pm hget hpos
    have hu : to_u16 pm.module_to_port = i := by
      rw [hidx]
      exact to_u16_natCast i (by have := hbase.1; omega)
    cases hx : pm.port with
    | none => exact absurd hx (hports i pm (Nat.le_refl _) hget hpos)
    | some x =>
      obtain ⟨st1, hrun1, hm1, _⟩ := port_remove_ok st s i pm x hget hx
      have hget1 : mlxsw_m_port_mapping_get st1.m s i = some { pm with port := none } := by
        rw [hm1, mapping_get_put, if_pos ⟨rfl, rfl⟩, hget]
        rfl
      have hown1 : entries_own_index st1 s :=
        own_index_put st st1 s i _ pm hm1 hget (fun _ => hown i pm hget hpos) hown
      obtain ⟨st2, hrun2, hm2, _⟩ := module_unmap_ok st1 s i _ hget1
      refine ⟨st2, ?_, by rw [hm2, hdr_put, hm1, hdr_put, hh],
        own_index_put st1 st2 s i _ _ hm2 hget1 (fun h => by simp at h) hown1, ?_, ?_⟩
      · simp only [ports_remove_body, hget, hu, hx]
        rw [if_pos hpos]
        simp only [hrun1, hrun2]
      · intro p pm' hp hg
        rw [hm2] at hg
        rcases put_entry_cases st1.m s i p _ _ pm' hget1 hg with ⟨_, hpm⟩ | ⟨hne, hold1⟩
        · rw [hpm]
          simp
        · rw [hm1] at hold1
          rcases put_entry_cases st.m s i p _ pm pm' hget hold1 with ⟨hpi, _⟩ | ⟨_, hold⟩
          · exact absurd hpi hne
          · exact hun p pm' (by omega) hold
      · intro p pm' hp hg hpos'
        rw [hm2] at hg
        rcases put_entry_cases st1.m s i p _ _ pm' hget1 hg with ⟨hpi, _⟩ | ⟨hne, hold1⟩
        · omega
        · rw [hm1] at hold1
          rcases put_entry_cases st.m s i p _ pm pm' hget hold1 with ⟨hpi, _⟩ | ⟨_, hold⟩
          · exact absurd hpi hne
          · exact hports p pm' (by omega) hold hpos'
  · refine ⟨st, ?_, hh, hown, ?_, fun p pm' hp hg hpos' => hports p pm' (by omega) hg hpos'⟩
    · simp only [ports_remove_body, hget]
      rw [if_neg hpos]
    · intro p pm' hp hg
      by_cases hpi : p = i
      · subst hpi
        rw [hget] at hg
        simp only [Option.some.injEq] at hg
        subst hg
        omega
      · exact hun p pm' (by omega) hg

theorem slot_wf_line_card_put (st st' : State) (s : Nat) (lc lc' : mlxsw_m_line_card)
    (hlc : st.m.line_cards[s]? = some lc) (ht : lc'.port_mapping = lc.port_mapping)
    (hm : st'.m = line_card_put st.m s lc') (hwf : slot_wf st s) : slot_wf st' s := by
  obtain ⟨⟨h16, lc0, hlc0, hlen⟩, hown, hports⟩ := hwf
  rw [hlc] at hlc0
  simp only [Option.some.injEq] at hlc0
  subst hlc0
  have hmp : st'.m.max_ports = st.m.max_ports := by rw [hm]; rfl
  have hg : ∀ p, mlxsw_m_port_mapping_get st'.m s p = mlxsw_m_port_mapping_get st.m s p := by
    intro p
    rw [hm]
    exact mapping_get_line_card_put st.m s lc lc' hlc ht s p
  refine ⟨⟨by rw [hmp]; exact h16, lc', ?_, ?_⟩, ?_, ?_⟩
  · rw [hm]
    exact line_cards_line_card_put st.m s lc lc' hlc
  · rw [hmp, ht]
    exact hlen
  · intro p pm hget hpos
    rw [hg] at hget
    rw [hmp]
    exact hown p pm hget hpos
  · intro p pm hp hget hpos
    rw [hg] at hget
    rw [hmp] at hp
    exact hports p pm hp hget hpos

theorem wf_loops (env : Env) (b : State) (s o mp : Nat) (hb : slot_base b s)
    (hoff : ∃ lc, b.m.line_cards[s]? = some lc ∧ lc.module_offset = o)
    (ho8 : o < 256) (hmp : mp ≤ 255) (hlt : o + (mp - 1) < b.m.max_ports)
    (hown : entries_own_index b s) :
    ∃ err st', ports_create_loops env s mp b = some (err, st') ∧
      hdr st'.m = hdr b.m ∧ entries_own_index st' s ∧ ports_below st' s b.m.max_ports := by
  -- the mapping loop never fails
  obtain ⟨st2, hrun2, hh2, hown2⟩ :=
    wf_map_loop b s o (mp - 1) hb hoff ho8 (by omega) hlt hown
  have hmp2 : st2.m.max_ports = b.m.max_ports := hdr_max_ports _ _ hh2
  -- the port creation loop runs to its end or stops at a failing creation
  obtain ⟨err, j, st3, hrun3, _, hj, hjend, hinv3⟩ :=
    for_up_total (ports_create_create_body env s) (walk_inv b s) b.m.max_ports 0 st2
      ⟨hh2, hown2, fun p pm hp _ _ => absurd hp (Nat.not_lt_zero p)⟩
      (fun i st _ hi hinv => wf_create_step env b s hb i st (by omega) hinv)
  rw [Nat.zero_add] at hj hjend
  by_cases he : err = 0
  · subst he
    rw [hjend rfl] at hinv3 hrun3
    refine ⟨0, st3, ?_, hinv3.1, hinv3.2.1, hinv3.2.2⟩
    unfold ports_create_loops
    simp only [hrun2, hmp2, hrun3, ne_eq, not_true_eq_false, if_false]
  · -- the created ports are removed
    obtain ⟨st4, hrun4, hh4, hown4, _⟩ :=
      for_down_inv (ports_create_remove_body s) (walk_inv b s) j st3 hinv3
        (fun i st hi hinv => wf_remove_step b s hb i st (by omega) hinv)
    have hmp4 : st4.m.max_ports = b.m.max_ports := hdr_max_ports _ _ hh4
    -- the mappings are unwound
    obtain ⟨M, hM⟩ : ∃ M, b.m.max_ports = M + 1 := ⟨b.m.max_ports - 1, by omega⟩
    obtain ⟨st5, hrun5, hh5, hown5, hun5⟩ :=
      for_down_pos_inv (ports_create_unmap_body s) (unwind_map_inv b s) M st4
        ⟨hh4, hown4, fun p pm hp hg => by
          by_cases hpos : pm.module_to_port > 0
          · have := (hown4 p pm hg hpos).2
            omega
          · omega⟩
        (fun i st _ hi hinv => wf_unmap_step b s hb i st (by omega) hinv)
    refine ⟨err, st5, ?_, hh5, hown5, ?_⟩
    · unfold ports_create_loops
      simp only [hrun2, hmp2, hrun3, ne_eq, not_true_eq_false, if_false]
      rw [if_pos he]
      simp only [err_module_to_port_create, hrun4, err_module_to_port_map, hmp4, hM, hrun5]
    · intro p pm _ hg hpos
      obtain ⟨hidx, _⟩ := hown5 p pm hg hpos
      by_cases hp0 : p = 0
      · subst hp0
        omega
      · have := hun5 p pm (by omega) hg
        omega

theorem wf_ports_create (env : Env) (st : State) (s : Nat) (hwf : slot_wf st s)
    (hb : offset_of st.m s + (env.mgpir s).num_of_modules % 256 < st.m.max_ports) :
    ∃ err st', mlxsw_m_ports_create env st s = some (err, st') ∧ slot_wf st' s := by
  have hwf0 := hwf
  obtain ⟨⟨h16, lc, hlc, hlen⟩, hown, hports⟩ := hwf
  have ho8 : offset_of st.m s < 256 := by
    unfold offset_of
    split_ifs
    · exact Nat.mod_lt _ (by decide)
    · decide
  have hk : (env.mgpir s).num_of_modules % 256 < 256 := Nat.mod_lt _ (by decide)
  have hmpb : ((env.mgpir s).num_of_modules % 256 + 1) % 256 ≤ 255 := by omega
  have hlt : offset_of st.m s + (((env.mgpir s).num_of_modules % 256 + 1) % 256 - 1)
      < st.m.max_ports := by omega
  by_cases hq : env.mgpir_err s ≠ 0
  · refine ⟨env.mgpir_err s, st, ?_, hwf0⟩
    unfold mlxsw_m_ports_create
    rw [if_pos hq]
  · by_cases h0 : (env.mgpir s).num_of_modules % 256 = 0
    · let lc0 : mlxsw_m_line_card := { lc with max_ports := 0 }
      let st0 : State := { st with m := line_card_put st.m s lc0 }
      refine ⟨0, st0, ?_, slot_wf_line_card_put st st0 s lc lc0 hlc rfl rfl hwf0⟩
      unfold mlxsw_m_ports_create
      rw [if_neg hq]
      simp only [hlc]
      rw [if_pos h0]
    · -- the state after the capacity and the offset are stored
      let lc1 : mlxsw_m_line_card :=
        { lc with
          max_ports := ((env.mgpir s).num_of_modules % 256 + 1) % 256,
          module_offset := offset_of st.m s }
      let st1 : State := { st with m := line_card_put st.m s lc1 }
      have hlc1 : st1.m.line_cards[s]? = some lc1 := line_cards_line_card_put st.m s lc lc1 hlc
      have hwf1 : slot_wf st1 s := slot_wf_line_card_put st st1 s lc lc1 hlc rfl rfl hwf0
      have hmp1 : st1.m.max_ports = st.m.max_ports := rfl
      obtain ⟨err, st', hrun, hh, hown', hports'⟩ :=
        wf_loops env st1 s (offset_of st.m s) (((env.mgpir s).num_of_modules % 256 + 1) % 256)
          hwf1.1 ⟨lc1, hlc1, rfl⟩ ho8 hmpb (by rw [hmp1]; exact hlt) hwf1.2.1
      refine ⟨err, st', ?_, slot_base_of_hdr st1 st' s hh hwf1.1, hown', ?_⟩
      · unfold mlxsw_m_ports_create
        rw [if_neg hq]
        simp only [hlc]
        rw [if_neg h0]
        exact hrun
      · have hmp' : st'.m.max_ports = st1.m.max_ports := hdr_max_ports _ _ hh
        rw [hmp']
        exact hports'

theorem wf_got_active (env : Env) (st : State) (s : Nat) (hwf : slot_wf st s)
    (hb : offset_of st.m s + (env.mgpir s).num_of_modules % 256 < st.m.max_ports) :
    ∃ st', mlxsw_m_got_active env st s = some st' ∧ slot_wf st' s := by
  obtain ⟨err, st1, hrun, hwf1⟩ := wf_ports_create env st s hwf hb
  by_cases he : err ≠ 0
  · refine ⟨st1, ?_, hwf1⟩
    unfold mlxsw_m_got_active
    simp only [hrun]
    rw [if_pos he]
  · obtain ⟨_, lc, hlc, _⟩ := hwf1.1
    let lc2 : mlxsw_m_line_card := { lc with active := true }
    let st2 : State := { st1 with m := line_card_put st1.m s lc2 }
    refine ⟨st2, ?_, slot_wf_line_card_put st1 st2 s lc lc2 hlc rfl rfl hwf1⟩
    unfold mlxsw_m_got_active
    simp only [hrun]
    rw [if_neg he]
    simp only [hlc]

theorem wf_got_inactive (st : State) (s : Nat) (hwf : slot_wf st s) :
    ∃ st', mlxsw_m_got_inactive st s = some st' ∧ slot_wf st' s := by
  obtain ⟨hbase, hown, hports⟩ := hwf
  obtain ⟨st1, hrun, hh, hown1, hun1, _⟩ :=
    for_up_inv (ports_remove_body s) (deactivate_inv st s) st.m.max_ports 0 st
      ⟨rfl, hown, fun p pm hp _ => absurd hp (Nat.not_lt_zero p),
        fun p pm _ hg hpos => hports p pm (hown p pm hg hpos).2 hg hpos⟩
      (fun i st' _ hi hinv => wf_ports_remove_step st s hbase i st' (by omega) hinv)
  rw [Nat.zero_add] at hrun hun1
  have hmp1 : st1.m.max_ports = st.m.max_ports := hdr_max_ports _ _ hh
  have hwf1 : slot_wf st1 s := by
    refine ⟨slot_base_of_hdr st st1 s hh hbase, hown1, ?_⟩
    intro p pm hp hg hpos
    rw [hmp1] at hp
    have := hun1 p pm hp hg
    omega
  obtain ⟨_, lc, hlc, _⟩ := hwf1.1
  let lc2 : mlxsw_m_line_card := { lc with active := false }
  let st2 : State := { st1 with m := line_card_put st1.m s lc2 }
  refine ⟨st2, ?_, slot_wf_line_card_put st1 st2 s lc lc2 hlc rfl rfl hwf1⟩
  unfold mlxsw_m_got_inactive mlxsw_m_ports_remove
  simp only [hrun, hlc]

theorem slot_wf_invalidated (slots mmc ports s : Nat) (hs : s < slots) (hp : ports < 65536) :
    slot_wf (State_invalidated slots mmc ports) s := by
  have hlc : (State_invalidated slots mmc ports).m.line_cards[s]? =
      some (line_card_invalidated ports) := by
    simp only [State_invalidated]
    rw [List.getElem?_replicate, if_pos hs]
  have hneg : ∀ p pm, mlxsw_m_port_mapping_get (State_invalidated slots mmc ports).m s p = some pm →
      ¬ pm.module_to_port > 0 := by
    intro p pm hg
    unfold mlxsw_m_port_mapping_get at hg
    rw [hlc] at hg
    simp only [line_card_invalidated, List.getElem?_replicate] at hg
    split_ifs at hg
    simp only [Option.some.injEq] at hg
    rw [← hg]
    decide
  refine ⟨⟨hp, line_card_invalidated ports, hlc, ?_⟩, ?_, ?_⟩
  · simp [State_invalidated, line_card_invalidated]
  · intro p pm hg hpos
    exact absurd hpos (hneg p pm hg)
  · intro p pm _ hg hpos
    exact absurd hpos (hneg p pm hg)

/-- An activation outside the bound, from the zeroed driver data: two
pluggable slots of 16 modules each and 8 ports in the core. Slot 2 has offset
16, its table has 8 entries, so the first index of the mapping loop, 17, is
beyond the table and the activation does not return. -/
theorem map_loop_out_of_range :
    ∃ st0, mlxsw_m_init (env_ok 2 16 0 8) State_zero = some (0, st0) ∧
      st0.m.num_of_slots = 3 ∧ st0.m.max_module_count = 16 ∧ st0.m.max_ports = 8 ∧
      (st0.m.line_cards[2]?).map (fun lc => lc.port_mapping.length) = some 8 ∧
      offset_of st0.m 2 = 16 ∧
      mlxsw_m_port_mapping_get st0.m 2 (1 + offset_of st0.m 2) = none ∧
      mlxsw_m_got_active (env_ok 2 16 1 8) st0 2 = none :=
  ⟨_, rfl, rfl, rfl, rfl, rfl, rfl, rfl, rfl⟩

/-- C11: for a slot whose table is well formed (allocated with at least the
chassis `max_ports` entries, every assigned entry assigned to its own index
and holding a Port Object) and whose capacity register reports `k` with
`module_offset + k < max_ports`: every index `i + module_offset`, `i = 1..k`,
of the mapping loop and every index below `max_ports` of the other loops is an
entry of the table; `mlxsw_m_got_active` returns, whatever the collaborators
answer, which in this model means that no access of the mapping loop, the
port-creation loop or the two unwinding loops left the table, and the table is
well formed again; so does `mlxsw_m_got_inactive`. Without the bound there is
a slot, a capacity and a `max_module_count` for which the first access of the
mapping loop is beyond the table. -/
theorem table_access_in_range (env : Env) (st : State) (s : Nat) (hwf : slot_wf st s)
    (hb : offset_of st.m s + (env.mgpir s).num_of_modules % 256 < st.m.max_ports) :
    (∀ i, 1 ≤ i → i ≤ (env.mgpir s).num_of_modules % 256 →
      ∃ pm, mlxsw_m_port_mapping_get st.m s (i + offset_of st.m s) = some pm) ∧
    (∀ j, j < st.m.max_ports → ∃ pm, mlxsw_m_port_mapping_get st.m s j = some pm) ∧
    (∃ st', mlxsw_m_got_active env st s = some st' ∧ slot_wf st' s) ∧
    (∃ st', mlxsw_m_got_inactive st s = some st' ∧ slot_wf st' s) ∧
    (∃ st0 s0 k0, s0 < st0.m.num_of_slots ∧
      st0.m.max_ports ≤ offset_of st0.m s0 + k0 ∧
      mlxsw_m_port_mapping_get st0.m s0 (1 + offset_of st0.m s0) = none ∧
      mlxsw_m_got_active (env_ok 2 16 k0 8) st0 s0 = none) := by
  refine ⟨fun i _ hi => mapping_get_of_base st s _ hwf.1 (by omega),
    fun j hj => mapping_get_of_base st s j hwf.1 hj,
    wf_got_active env st s hwf hb, wf_got_inactive st s hwf, ?_⟩
  obtain ⟨st0, _, h1, _, h3, _, h5, h6, h7⟩ := map_loop_out_of_range
  exact ⟨st0, 2, 1, by rw [h1]; decide, by rw [h3, h5]; decide, h6, h7⟩

theorem table_access_in_range_witness :
    slot_wf (State_invalidated 3 4 16) 2 ∧
    offset_of (State_invalidated 3 4 16).m 2 +
      ((env_ok 2 4 3 16).mgpir 2).num_of_modules % 256 < (State_invalidated 3 4 16).m.max_ports ∧
    (∃ st', mlxsw_m_got_active (env_ok 2 4 3 16) (State_invalidated 3 4 16) 2 = some st' ∧
      slot_wf st' 2) :=
  ⟨slot_wf_invalidated 3 4 16 2 (by decide) (by decide), by decide,
    (table_access_in_range (env_ok 2 4 3 16) (State_invalidated 3 4 16) 2
      (slot_wf_invalidated 3 4 16 2 (by decide) (by decide)) (by decide)).2.2.1⟩

end Mlxsw
